import Mathlib

/-!
# Verification of the scene-graph visual node (`src/rendering/Visual.cc`)

A shallow embedding of `gazebo::rendering::Visual` and of the part of the
rendering backend it drives, followed by theorems about the embedding.

Conventions of the embedding

* `float`/`double` values are rationals (`ℚ`); coordinates that may be
  non-finite (bounding-box corners, mesh extents) are `Coord`, the rationals
  extended by `⊥` (−∞) and `⊤` (+∞).  NaN is not represented.
* Objects reached through pointers are passed and returned as values; the
  process-wide singletons and the scene manager are gathered in `Backend`.
* A method that can leave by an exception returns the state reached together
  with `some fault`, or with `none` when it returns normally; a constructor
  returns the visual and the backend, or the fault.
* The `int index` of the name-probing loops is a natural number; the theorems
  bound it by the number of registered names.
-/

namespace gazebo

/-! ## Faults -/

/-- Ways in which a call can end other than by returning normally. -/
inductive Fault where
  /-- A null pointer is dereferenced (undefined behaviour in the source). -/
  | nullDeref
  /-- The iteration bound handed to a loop of the embedding is used up. -/
  | outOfFuel
  /-- A `common::Exception` raised by `gzthrow`. -/
  | gzthrow (msg : String)
  /-- An `Ogre::Exception` that leaves the function. -/
  | ogre (msg : String)
deriving DecidableEq

/-! ## Math types (`math::Vector3`, `math::Quaternion`, `math::Pose`, `math::Box`) -/

/-- Extended rational: a coordinate that may be −∞ (`⊥`) or +∞ (`⊤`). -/
abbrev Coord := WithBot (WithTop ℚ)

/-- Three components, as `math::Vector3` and `Ogre::Vector3`. -/
structure Vector3 (α : Type) where
  x : α
  y : α
  z : α
deriving DecidableEq

/-- Quaternion `(w, x, y, z)`, as `math::Quaternion` and `Ogre::Quaternion`. -/
structure Quaternion where
  w : ℚ
  x : ℚ
  y : ℚ
  z : ℚ
deriving DecidableEq

/-- Position and orientation, as `math::Pose`. -/
structure Pose where
  pos : Vector3 ℚ
  rot : Quaternion
deriving DecidableEq

/-- Colour with alpha, as `common::Color` and `Ogre::ColourValue`. -/
structure Color where
  r : ℚ
  g : ℚ
  b : ℚ
  a : ℚ
deriving DecidableEq

/-- Modelled from the spec: `math::Vector3::IsFinite` (only called in this file),
true when no component is infinite. -/
def Vector3.IsFinite (v : Vector3 Coord) : Bool :=
  decide (v.x ≠ ⊥ ∧ v.x ≠ ⊤ ∧ v.y ≠ ⊥ ∧ v.y ≠ ⊤ ∧ v.z ≠ ⊥ ∧ v.z ≠ ⊤)

/-- Axis-aligned box given by its minimum and maximum corners, as `math::Box`. -/
structure Box where
  min : Vector3 Coord
  max : Vector3 Coord
deriving DecidableEq

/-- Modelled from the spec: the default-constructed `math::Box` (the class is only
used in this file).  An empty box is the infinite-inverted sentinel, so that the
first real merge defines it. -/
def Box.empty : Box :=
  { min := ⟨⊤, ⊤, ⊤⟩, max := ⟨⊥, ⊥, ⊥⟩ }

/-- Modelled from the spec: `math::Box::Merge` (the class is only used in this
file): componentwise minimum of the minima and maximum of the maxima. -/
def Box.Merge (a b : Box) : Box :=
  { min := ⟨Min.min a.min.x b.min.x, Min.min a.min.y b.min.y, Min.min a.min.z b.min.z⟩,
    max := ⟨Max.max a.max.x b.max.x, Max.max a.max.y b.max.y, Max.max a.max.z b.max.z⟩ }

/-- Hamilton product, as `Ogre::Quaternion::operator*`. -/
def Quaternion.mul (p q : Quaternion) : Quaternion :=
  { w := p.w * q.w - p.x * q.x - p.y * q.y - p.z * q.z,
    x := p.w * q.x + p.x * q.w + p.y * q.z - p.z * q.y,
    y := p.w * q.y + p.y * q.w + p.z * q.x - p.x * q.z,
    z := p.w * q.z + p.z * q.w + p.x * q.y - p.y * q.x }

/-- Inverse, as `Ogre::Quaternion::Inverse`: the zero quaternion when the norm is
not positive. -/
def Quaternion.Inverse (q : Quaternion) : Quaternion :=
  let n := q.w * q.w + q.x * q.x + q.y * q.y + q.z * q.z
  if 0 < n then { w := q.w / n, x := -q.x / n, y := -q.y / n, z := -q.z / n }
  else { w := 0, x := 0, y := 0, z := 0 }

/-- Cross product of two vectors. -/
def Vector3.cross (a b : Vector3 ℚ) : Vector3 ℚ :=
  ⟨a.y * b.z - a.z * b.y, a.z * b.x - a.x * b.z, a.x * b.y - a.y * b.x⟩

/-- Rotation of a vector, as `Ogre::Quaternion::operator*(Vector3)`. -/
def Quaternion.rotate (q : Quaternion) (v : Vector3 ℚ) : Vector3 ℚ :=
  let qvec : Vector3 ℚ := ⟨q.x, q.y, q.z⟩
  let uv := qvec.cross v
  let uuv := qvec.cross uv
  ⟨v.x + 2 * q.w * uv.x + 2 * uuv.x,
   v.y + 2 * q.w * uv.y + 2 * uuv.y,
   v.z + 2 * q.w * uv.z + 2 * uuv.z⟩

/-! ## Materials (`Ogre::Material`, `Ogre::Technique`, `Ogre::Pass`) -/

/-- Polygon mode of a pass, as `Ogre::PolygonMode`. -/
inductive PolygonMode where
  | PM_POINTS
  | PM_WIREFRAME
  | PM_SOLID
deriving DecidableEq

/-- Scene blending of a pass, as `Ogre::SceneBlendType`. -/
inductive SceneBlendType where
  | SBT_TRANSPARENT_ALPHA
  | SBT_TRANSPARENT_COLOUR
  | SBT_ADD
  | SBT_MODULATE
  | SBT_REPLACE
deriving DecidableEq

/-- State of an `Ogre::Pass` that the visual reads or writes. -/
structure Pass where
  programmable : Bool
  polygonMode : PolygonMode
  sceneBlending : SceneBlendType
  depthWriteEnabled : Bool
  diffuse : Color
  selfIllumination : Color
deriving DecidableEq

/-- Passes of an `Ogre::Technique`. -/
structure Technique where
  passes : List Pass
deriving DecidableEq

/-- Named material resource of the `Ogre::MaterialManager`. -/
structure Material where
  name : String
  techniques : List Technique
deriving DecidableEq

/-! ## Renderable attachments (`Ogre::MovableObject`) -/

/-- Content of the `Ogre::Any` user tag of a movable object. -/
inductive UserAny where
  | empty
  | str (s : String)
  | other
deriving DecidableEq

/-- Renderable attachment.  An object is an `Ogre::Entity` when its movable type is
`"Entity"`; it then has one material per sub-entity.  Other renderables carry a
single material name. -/
structure MovableObject where
  name : String
  movableType : String
  subEntityMaterials : List String
  materialName : String
  visible : Bool
  castShadows : Bool
  renderQueueGroup : Nat
  visibilityFlags : Nat
  userAny : UserAny
  worldBoundingBox : Box
deriving DecidableEq

/-- Test `dynamic_cast<Ogre::Entity*>(obj)`. -/
def MovableObject.isEntity (o : MovableObject) : Bool :=
  o.movableType == "Entity"

/-! ## Scene nodes (`Ogre::SceneNode`) -/

/-- Local state of an `Ogre::SceneNode`, with the derived (world) transform of its
parent node as the backend resolves it. -/
structure SceneNode where
  name : String
  position : Vector3 ℚ
  orientation : Quaternion
  scale : Vector3 ℚ
  parentDerivedPosition : Vector3 ℚ
  parentDerivedOrientation : Quaternion
  parentDerivedScale : Vector3 ℚ
  autoTrack : Option String
  objects : List MovableObject
deriving DecidableEq

/-- Finite tree of scene nodes, as the child iterator of `Ogre::SceneNode` exposes
the nodes below a node. -/
inductive NodeTree where
  | node (self : SceneNode) (children : List NodeTree)

/-! ## Descriptor (`sdf::Element` initialised from `/sdf/visual.sdf`) -/

/-- Modelled from the spec: the geometry element of the descriptor, a tagged union
with exactly one variant populated (`sdf::Element` is not part of this file). -/
inductive Geometry where
  | box (size : Vector3 ℚ)
  | sphere (radius : ℚ)
  | cylinder (radius length : ℚ)
  | plane (normal : Vector3 ℚ)
  | mesh (filename : String) (scale : Vector3 ℚ)
deriving DecidableEq

/-- Modelled from the spec: the material element of the descriptor: script name,
optional solid colour, normal map. -/
structure MaterialElement where
  script : String
  color : Option Color
  normal_map : String
deriving DecidableEq

/-- Modelled from the spec: the descriptor tree of a visual.  `geometry = none`: no
geometry element; `geometry = some none`: a geometry element without a variant. -/
structure Element where
  geometry : Option (Option Geometry)
  origin : Option Pose
  material : Option MaterialElement
  cast_shadows : Bool
deriving DecidableEq

/-- Modelled from the spec: the descriptor after `sdf::initFile("/sdf/visual.sdf")`, a
minimal geometry-less state. -/
def Element.initFile : Element :=
  { geometry := none, origin := none, material := none, cast_shadows := true }

/-! ## Meshes (`common::Mesh`, `Ogre::Mesh`) -/

/-- In-memory submesh, as `common::SubMesh`. -/
structure SubMesh where
  vertices : List (Vector3 ℚ)
  normals : List (Vector3 ℚ)
  texCoords : List (ℚ × ℚ)
  indices : List Nat
  materialIndex : Nat
deriving DecidableEq

/-- In-memory mesh, as `common::Mesh`: name, submeshes, names of its materials and
the corners of its bounding box. -/
structure Mesh where
  name : String
  submeshes : List SubMesh
  materials : List String
  max : Vector3 Coord
  min : Vector3 Coord
deriving DecidableEq

/-- Type of a vertex element, as `Ogre::VertexElementType`. -/
inductive VertexElementType where
  | VET_FLOAT2
  | VET_FLOAT3
deriving DecidableEq

/-- Meaning of a vertex element, as `Ogre::VertexElementSemantic`. -/
inductive VertexElementSemantic where
  | VES_POSITION
  | VES_NORMAL
  | VES_TEXTURE_COORDINATES
deriving DecidableEq

/-- Entry of an `Ogre::VertexDeclaration`. -/
structure VertexElement where
  source : Nat
  offset : Nat
  type : VertexElementType
  semantic : VertexElementSemantic
deriving DecidableEq

/-- Sub-resource of an Ogre mesh with its vertex and index buffers. -/
structure OgreSubMesh where
  useSharedVertices : Bool
  vertexDeclaration : List VertexElement
  vertexCount : Nat
  vertexBufferBytes : Nat
  vertexBuffer : List ℚ
  indexCount : Nat
  indexBuffer : List Nat
  materialName : Option String
deriving DecidableEq

/-- Mesh resource of the `Ogre::MeshManager`. -/
structure OgreMesh where
  name : String
  subMeshes : List OgreSubMesh
  bounds : Option Box
  loaded : Bool
deriving DecidableEq

/-! ## Backend state -/

/-- The state outside the visual that the visual reads or writes: the scene manager
(names of its scene nodes, their parent and child links, its entities), the Ogre
material and mesh managers, the mesh store (`common::MeshManager`), the console
and the shader system. -/
structure Backend where
  sceneNodes : List String
  parentOf : String → Option String
  childrenOf : String → List String
  entities : List MovableObject
  materials : List Material
  cloneCount : Nat
  ogreMeshes : List OgreMesh
  meshStore : List Mesh
  meshFiles : List Mesh
  console : List String
  shaderEntities : List String
  shaderUpdates : Nat

/-- A backend with nothing registered. -/
def Backend.empty : Backend :=
  { sceneNodes := [], parentOf := fun _ => none, childrenOf := fun _ => [],
    entities := [], materials := [], cloneCount := 0, ogreMeshes := [],
    meshStore := [], meshFiles := [], console := [], shaderEntities := [],
    shaderUpdates := 0 }

/-- Append a line to the console (`gzerr`, `gzwarn`). -/
def Backend.log (b : Backend) (line : String) : Backend :=
  { b with console := b.console ++ [line] }

/-! ## The visual -/

/-- Member variables of `rendering::Visual`.  `parent` holds the name of the visual
that the `VisualPtr` points to. -/
structure Visual where
  name : String
  sceneNode : SceneNode
  parent : Option String
  sdf : Element
  transparency : ℚ
  isStatic : Bool
  visible : Bool
  myMaterialName : String
  origMaterialName : String
  ribbonTrail : Bool
deriving DecidableEq

/-! ## Derived transform of a scene node -/

/-- World orientation of a node, as `Ogre::Node::_getDerivedOrientation`. -/
def SceneNode.derivedOrientation (n : SceneNode) : Quaternion :=
  n.parentDerivedOrientation.mul n.orientation

/-- World scale of a node, as `Ogre::Node::_getDerivedScale`. -/
def SceneNode.derivedScale (n : SceneNode) : Vector3 ℚ :=
  ⟨n.parentDerivedScale.x * n.scale.x, n.parentDerivedScale.y * n.scale.y,
   n.parentDerivedScale.z * n.scale.z⟩

/-- World position of a node, as `Ogre::Node::_getDerivedPosition`. -/
def SceneNode.derivedPosition (n : SceneNode) : Vector3 ℚ :=
  let scaled : Vector3 ℚ :=
    ⟨n.parentDerivedScale.x * n.position.x, n.parentDerivedScale.y * n.position.y,
     n.parentDerivedScale.z * n.position.z⟩
  let r := n.parentDerivedOrientation.rotate scaled
  ⟨r.x + n.parentDerivedPosition.x, r.y + n.parentDerivedPosition.y,
   r.z + n.parentDerivedPosition.z⟩

/-- The root scene node of the scene manager: identity transform. -/
def rootSceneNode : SceneNode :=
  { name := "Ogre/SceneRoot", position := ⟨0, 0, 0⟩, orientation := ⟨1, 0, 0, 0⟩,
    scale := ⟨1, 1, 1⟩, parentDerivedPosition := ⟨0, 0, 0⟩,
    parentDerivedOrientation := ⟨1, 0, 0, 0⟩, parentDerivedScale := ⟨1, 1, 1⟩,
    autoTrack := none, objects := [] }

/-! ## Construction and unique names (Visual.cc 50-155) -/

/-- Decimal rendering of the loop index, `boost::lexical_cast<std::string>(index)`. -/
def lexical_cast (index : Nat) : String :=
  Nat.repr index

/-- Query `Ogre::SceneManager::hasSceneNode`. -/
def Backend.hasSceneNode (b : Backend) (n : String) : Bool :=
  decide (n ∈ b.sceneNodes)

/-- The name-probing loop of the three constructors (lines 61-64, 81-84, 99-104):
`while (hasSceneNode(uniqueName)) uniqueName = name + "_" + lexical_cast(index++)`.
The first argument bounds the number of evaluations of the loop condition; the
result is the name found and the final value of `index`. -/
def uniqueNameLoop (b : Backend) (name : String) : Nat → String → Nat → Option (String × Nat)
  | 0, _, _ => none
  | fuel + 1, uniqueName, index =>
    if b.hasSceneNode uniqueName then
      uniqueNameLoop b name fuel (name ++ "_" ++ lexical_cast index) (index + 1)
    else
      some (uniqueName, index)

/-- Call `parent->createChildSceneNode(name)`: the scene manager refuses a name it
already has (`Ogre::Exception`); otherwise the node is registered and linked below
`parent`, with identity local transform. -/
def Backend.createChildSceneNode (b : Backend) (parent : SceneNode) (name : String) :
    Except Fault (SceneNode × Backend) :=
  if b.hasSceneNode name then
    .error (.ogre ("A scene node with the name " ++ name ++ " already exists"))
  else
    .ok ({ name := name, position := ⟨0, 0, 0⟩, orientation := ⟨1, 0, 0, 0⟩,
           scale := ⟨1, 1, 1⟩, parentDerivedPosition := parent.derivedPosition,
           parentDerivedOrientation := parent.derivedOrientation,
           parentDerivedScale := parent.derivedScale, autoTrack := none, objects := [] },
         { b with sceneNodes := name :: b.sceneNodes,
                  parentOf := fun n => if n = name then some parent.name else b.parentOf n,
                  childrenOf := fun n =>
                    if n = parent.name then b.childrenOf n ++ [name] else b.childrenOf n })

/-- Helper of the constructors, `Visual::Init` (lines 143-155).  The fields that
`Init` assigns are given their values here; `name`, `sceneNode` and `parent` come
from the constructor. -/
def Visual.Init (name : String) (sceneNode : SceneNode) (parent : Option String)
    (b : Backend) : Visual × Backend :=
  ({ name := name, sceneNode := sceneNode, parent := parent, sdf := Element.initFile,
     transparency := 0, isStatic := false, visible := true, myMaterialName := "",
     origMaterialName := "", ribbonTrail := false },
   { b with shaderEntities := b.shaderEntities ++ [name] })

/-- Common tail of the three constructors once the parent scene node is known. -/
def Visual.construct (fuel : Nat) (_name : String) (pnode : SceneNode)
    (parent : Option String) (b : Backend) : Except Fault (Visual × Backend) :=
  match uniqueNameLoop b _name fuel _name 0 with
  | none => .error .outOfFuel
  | some (uniqueName, _) =>
    match b.createChildSceneNode pnode uniqueName with
    | .error f => .error f
    | .ok (node, b1) => .ok (Visual.Init uniqueName node parent b1)

/-- Constructor `Visual::Visual(const std::string&, VisualPtr)` (lines 50-72).  With a
null parent the error is logged, `pnode` stays null and the loop condition
dereferences it. -/
def Visual.fromVisual (fuel : Nat) (_name : String) (_parent : Option Visual)
    (b : Backend) : Except Fault (Visual × Backend) :=
  match _parent with
  | none => .error .nullDeref
  | some p => Visual.construct fuel _name p.sceneNode (some p.name) b

/-- Constructor `Visual::Visual(const std::string&, Ogre::SceneNode*)` (lines 76-90). -/
def Visual.fromSceneNode (fuel : Nat) (_name : String) (_parent : SceneNode)
    (b : Backend) : Except Fault (Visual × Backend) :=
  Visual.construct fuel _name _parent none b

/-- Constructor `Visual::Visual(const std::string&, Scene*)` (lines 94-111). -/
def Visual.fromScene (fuel : Nat) (_name : String) (b : Backend) :
    Except Fault (Visual × Backend) :=
  Visual.construct fuel _name rootSceneNode none b

/-- Which constructor creates a node, with its (non-null) parent. -/
inductive Creator where
  | underVisual (parent : Visual)
  | underSceneNode (parent : SceneNode)
  | underScene

/-- Run the constructor selected by `how`. -/
def Creator.run (fuel : Nat) (_name : String) (how : Creator) (b : Backend) :
    Except Fault (Visual × Backend) :=
  match how with
  | .underVisual p => Visual.fromVisual fuel _name (some p) b
  | .underSceneNode p => Visual.fromSceneNode fuel _name p b
  | .underScene => Visual.fromScene fuel _name b

/-- Create nodes one after another with the same requested name and collect the
names assigned, in order of creation. -/
def createAll (fuel : Nat) (_name : String) : List Creator → Backend →
    Except Fault (List String × Backend)
  | [], b => .ok ([], b)
  | how :: rest, b =>
    match how.run fuel _name b with
    | .error f => .error f
    | .ok (vis, b1) =>
      match createAll fuel _name rest b1 with
      | .error f => .error f
      | .ok (names, b2) => .ok (vis.name :: names, b2)

/-- Value of a decimal digit character. -/
def digitValue (c : Char) : Nat :=
  c.toNat - 48

/-- Number denoted by a string of decimal digits. -/
def decimalValue (cs : List Char) : Nat :=
  cs.foldl (fun acc c => acc * 10 + digitValue c) 0

/-- The k-th name the probing loop tries for a requested name: the name itself,
then the name followed by `_0`, `_1`, ... -/
def candidate (name : String) : Nat → String
  | 0 => name
  | k + 1 => name ++ "_" ++ lexical_cast k

/-- Names assigned by `createAll`, when every constructor returns. -/
def createdNames (fuel : Nat) (_name : String) (hows : List Creator) (b : Backend) :
    Option (List String) :=
  match createAll fuel _name hows b with
  | .error _ => none
  | .ok (names, _) => some names

/-- A backend in which the scene nodes `a` and `a_0` are registered below the root. -/
def backendWithA : Backend :=
  { Backend.empty with
    sceneNodes := ["a_0", "a"],
    parentOf := fun n => if n = "a" ∨ n = "a_0" then some "Ogre/SceneRoot" else none,
    childrenOf := fun n => if n = "Ogre/SceneRoot" then ["a", "a_0"] else [] }

/-! ## Hierarchy (Visual.cc 341-360, 1224-1227) -/

/-- Call `parent->removeChild(child)` of `Ogre::Node`: the child is unlinked only
when it is in the children collection of `parent`. -/
def Backend.removeChild (b : Backend) (parent child : String) : Backend :=
  if child ∈ b.childrenOf parent then
    { b with
      childrenOf := fun n => if n = parent then (b.childrenOf n).erase child else b.childrenOf n,
      parentOf := fun n => if n = child then none else b.parentOf n }
  else b

/-- Call `parent->addChild(child)` of `Ogre::Node`: refused with an
`Ogre::Exception` when the child still has a parent. -/
def Backend.addChild (b : Backend) (parent child : String) : Backend × Option Fault :=
  match b.parentOf child with
  | some q => (b, some (.ogre ("Node " ++ child ++ " already was a child of " ++ q)))
  | none =>
    ({ b with
       childrenOf := fun n =>
         if n = parent then
           (if child ∈ b.childrenOf n then b.childrenOf n else b.childrenOf n ++ [child])
         else b.childrenOf n,
       parentOf := fun n => if n = child then some parent else b.parentOf n }, none)

/-- Method `Visual::AttachVisual` (lines 341-353).  The result holds the child
visual after the call (no member of it is written), the backend and the fault, if
any. -/
def Visual.AttachVisual (this : Visual) (vis : Option Visual) (b : Backend) :
    Option Visual × Backend × Option Fault :=
  match vis with
  | none => (none, b.log "Visual is null", none)
  | some v =>
    let b1 :=
      match b.parentOf v.sceneNode.name with
      | some q => b.removeChild q v.sceneNode.name
      | none => b
    let r := b1.addChild this.sceneNode.name v.sceneNode.name
    (some v, r.1, r.2)

/-- Method `Visual::DetachVisual` (lines 357-360). -/
def Visual.DetachVisual (this : Visual) (vis : Visual) (b : Backend) : Backend :=
  b.removeChild this.sceneNode.name vis.sceneNode.name

/-- Method `Visual::GetParent` (lines 1224-1227). -/
def Visual.GetParent (this : Visual) : Option String :=
  this.parent

/-- Method `Visual::GetName` (lines 334-337). -/
def Visual.GetName (this : Visual) : String :=
  this.name

/-! ## Scale (Visual.cc 442-490) -/

/-- Modelled from the spec: `sdf::Element::GetOrCreateElement("geometry")`. -/
def Element.GetOrCreateGeometry (e : Element) : Element :=
  match e.geometry with
  | none => { e with geometry := some none }
  | some _ => e

/-- Method `Visual::SetScale` (lines 442-459). -/
def Visual.SetScale (this : Visual) (scale : Vector3 ℚ) : Visual :=
  let sdf := this.sdf.GetOrCreateGeometry
  let geometry :=
    match sdf.geometry with
    | some (some (.box _)) => some (some (.box scale))
    | some (some (.sphere _)) => some (some (.sphere scale.x))
    | some (some (.cylinder _ _)) => some (some (.cylinder scale.x scale.y))
    | some (some (.mesh filename _)) => some (some (.mesh filename scale))
    | g => g
  { this with sdf := { sdf with geometry := geometry },
              sceneNode := { this.sceneNode with scale := scale } }

/-- Method `Visual::GetScale` (lines 463-490). -/
def Visual.GetScale (this : Visual) : Vector3 ℚ :=
  match this.sdf.geometry with
  | some (some (.box size)) => size
  | some (some (.sphere r)) => ⟨r, r, r⟩
  | some (some (.cylinder r l)) => ⟨r, r, l⟩
  | some (some (.plane _)) => ⟨1, 1, 1⟩
  | some (some (.mesh _ scale)) => scale
  | _ => ⟨1, 1, 1⟩

/-! ## Materials (Visual.cc 495-565, 983-986) -/

/-- Lookup `Ogre::MaterialManager::getByName`: null when no material has the name. -/
def Backend.getByName (b : Backend) (name : String) : Option Material :=
  b.materials.find? (fun m => m.name == name)

/-- Query `Ogre::MaterialManager::resourceExists`. -/
def Backend.resourceExists (b : Backend) (name : String) : Bool :=
  b.materials.any (fun m => m.name == name)

/-- Call `origMaterial->clone(newName)`: a copy under the new name enters the
registry; `cloneCount` counts the clone operations. -/
def Backend.clone (b : Backend) (orig : Material) (newName : String) : Backend :=
  { b with materials := b.materials ++ [{ orig with name := newName }],
           cloneCount := b.cloneCount + 1 }

/-- Calls `Entity::setMaterialName` (every sub-entity) and
`SimpleRenderable::setMaterial`, chosen by the dynamic cast of lines 552-555. -/
def MovableObject.setMaterialName (o : MovableObject) (name : String) : MovableObject :=
  if o.isEntity then { o with subEntityMaterials := o.subEntityMaterials.map fun _ => name }
  else { o with materialName := name }

/-- Method `Visual::GetMaterialName` (lines 983-986). -/
def Visual.GetMaterialName (this : Visual) : String :=
  this.myMaterialName

/-- Method `Visual::SetMaterial` (lines 495-565). -/
def Visual.SetMaterial (this : Visual) (materialName : String) (b : Backend) :
    Visual × Backend :=
  if materialName = "" then (this, b)
  else
    let newMaterialName := this.sceneNode.name ++ "_MATERIAL_" ++ materialName
    if this.GetMaterialName = newMaterialName then (this, b)
    else
      let this1 := { this with myMaterialName := newMaterialName,
                               origMaterialName := materialName }
      match b.getByName materialName with
      | none =>
        (this1, b.log ("Unable to get Material[" ++ materialName ++ "] for Geometry["
          ++ this.sceneNode.name ++ ". Object will appear white"))
      | some origMaterial =>
        let b1 :=
          if b.resourceExists newMaterialName then b else b.clone origMaterial newMaterialName
        let objects := this1.sceneNode.objects.map fun o => o.setMaterialName newMaterialName
        ({ this1 with sceneNode := { this1.sceneNode with objects := objects } },
         { b1 with shaderUpdates := b1.shaderUpdates + 1 })

/-- Method `Visual::SetColor` (lines 568-571): not implemented in the source. -/
def Visual.SetColor (this : Visual) (_color : Color) : Visual :=
  this

/-! ## Transparency and emissive colour (Visual.cc 621-722) -/

/-- Body of the innermost loop of `SetTransparency` (lines 653-668) for one pass. -/
def Pass.applyTransparency (transparency : ℚ) (pass : Pass) : Pass :=
  let p1 :=
    if !pass.programmable && pass.polygonMode == PolygonMode.PM_SOLID then
      { pass with sceneBlending := SceneBlendType.SBT_TRANSPARENT_ALPHA }
    else pass
  let p2 := { p1 with depthWriteEnabled := if transparency > 0 then false else true }
  { p2 with diffuse := { p2.diffuse with a := 1 - transparency } }

/-- Apply an edit to every pass of every technique of a material. -/
def Material.mapPasses (f : Pass → Pass) (m : Material) : Material :=
  { m with techniques := m.techniques.map fun t => { t with passes := t.passes.map f } }

/-- Edit, through the shared `MaterialPtr`, the material a sub-entity refers to. -/
def Backend.editMaterial (f : Pass → Pass) (b : Backend) (name : String) : Backend :=
  { b with materials := b.materials.map fun m => if m.name = name then m.mapPasses f else m }

/-- The loops over the attached objects and their sub-entities shared by
`SetTransparency` and `SetEmissive`: objects that are not entities are skipped. -/
def editAttachedMaterials (f : Pass → Pass) (objects : List MovableObject) (b : Backend) :
    Backend :=
  objects.foldl
    (fun acc obj =>
      if obj.isEntity then obj.subEntityMaterials.foldl (Backend.editMaterial f) acc else acc)
    b

/-- Method `Visual::SetTransparency` (lines 621-673). -/
def Visual.SetTransparency (this : Visual) (trans : ℚ) (b : Backend) : Visual × Backend :=
  let this1 := { this with transparency := min (max trans 0) 1 }
  (this1, editAttachedMaterials (Pass.applyTransparency this1.transparency)
    this1.sceneNode.objects b)

/-- Method `Visual::SetEmissive` (lines 677-714). -/
def Visual.SetEmissive (this : Visual) (_color : Color) (b : Backend) : Visual × Backend :=
  (this, editAttachedMaterials (fun pass => { pass with selfIllumination := _color })
    this.sceneNode.objects b)

/-- Method `Visual::GetTransparency` (lines 719-722). -/
def Visual.GetTransparency (this : Visual) : ℚ :=
  this.transparency

/-! ## Shadows, visibility, pose (Visual.cc 726-864) -/

/-- Method `Visual::SetCastShadows` (lines 726-736); `staticGeom` is never set,
`MakeStatic` being commented out. -/
def Visual.SetCastShadows (this : Visual) (shadows : Bool) : Visual :=
  { this with sceneNode :=
      { this.sceneNode with
        objects := this.sceneNode.objects.map fun o => { o with castShadows := shadows } } }

/-- Method `Visual::SetVisible` (lines 740-744).  `Ogre::SceneNode::setVisible` sets
the flag of the objects attached to the node; with `cascade_` it also reaches the
child nodes, which belong to other visuals. -/
def Visual.SetVisible (this : Visual) (visible_ : Bool) (_cascade : Bool) : Visual :=
  { this with
    sceneNode :=
      { this.sceneNode with
        objects := this.sceneNode.objects.map fun o => { o with visible := visible_ } },
    visible := visible_ }

/-- Method `Visual::GetVisible` (lines 755-758). -/
def Visual.GetVisible (this : Visual) : Bool :=
  this.visible

/-- Method `Visual::SetPosition` (lines 762-782); the vertices of dynamic lines that
follow the node are not represented. -/
def Visual.SetPosition (this : Visual) (_pos : Vector3 ℚ) : Visual :=
  { this with sceneNode := { this.sceneNode with position := _pos } }

/-- Method `Visual::SetRotation` (lines 787-790). -/
def Visual.SetRotation (this : Visual) (rot : Quaternion) : Visual :=
  { this with sceneNode := { this.sceneNode with orientation := rot } }

/-- Method `Visual::SetPose` (lines 794-798). -/
def Visual.SetPose (this : Visual) (_pose : Pose) : Visual :=
  (this.SetPosition _pose.pos).SetRotation _pose.rot

/-- Method `Visual::GetPosition` (lines 802-805). -/
def Visual.GetPosition (this : Visual) : Vector3 ℚ :=
  this.sceneNode.position

/-- Method `Visual::GetRotation` (lines 809-812). -/
def Visual.GetRotation (this : Visual) : Quaternion :=
  this.sceneNode.orientation

/-- Method `Visual::GetPose` (lines 816-822). -/
def Visual.GetPose (this : Visual) : Pose :=
  { pos := this.GetPosition, rot := this.GetRotation }

/-- Call `Ogre::Node::_setDerivedPosition`: the local position that puts the node
at the given world position, `parent->convertWorldToLocalPosition(pos)`. -/
def SceneNode.setDerivedPosition (n : SceneNode) (pos : Vector3 ℚ) : SceneNode :=
  let d : Vector3 ℚ :=
    ⟨pos.x - n.parentDerivedPosition.x, pos.y - n.parentDerivedPosition.y,
     pos.z - n.parentDerivedPosition.z⟩
  let r := n.parentDerivedOrientation.Inverse.rotate d
  { n with position :=
      ⟨r.x / n.parentDerivedScale.x, r.y / n.parentDerivedScale.y, r.z / n.parentDerivedScale.z⟩ }

/-- Call `Ogre::Node::_setDerivedOrientation`: the local orientation
`parent->convertWorldToLocalOrientation(q)`. -/
def SceneNode.setDerivedOrientation (n : SceneNode) (q : Quaternion) : SceneNode :=
  { n with orientation := n.parentDerivedOrientation.Inverse.mul q }

/-- Method `Visual::SetWorldPose` (lines 824-840). -/
def Visual.SetWorldPose (this : Visual) (_pose : Pose) : Visual :=
  { this with sceneNode :=
      (this.sceneNode.setDerivedPosition _pose.pos).setDerivedOrientation _pose.rot }

/-- Method `Visual::GetWorldPose` (lines 844-864): the position is read with
`_getDerivedPosition`, the orientation with `getOrientation`. -/
def Visual.GetWorldPose (this : Visual) : Pose :=
  { pos := this.sceneNode.derivedPosition, rot := this.sceneNode.orientation }

/-! ## Attachments (Visual.cc 364-397) -/

/-- Constant `Ogre::RENDER_QUEUE_WORLD_GEOMETRY_1`. -/
def RENDER_QUEUE_WORLD_GEOMETRY_1 : Nat := 25

/-- Constant `Ogre::RENDER_QUEUE_MAIN`, the render queue of a new object. -/
def RENDER_QUEUE_MAIN : Nat := 50

/-- Constant `GZ_ALL_CAMERA` of the rendering headers. -/
def GZ_ALL_CAMERA : Nat := 0xFFFFFFFF

/-- Method `Visual::IsPlane` (lines 1229-1237). -/
def Visual.IsPlane (this : Visual) : Bool :=
  match this.sdf.geometry with
  | some (some (.plane _)) => true
  | _ => false

/-- Call `Ogre::SceneNode::attachObject`: refused with an `Ogre::Exception` when
the node already has an object of that name. -/
def SceneNode.attachObject (n : SceneNode) (obj : MovableObject) : SceneNode × Option Fault :=
  if n.objects.any (fun o => o.name == obj.name) then
    (n, some (.ogre ("An object named " ++ obj.name ++ " already attached to this node")))
  else ({ n with objects := n.objects ++ [obj] }, none)

/-- Method `Visual::AttachObject` (lines 364-376): render queue of a plane, attach,
then tag the object with the name of the visual. -/
def Visual.AttachObject (this : Visual) (_obj : MovableObject) : Visual × Option Fault :=
  let obj1 :=
    if this.IsPlane then { _obj with renderQueueGroup := RENDER_QUEUE_WORLD_GEOMETRY_1 - 2 }
    else _obj
  let obj2 := { obj1 with userAny := UserAny.str this.GetName }
  match this.sceneNode.attachObject obj2 with
  | (_, some f) => (this, some f)
  | (node, none) => ({ this with sceneNode := node }, none)

/-- Method `Visual::DetachObjects` (lines 380-383). -/
def Visual.DetachObjects (this : Visual) : Visual :=
  { this with sceneNode := { this.sceneNode with objects := [] } }

/-- Method `Visual::GetNumAttached` (lines 387-390). -/
def Visual.GetNumAttached (this : Visual) : Nat :=
  this.sceneNode.objects.length

/-- Method `Visual::GetAttached` (lines 394-397). -/
def Visual.GetAttached (this : Visual) (num : Nat) : Option MovableObject :=
  this.sceneNode.objects.get? num

/-! ## Mesh upload (Visual.cc 1036-1188) -/

/-- Modelled from the spec: accessor `common::SubMesh::GetVertex` over one of the parallel
arrays of a submesh; an index outside the array is reported with `gzthrow`. -/
def SubMesh.GetVertex (sm : SubMesh) (j : Nat) : Except Fault (Vector3 ℚ) :=
  match sm.vertices.get? j with
  | some v => .ok v
  | none => .error (.gzthrow "Index too large")

/-- Modelled from the spec: accessor `common::SubMesh::GetNormal` over one of the parallel
arrays of a submesh; an index outside the array is reported with `gzthrow`. -/
def SubMesh.GetNormal (sm : SubMesh) (j : Nat) : Except Fault (Vector3 ℚ) :=
  match sm.normals.get? j with
  | some v => .ok v
  | none => .error (.gzthrow "Index too large")

/-- Modelled from the spec: accessor `common::SubMesh::GetTexCoord` over one of the parallel
arrays of a submesh; an index outside the array is reported with `gzthrow`. -/
def SubMesh.GetTexCoord (sm : SubMesh) (j : Nat) : Except Fault (ℚ × ℚ) :=
  match sm.texCoords.get? j with
  | some v => .ok v
  | none => .error (.gzthrow "Index too large")

/-- Size in bytes of a vertex element type, `Ogre::VertexElement::getTypeSize`. -/
def getTypeSize : VertexElementType → Nat
  | .VET_FLOAT2 => 8
  | .VET_FLOAT3 => 12

/-- The vertex declaration built at lines 1062-1098, with the final `currOffset`,
which is the vertex size `vertexDecl->getVertexSize(0)`. -/
def vertexDeclaration (subMesh : SubMesh) : List VertexElement × Nat :=
  let currOffset := 0
  let decl := [{ source := 0, offset := currOffset, type := VertexElementType.VET_FLOAT3,
                 semantic := VertexElementSemantic.VES_POSITION : VertexElement }]
  let currOffset := currOffset + getTypeSize .VET_FLOAT3
  let r1 : List VertexElement × Nat :=
    if subMesh.normals.length > 0 then
      (decl ++ [{ source := 0, offset := currOffset, type := .VET_FLOAT3, semantic := .VES_NORMAL }],
       currOffset + getTypeSize .VET_FLOAT3)
    else (decl, currOffset)
  if subMesh.texCoords.length > 0 then
    (r1.1 ++ [{ source := 0, offset := r1.2, type := .VET_FLOAT2,
                semantic := .VES_TEXTURE_COORDINATES }],
     r1.2 + getTypeSize .VET_FLOAT2)
  else r1

/-- The floats written for vertex `j` by one round of the loop of lines 1130-1148. -/
def vertexFloats (subMesh : SubMesh) (j : Nat) : Except Fault (List ℚ) :=
  match subMesh.GetVertex j with
  | .error f => .error f
  | .ok v =>
    let pos := [v.x, v.y, v.z]
    let withNormal : Except Fault (List ℚ) :=
      if subMesh.normals.length > 0 then
        match subMesh.GetNormal j with
        | .error f => .error f
        | .ok n => .ok (pos ++ [n.x, n.y, n.z])
      else .ok pos
    match withNormal with
    | .error f => .error f
    | .ok fs =>
      if subMesh.texCoords.length > 0 then
        match subMesh.GetTexCoord j with
        | .error f => .error f
        | .ok t => .ok (fs ++ [t.1, t.2])
      else .ok fs

/-- The vertex loop of lines 1130-1148 from index `j` on, `count` rounds. -/
def writeVertices (subMesh : SubMesh) : Nat → Nat → Except Fault (List ℚ)
  | 0, _ => .ok []
  | count + 1, j =>
    match vertexFloats subMesh j with
    | .error f => .error f
    | .ok fs =>
      match writeVertices subMesh count (j + 1) with
      | .error f => .error f
      | .ok rest => .ok (fs ++ rest)

/-- The index loop of lines 1151-1152: every index is stored in 16 bits. -/
def writeIndices (subMesh : SubMesh) : List Nat :=
  subMesh.indices.map fun i => i % 65536

/-- A material with one technique of one default pass, as `Ogre::MaterialManager`
creates it. -/
def Material.create (name : String) : Material :=
  let pass : Pass :=
    { programmable := false, polygonMode := PolygonMode.PM_SOLID,
      sceneBlending := SceneBlendType.SBT_REPLACE, depthWriteEnabled := true,
      diffuse := ⟨1, 1, 1, 1⟩, selfIllumination := ⟨0, 0, 0, 1⟩ }
  { name := name, techniques := [Technique.mk [pass]] }

/-- Modelled from the spec: `rendering::Material::Update`, which resolves the
material of a submesh by name, creating it in the registry when it is missing
(the colours of `common::Material` are not represented). -/
def Backend.updateMaterial (b : Backend) (name : String) : Backend :=
  if b.resourceExists name then b else { b with materials := b.materials ++ [Material.create name] }

/-- One round of the submesh loop (lines 1052-1165): the sub-resource built for a
submesh and the backend after the material update. -/
def insertSubMesh (mesh : Mesh) (subMesh : SubMesh) (b : Backend) :
    Except Fault (OgreSubMesh × Backend) :=
  let decl := vertexDeclaration subMesh
  match writeVertices subMesh subMesh.vertices.length 0 with
  | .error f => .error f
  | .ok floats =>
    let ogreSubMesh : OgreSubMesh :=
      { useSharedVertices := false, vertexDeclaration := decl.1,
        vertexCount := subMesh.vertices.length,
        vertexBufferBytes := decl.2 * subMesh.vertices.length,
        vertexBuffer := floats, indexCount := subMesh.indices.length,
        indexBuffer := writeIndices subMesh, materialName := none }
    match mesh.materials.get? subMesh.materialIndex with
    | some material =>
      .ok ({ ogreSubMesh with materialName := some material }, b.updateMaterial material)
    | none => .ok (ogreSubMesh, b)

/-- The floats of vertex `j` that the loop of lines 1130-1148 has written when an
accessor raises in that round: the position once `GetVertex` has returned, the
normal once `GetNormal` has returned. -/
def partialVertexFloats (subMesh : SubMesh) (j : Nat) : List ℚ :=
  match subMesh.GetVertex j with
  | .error _ => []
  | .ok v =>
    if subMesh.normals.length > 0 then
      match subMesh.GetNormal j with
      | .error _ => [v.x, v.y, v.z]
      | .ok n => [v.x, v.y, v.z, n.x, n.y, n.z]
    else [v.x, v.y, v.z]

/-- The floats written by the vertex loop from index `j` on, `count` rounds, up to
the round in which an accessor raises. -/
def writtenBeforeFault (subMesh : SubMesh) : Nat → Nat → List ℚ
  | 0, _ => []
  | count + 1, j =>
    match vertexFloats subMesh j with
    | .error _ => partialVertexFloats subMesh j
    | .ok fs => fs ++ writtenBeforeFault subMesh count (j + 1)

/-- The sub-resource that a round of the submesh loop leaves behind when the vertex
loop raises: `createSubMesh` (line 1066), the declaration and both buffers exist,
the vertex buffer holds what was written, no index is written and no material
is set. -/
def partialSubMesh (subMesh : SubMesh) : OgreSubMesh :=
  { useSharedVertices := false, vertexDeclaration := (vertexDeclaration subMesh).1,
    vertexCount := subMesh.vertices.length,
    vertexBufferBytes := (vertexDeclaration subMesh).2 * subMesh.vertices.length,
    vertexBuffer := writtenBeforeFault subMesh subMesh.vertices.length 0,
    indexCount := subMesh.indices.length, indexBuffer := [], materialName := none }

/-- The submesh loop: the sub-resources created (the last one unfinished when a
fault stopped the loop), the backend, and the fault that stopped the loop, if
any. -/
def insertSubMeshes (mesh : Mesh) : List SubMesh → Backend →
    List OgreSubMesh × Backend × Option Fault
  | [], b => ([], b, none)
  | subMesh :: rest, b =>
    match insertSubMesh mesh subMesh b with
    | .error f => ([partialSubMesh subMesh], b, some f)
    | .ok (ogreSubMesh, b1) =>
      let r := insertSubMeshes mesh rest b1
      (ogreSubMesh :: r.1, r.2.1, r.2.2)

/-- Replace the mesh resource of the given name. -/
def Backend.setOgreMesh (b : Backend) (m : OgreMesh) : Backend :=
  { b with ogreMeshes := b.ogreMeshes.map fun x => if x.name = m.name then m else x }

/-- Method `Visual::InsertMesh` (lines 1036-1188).  A null mesh pointer is
dereferenced by the first test.  `createManual` raises an `Ogre::Exception` for a
name that is already a resource; it is caught at line 1184.  The exceptions of
`gzthrow` are not `Ogre::Exception`s and leave the function. -/
def Visual.InsertMesh (mesh : Option Mesh) (b : Backend) : Backend × Option Fault :=
  match mesh with
  | none => (b, some .nullDeref)
  | some mesh =>
    if mesh.submeshes.length = 0 then
      (b.log "Visual::InsertMesh no submeshes, this is an invalid mesh", none)
    else if b.ogreMeshes.any (fun m => m.name == mesh.name) then
      (b.log "Unable to create a basic Unit cylinder object", none)
    else
      let ogreMesh : OgreMesh := { name := mesh.name, subMeshes := [], bounds := none, loaded := false }
      let b1 := { b with ogreMeshes := b.ogreMeshes ++ [ogreMesh] }
      let r := insertSubMeshes mesh mesh.submeshes b1
      let ogreMesh1 := { ogreMesh with subMeshes := r.1 }
      let b2 := r.2.1.setOgreMesh ogreMesh1
      match r.2.2 with
      | some f => (b2, some f)
      | none =>
        if !mesh.max.IsFinite then (b2, some (.gzthrow "Max bounding box is not finite"))
        else if !mesh.min.IsFinite then (b2, some (.gzthrow "Min bounding box is not finite"))
        else
          (b2.setOgreMesh { ogreMesh1 with bounds := some ⟨mesh.min, mesh.max⟩, loaded := true },
           none)

/-! ## Loading from the descriptor and from messages (Visual.cc 158-309, 1192-1257) -/

/-- Method `Visual::GetMeshName` (lines 1239-1257). -/
def Visual.GetMeshName (this : Visual) : String :=
  match this.sdf.geometry with
  | some (some (.box _)) => "unit_box"
  | some (some (.sphere _)) => "unit_sphere"
  | some (some (.cylinder _ _)) => "unit_cylinder"
  | some (some (.plane _)) => "unit_plane"
  | some (some (.mesh filename _)) => filename
  | _ => ""

/-- Query `common::MeshManager::HasMesh`. -/
def Backend.HasMesh (b : Backend) (name : String) : Bool :=
  b.meshStore.any (fun m => m.name == name)

/-- Modelled from the spec: `common::MeshManager::Load`, which brings a mesh that
can be read from its file into the mesh store and reports one that cannot. -/
def Backend.LoadMesh (b : Backend) (name : String) : Backend :=
  match b.meshFiles.find? (fun m => m.name == name) with
  | some m => { b with meshStore := b.meshStore ++ [m] }
  | none => b.log ("Unable to find file[" ++ name ++ "]")

/-- Lookup `common::MeshManager::GetMesh`: null when the store has no such mesh. -/
def Backend.GetMesh (b : Backend) (name : String) : Option Mesh :=
  b.meshStore.find? (fun m => m.name == name)

/-- Query `Ogre::SceneManager::hasEntity`. -/
def Backend.hasEntity (b : Backend) (name : String) : Bool :=
  b.entities.any (fun e => e.name == name)

/-- Lookup `Ogre::SceneManager::getEntity`. -/
def Backend.getEntity (b : Backend) (name : String) : Option MovableObject :=
  b.entities.find? (fun e => e.name == name)

/-- Call `Ogre::SceneManager::createEntity(name, meshName)`: an `Ogre::Exception`
when the name is taken or no mesh resource has the mesh name; otherwise an entity
with one sub-entity per sub-resource of the mesh. -/
def Backend.createEntity (b : Backend) (name meshName : String) :
    Except Fault (MovableObject × Backend) :=
  if b.hasEntity name then .error (.ogre ("An entity named " ++ name ++ " already exists"))
  else
    match b.ogreMeshes.find? (fun m => m.name == meshName) with
    | none => .error (.ogre ("Cannot locate mesh " ++ meshName))
    | some m =>
      let entity : MovableObject :=
        { name := name, movableType := "Entity",
          subEntityMaterials := m.subMeshes.map fun sm => sm.materialName.getD "BaseWhite",
          materialName := "", visible := true, castShadows := true,
          renderQueueGroup := RENDER_QUEUE_MAIN, visibilityFlags := 0xFFFFFFFF,
          userAny := UserAny.empty, worldBoundingBox := m.bounds.getD Box.empty }
      .ok (entity, { b with entities := b.entities ++ [entity] })

/-- The `try` block of `Visual::Load` (lines 249-272): the object to attach, the
backend, and the fault that leaves `Load`, if any. -/
def Visual.loadMesh (this : Visual) (meshName : String) (b : Backend) :
    Option MovableObject × Backend × Option Fault :=
  let entityName := "VISUAL_" ++ this.sceneNode.name
  let b1 := if !b.HasMesh meshName then b.LoadMesh meshName else b
  match Visual.InsertMesh (b1.GetMesh meshName) b1 with
  | (b2, some f) => (none, b2, some f)
  | (b2, none) =>
    if b2.hasEntity entityName then (b2.getEntity entityName, b2, none)
    else
      match b2.createEntity entityName meshName with
      | .error _ =>
        (none, b2.log "Ogre Error:",
         some (.gzthrow ("Unable to create a mesh from " ++ meshName)))
      | .ok (obj, b3) => (some obj, b3, none)

/-- Method `Visual::Load()` (lines 235-309). -/
def Visual.Load (this : Visual) (b : Backend) : Visual × Backend × Option Fault :=
  let sdf1 : Element :=
    match this.sdf.origin with
    | none => { this.sdf with origin := some ⟨⟨0, 0, 0⟩, ⟨1, 0, 0, 0⟩⟩ }
    | some _ => this.sdf
  let pose : Pose := sdf1.origin.getD ⟨⟨0, 0, 0⟩, ⟨1, 0, 0, 0⟩⟩
  let this1 := { this with sdf := sdf1 }
  let meshName := this1.GetMeshName
  let r : Option MovableObject × Backend × Option Fault :=
    if meshName ≠ "" then this1.loadMesh meshName b else (none, b, none)
  match r with
  | (_, b1, some f) => (this1, b1, some f)
  | (obj, b1, none) =>
    let attached : Visual × Option Fault :=
      match obj with
      | some o =>
        match this1.AttachObject o with
        | (v, some f) => (v, some f)
        | (v, none) =>
          ({ v with sceneNode :=
               { v.sceneNode with
                 objects := v.sceneNode.objects.map fun x =>
                   if x.name = o.name then { x with visibilityFlags := GZ_ALL_CAMERA } else x } },
           none)
      | none => (this1, none)
    match attached with
    | (v, some f) => (v, b1, some f)
    | (v, none) =>
      let v1 := v.SetPose pose
      let scale := v1.GetScale
      let v2 := { v1 with sceneNode := { v1.sceneNode with scale := scale } }
      let r2 : Visual × Backend :=
        match v2.sdf.material with
        | some matElem =>
          if matElem.script ≠ "" then v2.SetMaterial matElem.script b1
          else
            match matElem.color with
            | some c => (v2.SetColor c, b1)
            | none => (v2, b1)
        | none => (v2, b1)
      (r2.1.SetCastShadows true, r2.2, none)

/-- Kind of geometry in a visual message, as `msgs::Visual::MeshType`. -/
inductive MeshType where
  | BOX
  | SPHERE
  | CYLINDER
  | PLANE
  | MESH
deriving DecidableEq

/-- Modelled from the spec: the descriptor update message `msgs::Visual`, every
field optional.  A message without geometry kind selects none of the five kinds. -/
structure VisualMsg where
  mesh_type : Option MeshType
  filename : Option String
  plane : Option (Vector3 ℚ)
  scale : Option (Vector3 ℚ)
  pose : Option Pose
  material_script : Option String
  material_color : Option Color
  cast_shadows : Option Bool
  visible : Option Bool
  transparency : Option ℚ
  is_static : Option Bool
deriving DecidableEq

/-- Accessor `msg->scale()`: the default instance (zeros) when the field is absent. -/
def VisualMsg.getScale (msg : VisualMsg) : Vector3 ℚ :=
  msg.scale.getD ⟨0, 0, 0⟩

/-- Method `Visual::MakeStatic` (lines 401-416): the body is commented out. -/
def Visual.MakeStatic (this : Visual) : Visual :=
  this

/-- Method `Visual::UpdateFromMsg` (lines 1192-1220). -/
def Visual.UpdateFromMsg (this : Visual) (msg : VisualMsg) (b : Backend) : Visual × Backend :=
  let v0 := if msg.is_static = some true then this.MakeStatic else this
  let v1 := match msg.pose with
    | some p => v0.SetWorldPose p
    | none => v0
  let v2 := match msg.scale with
    | some sc => v1.SetScale sc
    | none => v1
  let v3 := match msg.visible with
    | some vis => v2.SetVisible vis true
    | none => v2
  let r4 : Visual × Backend := match msg.transparency with
    | some t => v3.SetTransparency t b
    | none => (v3, b)
  match msg.material_script with
  | some script => r4.1.SetMaterial script r4.2
  | none => r4

/-- The descriptor part of `Visual::LoadFromMsg` (lines 160-216). -/
def Element.fromMsg (sdf : Element) (msg : VisualMsg) : Element :=
  let geometry : Option Geometry :=
    match msg.mesh_type with
    | some .BOX => some (.box msg.getScale)
    | some .SPHERE => some (.sphere msg.getScale.x)
    | some .CYLINDER => some (.cylinder msg.getScale.x msg.getScale.y)
    | some .PLANE => some (.plane (msg.plane.getD ⟨0, 0, 0⟩))
    | some .MESH => some (.mesh (msg.filename.getD "") ⟨1, 1, 1⟩)
    | none => none
  let sdf1 := { sdf with geometry := some geometry }
  let sdf2 := match msg.pose with
    | some p => { sdf1 with origin := some p }
    | none => sdf1
  let sdf3 := match msg.material_script with
    | some script =>
      { sdf2 with material := some { (sdf2.material.getD ⟨"", none, ""⟩) with script := script } }
    | none => sdf2
  let sdf4 := match msg.material_color with
    | some c =>
      { sdf3 with material := some { (sdf3.material.getD ⟨"", none, ""⟩) with color := some c } }
    | none => sdf3
  match msg.cast_shadows with
  | some cs => { sdf4 with cast_shadows := cs }
  | none => sdf4

/-- Method `Visual::LoadFromMsg` (lines 158-223). -/
def Visual.LoadFromMsg (this : Visual) (msg : VisualMsg) (b : Backend) :
    Visual × Backend × Option Fault :=
  let v0 := { this with sdf := this.sdf.fromMsg msg }
  let v1 := match msg.scale with
    | some sc => v0.SetScale sc
    | none => v0
  match v1.Load b with
  | (v2, b2, some f) => (v2, b2, some f)
  | (v2, b2, none) =>
    let r := v2.UpdateFromMsg msg b2
    (r.1, r.2, none)

/-! ## Bounding volume (Visual.cc 990-1032) -/

/-- Call `str.substr(pos, len)` of `std::string`. -/
def substr (str : String) (pos len : Nat) : String :=
  ⟨(str.data.drop pos).take len⟩

/-- Body of the attachment loop of `GetBoundsHelper` (lines 1007-1024) for one
object.  The stored world bounds are the ones the backend reports after the
refresh of line 1001. -/
def mergeAttachment (box : Box) (obj : MovableObject) : Box :=
  if obj.visible && obj.movableType != "gazebo::ogredynamiclines" then
    match obj.userAny with
    | .str str =>
      if substr str 0 3 == "rot" || substr str 0 5 == "trans" then box
      else box.Merge obj.worldBoundingBox
    | _ => box.Merge obj.worldBoundingBox
  else box

mutual
/-- Method `Visual::GetBoundsHelper` (lines 999-1032): the attachments of the node,
then every child node. -/
def GetBoundsHelper : NodeTree → Box → Box
  | .node self children, box => GetBoundsChildren children (self.objects.foldl mergeAttachment box)
/-- The loop over the child iterator of lines 1027-1031. -/
def GetBoundsChildren : List NodeTree → Box → Box
  | [], box => box
  | next :: rest, box => GetBoundsChildren rest (GetBoundsHelper next box)
end

/-- Method `Visual::GetBoundingBox` (lines 990-995), for the visual whose scene node
has the given child nodes. -/
def Visual.GetBoundingBox (this : Visual) (children : List NodeTree) : Box :=
  GetBoundsHelper (.node this.sceneNode children) Box.empty

/-! ## Concrete states used by the closed theorems -/

/-- Build `q` and `p` below the root and `c` below `q`, then run
`p.AttachVisual(c)`: the parent that the child reports, the parent of its scene
node, and the children of the scene nodes of `p` and `q`. -/
def reparentScenario : Option (Option String × Option String × List String × List String) :=
  match Visual.fromScene 8 "q" Backend.empty with
  | .error _ => none
  | .ok (q, b1) =>
    match Visual.fromScene 8 "p" b1 with
    | .error _ => none
    | .ok (p, b2) =>
      match Visual.fromVisual 8 "c" (some q) b2 with
      | .error _ => none
      | .ok (c, b3) =>
        match p.AttachVisual (some c) b3 with
        | (some c1, b4, none) =>
          some (c1.GetParent, b4.parentOf "c", b4.childrenOf "p", b4.childrenOf "q")
        | _ => none

/-- A visual named `v` below the root with the given geometry element, no
attachment and no material. -/
def visualWith (geometry : Option (Option Geometry)) : Visual :=
  { name := "v",
    sceneNode := { rootSceneNode with name := "v" },
    parent := none,
    sdf := { Element.initFile with geometry := geometry },
    transparency := 0, isStatic := false, visible := true, myMaterialName := "",
    origMaterialName := "", ribbonTrail := false }

/-- A message in which only the pose field is present. -/
def VisualMsg.poseOnly (p : Pose) : VisualMsg :=
  { mesh_type := none, filename := none, plane := none, scale := none, pose := some p,
    material_script := none, material_color := none, cast_shadows := none, visible := none,
    transparency := none, is_static := none }

/-- A mesh without submeshes whose bounding box is not finite. -/
def emptyMesh : Mesh :=
  { name := "empty", submeshes := [], materials := [], max := ⟨⊤, ⊤, ⊤⟩, min := ⟨⊥, ⊥, ⊥⟩ }

/-! ## Bounding volume as the specification words it -/

/-- The text `str` begins with the text `start`. -/
def beginsWith (start str : String) : Bool :=
  start.data.isPrefixOf str.data

/-- An attachment counts for the bounding box when it is visible, is not of the
dynamic-lines type, and carries no string tag beginning with `rot` or `trans`. -/
def MovableObject.qualifies (o : MovableObject) : Bool :=
  o.visible && !(o.movableType == "gazebo::ogredynamiclines") &&
    !(match o.userAny with
      | .str tag => beginsWith "rot" tag || beginsWith "trans" tag
      | _ => false)

mutual
/-- The attachments of a node and of all its descendants. -/
def NodeTree.attachments : NodeTree → List MovableObject
  | .node self children => self.objects ++ attachmentsOfAll children
/-- The attachments of several subtrees. -/
def attachmentsOfAll : List NodeTree → List MovableObject
  | [] => []
  | t :: ts => t.attachments ++ attachmentsOfAll ts
end

/-- The world-space bounds of the qualifying attachments of a subtree. -/
def NodeTree.qualifyingBounds (t : NodeTree) : List Box :=
  (t.attachments.filter MovableObject.qualifies).map fun o => o.worldBoundingBox

/-- The box whose minimum corner is the componentwise minimum of the minima and
whose maximum corner is the componentwise maximum of the maxima of the given
boxes (the empty sentinel for no box). -/
def unionBox (bs : List Box) : Box :=
  { min := ⟨(bs.map fun bb => bb.min.x).foldr Min.min ⊤,
            (bs.map fun bb => bb.min.y).foldr Min.min ⊤,
            (bs.map fun bb => bb.min.z).foldr Min.min ⊤⟩,
    max := ⟨(bs.map fun bb => bb.max.x).foldr Max.max ⊥,
            (bs.map fun bb => bb.max.y).foldr Max.max ⊥,
            (bs.map fun bb => bb.max.z).foldr Max.max ⊥⟩ }

/-- The box `a` lies inside the box `b`, corner by corner. -/
def Box.within (a b : Box) : Prop :=
  b.min.x ≤ a.min.x ∧ b.min.y ≤ a.min.y ∧ b.min.z ≤ a.min.z ∧
  a.max.x ≤ b.max.x ∧ a.max.y ≤ b.max.y ∧ a.max.z ≤ b.max.z

instance (a b : Box) : Decidable (a.within b) := by
  unfold Box.within
  infer_instance

/-- A visible mesh entity tagged with the given text and with the given world
bounds. -/
def entityWith (name tag : String) (bounds : Box) : MovableObject :=
  { name := name, movableType := "Entity", subEntityMaterials := ["BaseWhite"],
    materialName := "", visible := true, castShadows := true,
    renderQueueGroup := RENDER_QUEUE_MAIN, visibilityFlags := GZ_ALL_CAMERA,
    userAny := UserAny.str tag, worldBoundingBox := bounds }

/-- The box with the given integer corners. -/
def boxOf (x0 y0 z0 x1 y1 z1 : ℤ) : Box :=
  { min := ⟨((x0 : ℚ) : Coord), ((y0 : ℚ) : Coord), ((z0 : ℚ) : Coord)⟩,
    max := ⟨((x1 : ℚ) : Coord), ((y1 : ℚ) : Coord), ((z1 : ℚ) : Coord)⟩ }

/-- A visual named `body` with two attached boxes of disjoint extents. -/
def visualTwoBoxes : Visual :=
  { visualWith none with
    name := "body",
    sceneNode :=
      { rootSceneNode with
        name := "body",
        objects := [entityWith "e1" "body" (boxOf 0 0 0 1 1 1),
                    entityWith "e2" "body" (boxOf 3 0 0 5 1 1)] } }

/-- A child node named `wheel` with one attached box outside the boxes of `body`. -/
def childWheel : NodeTree :=
  .node { rootSceneNode with
          name := "wheel",
          objects := [entityWith "e3" "wheel" (boxOf 0 (-4) 0 1 (-3) 1)] } []

/-- A message in which only the material script is present. -/
def VisualMsg.scriptOnly (script : String) : VisualMsg :=
  { mesh_type := none, filename := none, plane := none, scale := none, pose := none,
    material_script := some script, material_color := none, cast_shadows := none,
    visible := none, transparency := none, is_static := none }

/-- A backend whose material registry holds the base materials `A` and `B`. -/
def backendAB : Backend :=
  { Backend.empty with materials := [Material.create "A", Material.create "B"] }

/-- The visual `v` after `LoadFromMsg` with material script `A` followed by
`UpdateFromMsg` with material script `B`, both registered: the descriptor holds
`A`, the applied material is the instance of `B`. -/
def visualRestyled : Visual × Backend :=
  let r := (visualWith none).LoadFromMsg (VisualMsg.scriptOnly "A") backendAB
  r.1.UpdateFromMsg (VisualMsg.scriptOnly "B") r.2.1

/-! ## Material edits as the specification words them (C11, C17) -/

/-- The names of the materials that the sub-entities of the attached mesh entities
refer to. -/
def referencedMaterials : List MovableObject → List String
  | [] => []
  | obj :: rest =>
    (if obj.isEntity then obj.subEntityMaterials else []) ++ referencedMaterials rest

/-- The instance key of a node for a base material,
`<node-name>_MATERIAL_<base-name>`. -/
def instanceKey (nodeName baseName : String) : String :=
  nodeName ++ "_MATERIAL_" ++ baseName

/-- An in-memory unit box with one submesh and no material of its own. -/
def unitBoxMesh : Mesh :=
  { name := "unit_box",
    submeshes := [{ vertices := [⟨0, 0, 0⟩, ⟨1, 0, 0⟩, ⟨0, 1, 0⟩], normals := [],
                    texCoords := [], indices := [0, 1, 2], materialIndex := 0 }],
    materials := [], max := ⟨1, 1, 1⟩, min := ⟨0, 0, 0⟩ }

/-- A backend whose mesh store holds the unit box and whose material registry holds
the shared base material `BaseWhite`. -/
def backendUnitBox : Backend :=
  { Backend.empty with meshStore := [unitBoxMesh], materials := [Material.create "BaseWhite"] }

/-- The visual `v` with box geometry after `Load()`; `SetMaterial` has not run. -/
def loadedBox : Visual × Backend × Option Fault :=
  (visualWith (some (some (.box ⟨1, 1, 1⟩)))).Load backendUnitBox

/-- Scene blending of every pass of every technique of a registered material. -/
def Backend.blendingOf (b : Backend) (name : String) : Option (List (List SceneBlendType)) :=
  (b.getByName name).map fun m => m.techniques.map fun t => t.passes.map fun p => p.sceneBlending

/-- Self-illumination of every pass of every technique of a registered material. -/
def Backend.emissiveOf (b : Backend) (name : String) : Option (List (List Color)) :=
  (b.getByName name).map fun m =>
    m.techniques.map fun t => t.passes.map fun p => p.selfIllumination

/-! ## Vertex layout as the specification words it (C13, C18) -/

/-- The parallel arrays of a submesh agree: the normal array and the
texture-coordinate array are each empty or as long as the vertex array. -/
def SubMesh.wellFormed (sm : SubMesh) : Bool :=
  decide ((sm.normals.length = 0 ∨ sm.normals.length = sm.vertices.length) ∧
    (sm.texCoords.length = 0 ∨ sm.texCoords.length = sm.vertices.length))

/-- Every submesh of the mesh has agreeing parallel arrays. -/
def Mesh.wellFormed (mesh : Mesh) : Bool :=
  mesh.submeshes.all SubMesh.wellFormed

/-- Number of floats per vertex: 3 for the position, 3 more when the submesh has
normals, 2 more when it has texture coordinates. -/
def SubMesh.stride (sm : SubMesh) : Nat :=
  3 + (if 0 < sm.normals.length then 3 else 0) + (if 0 < sm.texCoords.length then 2 else 0)

/-- The floats of vertex `j` in the fixed order: x, y, z, then nx, ny, nz when the
submesh has normals, then u, v when it has texture coordinates. -/
def SubMesh.expectedVertexFloats (sm : SubMesh) (j : Nat) : List ℚ :=
  [(sm.vertices.getD j ⟨0, 0, 0⟩).x, (sm.vertices.getD j ⟨0, 0, 0⟩).y,
   (sm.vertices.getD j ⟨0, 0, 0⟩).z] ++
  (if 0 < sm.normals.length then
    [(sm.normals.getD j ⟨0, 0, 0⟩).x, (sm.normals.getD j ⟨0, 0, 0⟩).y,
     (sm.normals.getD j ⟨0, 0, 0⟩).z]
   else []) ++
  (if 0 < sm.texCoords.length then
    [(sm.texCoords.getD j (0, 0)).1, (sm.texCoords.getD j (0, 0)).2]
   else [])

/-- The floats of `count` consecutive vertices from vertex `j` on. -/
def SubMesh.expectedFloatsFrom (sm : SubMesh) : Nat → Nat → List ℚ
  | 0, _ => []
  | count + 1, j => sm.expectedVertexFloats j ++ sm.expectedFloatsFrom count (j + 1)

/-- The vertex declaration by presence: position at offset 0, normal at offset 12,
texture coordinate at offset 12 without normals and 24 with them. -/
def SubMesh.expectedDeclaration (sm : SubMesh) : List VertexElement :=
  [{ source := 0, offset := 0, type := VertexElementType.VET_FLOAT3,
     semantic := VertexElementSemantic.VES_POSITION : VertexElement }] ++
  (if 0 < sm.normals.length then
    [{ source := 0, offset := 12, type := VertexElementType.VET_FLOAT3,
       semantic := VertexElementSemantic.VES_NORMAL : VertexElement }]
   else []) ++
  (if 0 < sm.texCoords.length then
    [{ source := 0, offset := if 0 < sm.normals.length then 24 else 12,
       type := VertexElementType.VET_FLOAT2,
       semantic := VertexElementSemantic.VES_TEXTURE_COORDINATES : VertexElement }]
   else [])

/-- Lookup of a mesh resource by name in the `Ogre::MeshManager`. -/
def Backend.getOgreMesh (b : Backend) (name : String) : Option OgreMesh :=
  b.ogreMeshes.find? (fun m => m.name == name)

/-- A triangle with normals and texture coordinates. -/
def texturedTriangle : SubMesh :=
  { vertices := [⟨0, 0, 0⟩, ⟨1, 0, 0⟩, ⟨0, 1, 0⟩],
    normals := [⟨0, 0, 1⟩, ⟨0, 0, 1⟩, ⟨0, 0, 1⟩],
    texCoords := [(0, 0), (1, 0), (0, 1)],
    indices := [0, 1, 2], materialIndex := 0 }

/-- A mesh with finite corners whose only submesh has three vertices and a single
normal. -/
def raggedMesh : Mesh :=
  { name := "ragged",
    submeshes := [{ vertices := [⟨0, 0, 0⟩, ⟨1, 0, 0⟩, ⟨0, 1, 0⟩], normals := [⟨0, 0, 1⟩],
                    texCoords := [], indices := [0, 1, 2], materialIndex := 0 }],
    materials := [], max := ⟨1, 1, 1⟩, min := ⟨0, 0, 0⟩ }

/-- The unit box with an infinite maximum corner. -/
def unboundedMesh : Mesh :=
  { unitBoxMesh with name := "unbounded", max := ⟨⊤, 1, 1⟩ }

/-- The sub-resource `osm` holds the submesh `sm` in the fixed layout: declaration
by presence, one stride of floats per vertex in vertex order, and a vertex
buffer of exactly that size (4 bytes per float). -/
def SubMesh.laidOutAs (sm : SubMesh) (osm : OgreSubMesh) : Prop :=
  osm.vertexDeclaration = sm.expectedDeclaration ∧
  osm.vertexCount = sm.vertices.length ∧
  osm.vertexBuffer.length = sm.vertices.length * sm.stride ∧
  osm.vertexBufferBytes = 4 * osm.vertexBuffer.length ∧
  ∀ j, j < sm.vertices.length →
    (osm.vertexBuffer.drop (j * sm.stride)).take sm.stride = sm.expectedVertexFloats j

/-! ## States and notions for the later claims (C14, C19, C20) -/

/-- The visual `v` below a parent node that sits at (1, 2, 3) and is turned by half
a turn about the x axis (unit quaternion (0, 1, 0, 0)). -/
def visualUnderTurnedParent : Visual :=
  { visualWith none with
    sceneNode :=
      { rootSceneNode with
        name := "v",
        parentDerivedPosition := ⟨1, 2, 3⟩,
        parentDerivedOrientation := ⟨0, 1, 0, 0⟩ } }

mutual
/-- The tree with one more object attached to the node reached from the root by the
given path of child indices. -/
def NodeTree.attachAt : NodeTree → List Nat → MovableObject → NodeTree
  | .node self children, [], obj =>
    .node { self with objects := self.objects ++ [obj] } children
  | .node self children, i :: path, obj => .node self (attachInChild children i path obj)
/-- Attach inside the child of index `i`. -/
def attachInChild : List NodeTree → Nat → List Nat → MovableObject → List NodeTree
  | [], _, _, _ => []
  | t :: ts, 0, path, obj => t.attachAt path obj :: ts
  | t :: ts, i + 1, path, obj => t :: attachInChild ts i path obj
end

/-- A visual named `rotor` without attachments. -/
def visualRotor : Visual :=
  { visualWith none with name := "rotor", sceneNode := { rootSceneNode with name := "rotor" } }

/-- A large visible mesh entity that carries no tag yet. -/
def largeEntity : MovableObject :=
  { entityWith "blade" "" (boxOf (-100) (-100) (-100) 100 100 100) with
    userAny := UserAny.empty }

/-! ## Forests of scene nodes (C15) -/

/-- The node reached from `n` by following the parent link `k` times, if the chain
is that long. -/
def Backend.ancestorAt (b : Backend) : Nat → String → Option String
  | 0, n => some n
  | k + 1, n =>
    match b.parentOf n with
    | none => none
    | some q => b.ancestorAt k q

/-- The node `a` is a proper ancestor of `n`: it is reached from `n` by one or more
parent links. -/
def Backend.isAncestor (b : Backend) (a n : String) : Prop :=
  ∃ k, b.ancestorAt (k + 1) n = some a

/-- The parent relation has no cycle: no node is its own proper ancestor. -/
def Backend.acyclic (b : Backend) : Prop :=
  ∀ n, ¬ b.isAncestor n n

/-- Child collections and parent links agree, and no child is listed twice. -/
def Backend.linked (b : Backend) : Prop :=
  (∀ n q, n ∈ b.childrenOf q ↔ b.parentOf n = some q) ∧ ∀ q, (b.childrenOf q).Nodup

/-- Each node is in the child collection of at most one node. -/
def Backend.singleParent (b : Backend) : Prop :=
  ∀ n q1 q2, n ∈ b.childrenOf q1 → n ∈ b.childrenOf q2 → q1 = q2

/-- The hierarchy is a forest: consistent links, at most one parent, no cycle. -/
def Backend.forest (b : Backend) : Prop :=
  b.linked ∧ b.singleParent ∧ b.acyclic

/-- A node named `p` below the root, without attachments. -/
def visualP : Visual :=
  { visualWith none with name := "p", sceneNode := { rootSceneNode with name := "p" } }

/-- A node named `q` below the root, without attachments. -/
def visualQ : Visual :=
  { visualWith none with name := "q", sceneNode := { rootSceneNode with name := "q" } }

/-- The scene graph with the single node `p` below the root. -/
def backendP : Backend :=
  { Backend.empty with
    sceneNodes := ["p"],
    parentOf := fun n => if n = "p" then some "Ogre/SceneRoot" else none,
    childrenOf := fun n => if n = "Ogre/SceneRoot" then ["p"] else [] }

/-- The scene graph with `q` below the root and `p` below `q`. -/
def backendQP : Backend :=
  { Backend.empty with
    sceneNodes := ["p", "q"],
    parentOf := fun n =>
      if n = "p" then some "q" else if n = "q" then some "Ogre/SceneRoot" else none,
    childrenOf := fun n =>
      if n = "Ogre/SceneRoot" then ["q"] else if n = "q" then ["p"] else [] }

/-! # Theorems -/

/-! ## Decimal rendering is injective -/

theorem digitValue_digitChar (k : Nat) (hk : k < 10) : digitValue (Nat.digitChar k) = k := by
  interval_cases k <;> decide

theorem decimalValue_append_singleton (cs : List Char) (c : Char) :
    decimalValue (cs ++ [c]) = decimalValue cs * 10 + digitValue c := by
  simp [decimalValue, List.foldl_append]

theorem toDigitsCore_spec (fuel : Nat) : ∀ (n : Nat) (ds : List Char), n < fuel →
    ∃ pre, Nat.toDigitsCore 10 fuel n ds = pre ++ ds ∧ decimalValue pre = n := by
  induction fuel with
  | zero => intro n ds h; omega
  | succ fuel ih =>
    intro n ds h
    unfold Nat.toDigitsCore
    by_cases h0 : n / 10 = 0
    · refine ⟨[Nat.digitChar (n % 10)], by simp [h0], ?_⟩
      have hone : decimalValue [Nat.digitChar (n % 10)] = digitValue (Nat.digitChar (n % 10)) := by
        simp [decimalValue]
      rw [hone, digitValue_digitChar _ (Nat.mod_lt _ (by decide))]
      omega
    · have hlt : n / 10 < fuel := by omega
      obtain ⟨pre, hpre, hval⟩ := ih (n / 10) (Nat.digitChar (n % 10) :: ds) hlt
      refine ⟨pre ++ [Nat.digitChar (n % 10)], by simp [h0, hpre], ?_⟩
      rw [decimalValue_append_singleton, hval, digitValue_digitChar _ (Nat.mod_lt _ (by decide))]
      omega

theorem decimalValue_lexical_cast (n : Nat) : decimalValue (lexical_cast n).data = n := by
  obtain ⟨pre, hpre, hval⟩ := toDigitsCore_spec (n + 1) n [] (Nat.lt_succ_self n)
  simp only [lexical_cast, Nat.repr, Nat.toDigits, List.asString, hpre, List.append_nil]
  exact hval

theorem lexical_cast_injective : Function.Injective lexical_cast := by
  intro a b h
  have hv := congrArg (fun s => decimalValue s.data) h
  simpa [decimalValue_lexical_cast] using hv

theorem string_append_left_cancel (s t u : String) (h : s ++ t = s ++ u) : t = u := by
  have hd := congrArg String.data h
  simp only [String.data_append, List.append_cancel_left_eq] at hd
  exact String.ext hd

theorem candidate_injective (name : String) : Function.Injective (candidate name) := by
  intro i j h
  cases i with
  | zero =>
    cases j with
    | zero => rfl
    | succ j =>
      have hl := congrArg String.length h
      have h1 : "_".length = 1 := by decide
      simp only [candidate, String.length_append, h1] at hl
      omega
  | succ i =>
    cases j with
    | zero =>
      have hl := congrArg String.length h
      have h1 : "_".length = 1 := by decide
      simp only [candidate, String.length_append, h1] at hl
      omega
    | succ j =>
      simp only [candidate, String.append_assoc] at h
      have h1 := string_append_left_cancel _ _ _ h
      have h2 := string_append_left_cancel _ _ _ h1
      rw [lexical_cast_injective h2]

/-! ## Unique names (C1, C2) -/

theorem uniqueNameLoop_candidate (b : Backend) (name : String) :
    ∀ (m fuel k : Nat), (∀ j, j < m → candidate name (k + j) ∈ b.sceneNodes) →
      candidate name (k + m) ∉ b.sceneNodes → m < fuel →
      uniqueNameLoop b name fuel (candidate name k) k = some (candidate name (k + m), k + m) := by
  intro m
  induction m with
  | zero =>
    intro fuel k _ hfree hfuel
    obtain ⟨fuel, rfl⟩ : ∃ f, fuel = f + 1 := ⟨fuel - 1, by omega⟩
    simp only [Nat.add_zero] at hfree
    simp [uniqueNameLoop, Backend.hasSceneNode, hfree]
  | succ m ih =>
    intro fuel k hbusy hfree hfuel
    obtain ⟨fuel, rfl⟩ : ∃ f, fuel = f + 1 := ⟨fuel - 1, by omega⟩
    have h0 : candidate name k ∈ b.sceneNodes := by simpa using hbusy 0 (Nat.succ_pos m)
    have hstep : name ++ "_" ++ lexical_cast k = candidate name (k + 1) := rfl
    simp only [uniqueNameLoop, Backend.hasSceneNode, h0, decide_True, if_true, hstep]
    have hidx : k + (m + 1) = k + 1 + m := by omega
    rw [hidx] at hfree ⊢
    refine ih fuel (k + 1) ?_ hfree (by omega)
    intro j hj
    have := hbusy (j + 1) (by omega)
    have hidx2 : k + (j + 1) = k + 1 + j := by omega
    rwa [hidx2] at this

theorem exists_free_candidate (registered : List String) (name : String) :
    ∃ m, m ≤ registered.length ∧ candidate name m ∉ registered ∧
      ∀ j, j < m → candidate name j ∈ registered := by
  classical
  have hex : ∃ m, candidate name m ∉ registered := by
    by_contra hall
    push_neg at hall
    have hsub : (Finset.range (registered.length + 1)).image (candidate name)
        ⊆ registered.toFinset := by
      intro x hx
      obtain ⟨k, _, rfl⟩ := Finset.mem_image.mp hx
      exact List.mem_toFinset.mpr (hall k)
    have hcard := Finset.card_le_card hsub
    rw [Finset.card_image_of_injective _ (candidate_injective name), Finset.card_range] at hcard
    have := List.toFinset_card_le registered
    omega
  refine ⟨Nat.find hex, ?_, Nat.find_spec hex, ?_⟩
  · by_contra hgt
    push_neg at hgt
    have hsub : (Finset.range (registered.length + 1)).image (candidate name)
        ⊆ registered.toFinset := by
      intro x hx
      obtain ⟨k, hk, rfl⟩ := Finset.mem_image.mp hx
      have hklt : k < Nat.find hex := by
        have := Finset.mem_range.mp hk
        omega
      exact List.mem_toFinset.mpr (not_not.mp (Nat.find_min hex hklt))
    have hcard := Finset.card_le_card hsub
    rw [Finset.card_image_of_injective _ (candidate_injective name), Finset.card_range] at hcard
    have := List.toFinset_card_le registered
    omega
  · intro j hj
    exact not_not.mp (Nat.find_min hex hj)

theorem uniqueNameLoop_terminates (b : Backend) (name : String) (fuel : Nat)
    (hfuel : b.sceneNodes.length < fuel) :
    ∃ m, m ≤ b.sceneNodes.length ∧ candidate name m ∉ b.sceneNodes ∧
      (∀ j, j < m → candidate name j ∈ b.sceneNodes) ∧
      uniqueNameLoop b name fuel name 0 = some (candidate name m, m) := by
  obtain ⟨m, hm, hfree, hbusy⟩ := exists_free_candidate b.sceneNodes name
  refine ⟨m, hm, hfree, hbusy, ?_⟩
  have h := uniqueNameLoop_candidate b name m fuel 0
    (by intro j hj; simpa using hbusy j hj) (by simpa using hfree) (by omega)
  simpa [candidate] using h

theorem construct_spec (b : Backend) (name : String) (fuel : Nat) (pnode : SceneNode)
    (parent : Option String) (hfuel : b.sceneNodes.length < fuel) :
    ∃ m vis b1, Visual.construct fuel name pnode parent b = .ok (vis, b1) ∧
      m ≤ b.sceneNodes.length ∧ vis.name = candidate name m ∧
      vis.sceneNode.name = vis.name ∧
      candidate name m ∉ b.sceneNodes ∧ (∀ j, j < m → candidate name j ∈ b.sceneNodes) ∧
      b1.sceneNodes = vis.name :: b.sceneNodes := by
  obtain ⟨m, hm, hfree, hbusy, hloop⟩ := uniqueNameLoop_terminates b name fuel hfuel
  have hc : Visual.construct fuel name pnode parent b
      = .ok (Visual.Init (candidate name m)
          { name := candidate name m, position := ⟨0, 0, 0⟩, orientation := ⟨1, 0, 0, 0⟩,
            scale := ⟨1, 1, 1⟩, parentDerivedPosition := pnode.derivedPosition,
            parentDerivedOrientation := pnode.derivedOrientation,
            parentDerivedScale := pnode.derivedScale, autoTrack := none, objects := [] }
          parent
          { b with sceneNodes := candidate name m :: b.sceneNodes,
                   parentOf := fun n =>
                     if n = candidate name m then some pnode.name else b.parentOf n,
                   childrenOf := fun n =>
                     if n = pnode.name then b.childrenOf n ++ [candidate name m]
                     else b.childrenOf n }) := by
    simp [Visual.construct, hloop, Backend.createChildSceneNode, Backend.hasSceneNode, hfree]
  exact ⟨m, _, _, hc, hm, rfl, rfl, hfree, hbusy, rfl⟩

theorem run_spec (b : Backend) (name : String) (fuel : Nat) (how : Creator)
    (hfuel : b.sceneNodes.length < fuel) :
    ∃ m vis b1, how.run fuel name b = .ok (vis, b1) ∧
      m ≤ b.sceneNodes.length ∧ vis.name = candidate name m ∧
      vis.sceneNode.name = vis.name ∧
      candidate name m ∉ b.sceneNodes ∧ (∀ j, j < m → candidate name j ∈ b.sceneNodes) ∧
      b1.sceneNodes = vis.name :: b.sceneNodes := by
  cases how with
  | underVisual p => exact construct_spec b name fuel p.sceneNode (some p.name) hfuel
  | underSceneNode p => exact construct_spec b name fuel p none hfuel
  | underScene => exact construct_spec b name fuel rootSceneNode none hfuel

theorem createAll_spec (name : String) (fuel : Nat) :
    ∀ (hows : List Creator) (b : Backend), b.sceneNodes.length + hows.length ≤ fuel →
      ∃ names b1, createAll fuel name hows b = .ok (names, b1) ∧
        names.length = hows.length ∧ names.Nodup ∧
        (∀ n, n ∈ names → n ∉ b.sceneNodes) ∧
        (∀ n, n ∈ b.sceneNodes → n ∈ b1.sceneNodes) ∧
        (name ∉ b.sceneNodes → names.head? = (hows.map fun _ => name).head?) := by
  intro hows
  induction hows with
  | nil => intro b _; exact ⟨[], b, rfl, rfl, List.nodup_nil, by simp, by simp, by simp⟩
  | cons how rest ih =>
    intro b hfuel
    simp only [List.length_cons] at hfuel
    obtain ⟨m, vis, b1, hrun, _, hname, _, hfree, hbusy, hreg⟩ :=
      run_spec b name fuel how (by omega)
    obtain ⟨names, b2, hall, hlen, hnodup, hfresh, hmono, _⟩ :=
      ih b1 (by rw [hreg]; simp only [List.length_cons]; omega)
    refine ⟨vis.name :: names, b2, ?_, by simp [hlen], ?_, ?_, ?_, ?_⟩
    · simp [createAll, hrun, hall]
    · refine List.nodup_cons.mpr ⟨?_, hnodup⟩
      intro hmem
      exact hfresh _ hmem (by rw [hreg]; exact List.mem_cons_self _ _)
    · intro n hn
      rcases List.mem_cons.mp hn with rfl | hn
      · rw [hname]; exact hfree
      · intro hb
        exact hfresh n hn (by rw [hreg]; exact List.mem_cons_of_mem _ hb)
    · intro n hn
      exact hmono n (by rw [hreg]; exact List.mem_cons_of_mem _ hn)
    · intro hs
      have hm0 : m = 0 := by
        by_contra hne
        exact hs (by simpa [candidate] using hbusy 0 (Nat.pos_of_ne_zero hne))
      simp [hname, hm0, candidate]

/-- C1: for every registry of scene-node names and every requested name, each of
the three constructors (given a non-null parent) leaves its name-probing loop
after at most one probe more than there are registered names and assigns a name
that was not registered before the call; the names assigned to nodes created one
after another with the same requested name are pairwise distinct, and the first
one is the requested name itself when that name was not registered. -/
theorem C1_unique_names (b : Backend) (s : String) (fuel : Nat) (hows : List Creator)
    (hfuel : b.sceneNodes.length + hows.length < fuel) :
    (∃ m, m ≤ b.sceneNodes.length ∧ uniqueNameLoop b s fuel s 0 = some (candidate s m, m)) ∧
    (∀ how : Creator, ∃ vis b1, how.run fuel s b = .ok (vis, b1) ∧
      vis.name ∉ b.sceneNodes ∧ vis.name ∈ b1.sceneNodes ∧
      (s ∉ b.sceneNodes → vis.name = s)) ∧
    (∃ names b1, createAll fuel s hows b = .ok (names, b1) ∧
      names.length = hows.length ∧ names.Nodup ∧
      (∀ n, n ∈ names → n ∉ b.sceneNodes) ∧
      (s ∉ b.sceneNodes → names.head? = (hows.map fun _ => s).head?)) := by
  refine ⟨?_, ?_, ?_⟩
  · obtain ⟨m, hm, _, _, hloop⟩ := uniqueNameLoop_terminates b s fuel (by omega)
    exact ⟨m, hm, hloop⟩
  · intro how
    obtain ⟨m, vis, b1, hrun, _, hname, _, hfree, hbusy, hreg⟩ :=
      run_spec b s fuel how (by omega)
    refine ⟨vis, b1, hrun, by rw [hname]; exact hfree, by rw [hreg]; exact List.mem_cons_self _ _, ?_⟩
    intro hs
    have hm0 : m = 0 := by
      by_contra hne
      exact hs (by simpa [candidate] using hbusy 0 (Nat.pos_of_ne_zero hne))
    simp [hname, hm0, candidate]
  · obtain ⟨names, b1, hall, hlen, hnodup, hfresh, _, hhead⟩ :=
      createAll_spec s fuel hows b (by omega)
    exact ⟨names, b1, hall, hlen, hnodup, hfresh, hhead⟩

/-- Witness of C1: two nodes requested as `a` in a backend that already has `a` and
`a_0`. -/
theorem C1_unique_names_witness :
    backendWithA.sceneNodes.length + [Creator.underScene, Creator.underScene].length < 8 ∧
    ((∃ m, m ≤ backendWithA.sceneNodes.length ∧
        uniqueNameLoop backendWithA "a" 8 "a" 0 = some (candidate "a" m, m)) ∧
     (∀ how : Creator, ∃ vis b1, how.run 8 "a" backendWithA = .ok (vis, b1) ∧
        vis.name ∉ backendWithA.sceneNodes ∧ vis.name ∈ b1.sceneNodes ∧
        ("a" ∉ backendWithA.sceneNodes → vis.name = "a")) ∧
     (∃ names b1,
        createAll 8 "a" [Creator.underScene, Creator.underScene] backendWithA = .ok (names, b1) ∧
        names.length = [Creator.underScene, Creator.underScene].length ∧ names.Nodup ∧
        (∀ n, n ∈ names → n ∉ backendWithA.sceneNodes) ∧
        ("a" ∉ backendWithA.sceneNodes →
          names.head? = ([Creator.underScene, Creator.underScene].map fun _ => "a").head?))) :=
  ⟨by decide,
   C1_unique_names backendWithA "a" 8 [Creator.underScene, Creator.underScene] (by decide)⟩

theorem run_of_loop (b : Backend) (name u : String) (i fuel : Nat) (how : Creator)
    (hloop : uniqueNameLoop b name fuel name 0 = some (u, i)) (hfree : u ∉ b.sceneNodes) :
    ∃ vis b1, how.run fuel name b = .ok (vis, b1) ∧ vis.name = u ∧
      b1.sceneNodes = u :: b.sceneNodes := by
  cases how <;>
    (simp only [Creator.run, Visual.fromVisual, Visual.fromSceneNode, Visual.fromScene,
      Visual.construct, hloop, Backend.createChildSceneNode, Backend.hasSceneNode, hfree,
      Visual.Init, decide_False, Bool.false_eq_true, if_false]
     exact ⟨_, _, rfl, rfl, rfl⟩)

theorem createAll_candidates (name : String) (fuel : Nat) :
    ∀ (hows : List Creator) (b : Backend) (k : Nat),
      (∀ j, j < k → candidate name j ∈ b.sceneNodes) →
      (∀ j, k ≤ j → candidate name j ∉ b.sceneNodes) →
      k + hows.length ≤ fuel →
      ∃ b1, createAll fuel name hows b
        = .ok ((List.range' k hows.length).map (candidate name), b1) := by
  intro hows
  induction hows with
  | nil => intro b k _ _ _; exact ⟨b, rfl⟩
  | cons how rest ih =>
    intro b k hbusy hfree hfuel
    simp only [List.length_cons] at hfuel
    have hloop := uniqueNameLoop_candidate b name k fuel 0
      (by intro j hj; simpa using hbusy j hj) (by simpa using hfree k (Nat.le_refl k)) (by omega)
    have h0 : candidate name 0 = name := rfl
    rw [h0, Nat.zero_add] at hloop
    obtain ⟨vis, b1, hrun, hname, hreg⟩ :=
      run_of_loop b name _ _ fuel how hloop (hfree k (Nat.le_refl k))
    obtain ⟨b2, hall⟩ := ih b1 (k + 1)
      (by
        intro j hj
        rw [hreg]
        rcases Nat.lt_succ_iff_lt_or_eq.mp hj with hlt | rfl
        · exact List.mem_cons_of_mem _ (hbusy j hlt)
        · exact List.mem_cons_self _ _)
      (by
        intro j hj
        rw [hreg]
        intro hmem
        rcases List.mem_cons.mp hmem with heq | hmem
        · have := candidate_injective name heq
          omega
        · exact hfree j (by omega) hmem)
      (by omega)
    refine ⟨b2, ?_⟩
    simp [createAll, hrun, hall, hname, List.range']

/-- C2 as stated fails: three nodes requested as `a` in an empty backend are named
`a`, `a_0`, `a_1`; the second one is not `a_1` and the third is not `a_2`. -/
theorem C2_counterexample :
    createdNames 4 "a" [Creator.underScene, Creator.underScene, Creator.underScene]
        Backend.empty = some ["a", "a_0", "a_1"] ∧
    createdNames 4 "a" [Creator.underScene, Creator.underScene, Creator.underScene]
        Backend.empty ≠ some ["a", "a_1", "a_2"] := by
  decide

/-- C2 (amended): when neither the requested name s nor any s_n is registered, the
nodes created one after another with requested name s are named s, s_0, s_1, ...:
the first keeps s and the k-th subsequent one (k = 1, 2, ...) is s followed by
`_` and the decimal k-1. -/
theorem C2_suffixes_start_at_zero (b : Backend) (s : String) (fuel : Nat)
    (hows : List Creator) (hs : s ∉ b.sceneNodes)
    (hsuffix : ∀ n : Nat, s ++ "_" ++ lexical_cast n ∉ b.sceneNodes)
    (hfuel : hows.length ≤ fuel) :
    ∃ names b1, createAll fuel s hows b = .ok (names, b1) ∧
      names.length = hows.length ∧
      (0 < hows.length → names.get? 0 = some s) ∧
      (∀ k, 1 ≤ k → k < hows.length →
        names.get? k = some (s ++ "_" ++ lexical_cast (k - 1))) := by
  obtain ⟨b1, hall⟩ := createAll_candidates s fuel hows b 0 (by intro j hj; omega)
    (by
      intro j _
      cases j with
      | zero => exact hs
      | succ j => exact hsuffix j)
    (by omega)
  refine ⟨_, b1, hall, by simp, ?_, ?_⟩
  · intro hpos
    simp [List.getElem?_range', hpos, candidate]
  · intro k hk1 hk
    obtain ⟨k, rfl⟩ : ∃ j, k = j + 1 := ⟨k - 1, by omega⟩
    simp [List.getElem?_range', hk, candidate]

/-- Witness of C2 (amended): three nodes requested as `a` in an empty backend. -/
theorem C2_suffixes_start_at_zero_witness :
    "a" ∉ Backend.empty.sceneNodes ∧
    (∀ n : Nat, "a" ++ "_" ++ lexical_cast n ∉ Backend.empty.sceneNodes) ∧
    [Creator.underScene, Creator.underScene, Creator.underScene].length ≤ 4 ∧
    ∃ names b1,
      createAll 4 "a" [Creator.underScene, Creator.underScene, Creator.underScene]
        Backend.empty = .ok (names, b1) ∧
      names.length = [Creator.underScene, Creator.underScene, Creator.underScene].length ∧
      (0 < [Creator.underScene, Creator.underScene, Creator.underScene].length →
        names.get? 0 = some "a") ∧
      (∀ k, 1 ≤ k → k < [Creator.underScene, Creator.underScene, Creator.underScene].length →
        names.get? k = some ("a" ++ "_" ++ lexical_cast (k - 1))) :=
  ⟨by decide, fun _ => by simp [Backend.empty], by decide,
   C2_suffixes_start_at_zero Backend.empty "a" 4
     [Creator.underScene, Creator.underScene, Creator.underScene]
     (by decide) (fun _ => by simp [Backend.empty]) (by decide)⟩

/-! ## Reparenting (C3) -/

theorem AttachVisual_child_unchanged (p c : Visual) (b : Backend) :
    (p.AttachVisual (some c) b).1 = some c := by
  simp [Visual.AttachVisual]

/-- After `p.AttachVisual(c)` on a consistent scene graph the scene node of `c` is a
child of the scene node of `p` and of no other node, and no fault occurs. -/
theorem AttachVisual_scene_node_exclusive (p c : Visual) (b : Backend)
    (hup : ∀ q, b.parentOf c.sceneNode.name = some q → c.sceneNode.name ∈ b.childrenOf q)
    (hdown : ∀ q, c.sceneNode.name ∈ b.childrenOf q → b.parentOf c.sceneNode.name = some q)
    (hnodup : ∀ q, (b.childrenOf q).Nodup) :
    (p.AttachVisual (some c) b).2.2 = none ∧
    (p.AttachVisual (some c) b).2.1.parentOf c.sceneNode.name = some p.sceneNode.name ∧
    c.sceneNode.name ∈ (p.AttachVisual (some c) b).2.1.childrenOf p.sceneNode.name ∧
    ∀ q, q ≠ p.sceneNode.name →
      c.sceneNode.name ∉ (p.AttachVisual (some c) b).2.1.childrenOf q := by
  cases hpar : b.parentOf c.sceneNode.name with
  | none =>
    have hnot : ∀ q, c.sceneNode.name ∉ b.childrenOf q := by
      intro q hq
      have := hdown q hq
      rw [hpar] at this
      exact Option.noConfusion this
    simp only [Visual.AttachVisual, hpar, Backend.addChild]
    refine ⟨trivial, by simp, by simp [hnot], ?_⟩
    intro q hq
    simp [hq, hnot]
  | some q0 =>
    have hmem : c.sceneNode.name ∈ b.childrenOf q0 := hup q0 hpar
    have honly : ∀ q, c.sceneNode.name ∈ b.childrenOf q → q = q0 := by
      intro q hq
      have := hdown q hq
      rw [hpar] at this
      exact (Option.some.inj this).symm
    have herase : c.sceneNode.name ∉ (b.childrenOf q0).erase c.sceneNode.name :=
      fun h => ((hnodup q0).mem_erase_iff.mp h).1 rfl
    have hrem : (b.removeChild q0 c.sceneNode.name).parentOf c.sceneNode.name = none := by
      simp [Backend.removeChild, hmem]
    have hchildren : ∀ q, c.sceneNode.name ∉ (b.removeChild q0 c.sceneNode.name).childrenOf q := by
      intro q
      simp only [Backend.removeChild, hmem, if_true]
      by_cases hq : q = q0
      · subst hq
        simpa using herase
      · simp only [hq, if_false]
        exact fun h => hq (honly q h)
    simp only [Visual.AttachVisual, hpar, Backend.addChild, hrem]
    refine ⟨trivial, by simp, by simp [hchildren], ?_⟩
    intro q hq
    simp [hq, hchildren]

/-- C3: the code at the failing input.  `c` is constructed below `q`; after
`p.AttachVisual(c)` its scene node is a child of the node of `p` only, yet
`c.GetParent()` still reports `q`. -/
theorem C3_GetParent_stale_after_AttachVisual :
    reparentScenario = some (some "q", some "p", ["c"], []) := by
  decide

/-! ## Scale (C4, C5) -/

/-- C4: for a node whose descriptor geometry is a box or a mesh, `SetScale(v)`
followed by `GetScale()` returns exactly `v`. -/
theorem C4_scale_round_trip_box_mesh (vis : Visual) (v : Vector3 ℚ)
    (hgeom : (∃ size, vis.sdf.geometry = some (some (.box size))) ∨
      (∃ filename scale, vis.sdf.geometry = some (some (.mesh filename scale)))) :
    (vis.SetScale v).GetScale = v := by
  rcases hgeom with ⟨size, h⟩ | ⟨filename, scale, h⟩ <;>
    simp [Visual.SetScale, Visual.GetScale, Element.GetOrCreateGeometry, h]

/-- Witness of C4: a box of size (1, 1, 1) scaled to (2, 3, 4). -/
theorem C4_scale_round_trip_box_mesh_witness :
    ((∃ size, (visualWith (some (some (.box ⟨1, 1, 1⟩)))).sdf.geometry
        = some (some (.box size))) ∨
      (∃ filename scale, (visualWith (some (some (.box ⟨1, 1, 1⟩)))).sdf.geometry
        = some (some (.mesh filename scale)))) ∧
    ((visualWith (some (some (.box ⟨1, 1, 1⟩)))).SetScale ⟨2, 3, 4⟩).GetScale = ⟨2, 3, 4⟩ :=
  ⟨Or.inl ⟨⟨1, 1, 1⟩, rfl⟩,
   C4_scale_round_trip_box_mesh (visualWith (some (some (.box ⟨1, 1, 1⟩)))) ⟨2, 3, 4⟩
     (Or.inl ⟨⟨1, 1, 1⟩, rfl⟩)⟩

/-- C5 as stated fails: on a cylinder, `SetScale((1, 2, 2))` followed by
`GetScale()` returns (1, 1, 2). -/
theorem C5_counterexample :
    ((visualWith (some (some (.cylinder 1 1)))).SetScale ⟨1, 2, 2⟩).GetScale = ⟨1, 1, 2⟩ ∧
    ((visualWith (some (some (.cylinder 1 1)))).SetScale ⟨1, 2, 2⟩).GetScale ≠ ⟨1, 2, 2⟩ := by
  decide

/-- C5 (amended): for a node whose descriptor geometry is a cylinder and every
v = (x, y, z), `SetScale(v)` followed by `GetScale()` returns a vector whose x and
y components both equal x, the single radius the descriptor keeps; it is exactly
v when x = y = z. -/
theorem C5_cylinder_scale_radius (vis : Visual) (v : Vector3 ℚ) (r l : ℚ)
    (hgeom : vis.sdf.geometry = some (some (.cylinder r l))) :
    (vis.SetScale v).GetScale.x = v.x ∧ (vis.SetScale v).GetScale.y = v.x ∧
    (v.y = v.x → v.z = v.x → (vis.SetScale v).GetScale = v) := by
  have h : (vis.SetScale v).GetScale = ⟨v.x, v.x, v.y⟩ := by
    simp [Visual.SetScale, Visual.GetScale, Element.GetOrCreateGeometry, hgeom]
  refine ⟨by rw [h], by rw [h], ?_⟩
  intro hy hz
  rw [h]
  cases v
  simp_all

/-- Witness of C5 (amended): a unit cylinder scaled to (3, 3, 3). -/
theorem C5_cylinder_scale_radius_witness :
    (visualWith (some (some (.cylinder 1 1)))).sdf.geometry = some (some (.cylinder 1 1)) ∧
    (((visualWith (some (some (.cylinder 1 1)))).SetScale ⟨3, 3, 3⟩).GetScale.x = 3 ∧
     ((visualWith (some (some (.cylinder 1 1)))).SetScale ⟨3, 3, 3⟩).GetScale.y = 3 ∧
     ((3 : ℚ) = 3 → (3 : ℚ) = 3 →
       ((visualWith (some (some (.cylinder 1 1)))).SetScale ⟨3, 3, 3⟩).GetScale = ⟨3, 3, 3⟩)) :=
  ⟨rfl, C5_cylinder_scale_radius (visualWith (some (some (.cylinder 1 1)))) ⟨3, 3, 3⟩ 1 1 rfl⟩

/-! ## Transparency (C6) -/

/-- C6: after `SetTransparency(t)`, `GetTransparency()` is `min(max(t, 0), 1)`: 0
for t ≤ 0, 1 for t ≥ 1, t itself for t in [0, 1]; it always lies in [0, 1]. -/
theorem C6_transparency_clamped (vis : Visual) (t : ℚ) (b : Backend) :
    (vis.SetTransparency t b).1.GetTransparency = min (max t 0) 1 ∧
    (t ≤ 0 → (vis.SetTransparency t b).1.GetTransparency = 0) ∧
    (1 ≤ t → (vis.SetTransparency t b).1.GetTransparency = 1) ∧
    (0 ≤ t → t ≤ 1 → (vis.SetTransparency t b).1.GetTransparency = t) ∧
    0 ≤ (vis.SetTransparency t b).1.GetTransparency ∧
    (vis.SetTransparency t b).1.GetTransparency ≤ 1 := by
  have h : (vis.SetTransparency t b).1.GetTransparency = min (max t 0) 1 := rfl
  rw [h]
  refine ⟨rfl, ?_, ?_, ?_, ?_, ?_⟩
  · intro ht
    rw [max_eq_right ht]
    exact min_eq_left (by norm_num)
  · intro ht
    rw [max_eq_left (by linarith)]
    exact min_eq_right ht
  · intro h0 h1
    rw [max_eq_left h0]
    exact min_eq_left h1
  · exact le_min (le_max_right _ _) (by norm_num)
  · exact min_le_right _ _

/-- Witness of C6: the values -0.5 and 1.7 of the specification. -/
theorem C6_transparency_clamped_witness :
    ((visualWith none).SetTransparency (-1 / 2) Backend.empty).1.GetTransparency = 0 ∧
    ((visualWith none).SetTransparency (17 / 10) Backend.empty).1.GetTransparency = 1 :=
  ⟨(C6_transparency_clamped (visualWith none) (-1 / 2) Backend.empty).2.1 (by norm_num),
   (C6_transparency_clamped (visualWith none) (17 / 10) Backend.empty).2.2.1 (by norm_num)⟩

/-! ## Material idempotence (C7) -/

theorem SetMaterial_applied (vis : Visual) (x : String) (b : Backend)
    (h : vis.myMaterialName = vis.sceneNode.name ++ "_MATERIAL_" ++ x) :
    vis.SetMaterial x b = (vis, b) := by
  unfold Visual.SetMaterial
  by_cases hx : x = ""
  · simp [hx]
  · simp [hx, Visual.GetMaterialName, h]

theorem SetMaterial_first (vis : Visual) (x : String) (b : Backend) (hx : x ≠ "") :
    (vis.SetMaterial x b).1.myMaterialName = vis.sceneNode.name ++ "_MATERIAL_" ++ x ∧
    (vis.SetMaterial x b).1.sceneNode.name = vis.sceneNode.name ∧
    (vis.SetMaterial x b).2.cloneCount ≤ b.cloneCount + 1 := by
  unfold Visual.SetMaterial
  simp only [hx, if_false, Visual.GetMaterialName]
  by_cases happlied : vis.myMaterialName = vis.sceneNode.name ++ "_MATERIAL_" ++ x
  · simp [happlied]
  · simp only [happlied, if_false]
    cases hget : b.getByName x with
    | none => simp [Backend.log]
    | some orig =>
      by_cases hex : b.resourceExists (vis.sceneNode.name ++ "_MATERIAL_" ++ x) = true
      · simp [hex]
      · simp [hex, Backend.clone]

theorem SetMaterial_resolved (vis : Visual) (x : String) (b : Backend) (orig : Material)
    (hx : x ≠ "") (hres : b.getByName x = some orig)
    (hnew : vis.GetMaterialName ≠ vis.sceneNode.name ++ "_MATERIAL_" ++ x) :
    (vis.SetMaterial x b).2.cloneCount
      = (if b.resourceExists (vis.sceneNode.name ++ "_MATERIAL_" ++ x) = true then b.cloneCount
         else b.cloneCount + 1) ∧
    (vis.SetMaterial x b).2.resourceExists (vis.sceneNode.name ++ "_MATERIAL_" ++ x) = true ∧
    (vis.SetMaterial x b).1.sceneNode.objects
      = vis.sceneNode.objects.map
          (fun o => o.setMaterialName (vis.sceneNode.name ++ "_MATERIAL_" ++ x)) := by
  have hnew' : vis.myMaterialName ≠ vis.sceneNode.name ++ "_MATERIAL_" ++ x := hnew
  unfold Visual.SetMaterial
  simp only [hx, if_false, Visual.GetMaterialName, hnew', hres]
  by_cases hex : b.resourceExists (vis.sceneNode.name ++ "_MATERIAL_" ++ x) = true
  · simp only [hex, if_true]
    exact ⟨trivial, hex, trivial⟩
  · have hex' : b.resourceExists (vis.sceneNode.name ++ "_MATERIAL_" ++ x) = false := by
      simpa using hex
    simp only [hex', Bool.false_eq_true, if_false]
    refine ⟨?_, ?_, trivial⟩
    · trivial
    · simp [Backend.resourceExists, Backend.clone]

/-- C7: for a non-empty base material name x, calling `SetMaterial(x)` twice in a
row performs at most one clone operation in total, the second call changes
nothing (visual and backend are the ones the first call left), and
`GetMaterialName()` after the second call is the one after the first, namely the
scene-node name followed by `_MATERIAL_` and x.  When x resolves in the registry
and its instance is not the applied one, the first call clones exactly when the
registry has no instance of that key yet, the instance is registered
afterwards, and every attachment carries it. -/
theorem C7_SetMaterial_twice (vis : Visual) (x : String) (b : Backend) (hx : x ≠ "") :
    (vis.SetMaterial x b).1.SetMaterial x (vis.SetMaterial x b).2 = vis.SetMaterial x b ∧
    ((vis.SetMaterial x b).1.SetMaterial x (vis.SetMaterial x b).2).2.cloneCount
      ≤ b.cloneCount + 1 ∧
    ((vis.SetMaterial x b).1.SetMaterial x (vis.SetMaterial x b).2).1.GetMaterialName
      = (vis.SetMaterial x b).1.GetMaterialName ∧
    ((vis.SetMaterial x b).1.SetMaterial x (vis.SetMaterial x b).2).1.GetMaterialName
      = vis.sceneNode.name ++ "_MATERIAL_" ++ x ∧
    (∀ orig, b.getByName x = some orig →
      vis.GetMaterialName ≠ vis.sceneNode.name ++ "_MATERIAL_" ++ x →
      ((vis.SetMaterial x b).1.SetMaterial x (vis.SetMaterial x b).2).2.cloneCount
        = (if b.resourceExists (vis.sceneNode.name ++ "_MATERIAL_" ++ x) = true then
             b.cloneCount
           else b.cloneCount + 1) ∧
      ((vis.SetMaterial x b).1.SetMaterial x (vis.SetMaterial x b).2).2.resourceExists
        (vis.sceneNode.name ++ "_MATERIAL_" ++ x) = true ∧
      ((vis.SetMaterial x b).1.SetMaterial x (vis.SetMaterial x b).2).1.sceneNode.objects
        = vis.sceneNode.objects.map
            (fun o => o.setMaterialName (vis.sceneNode.name ++ "_MATERIAL_" ++ x))) := by
  obtain ⟨hname, hnode, hclone⟩ := SetMaterial_first vis x b hx
  have hsecond : (vis.SetMaterial x b).1.SetMaterial x (vis.SetMaterial x b).2
      = vis.SetMaterial x b :=
    SetMaterial_applied _ x _ (by rw [hname, hnode])
  rw [hsecond]
  exact ⟨rfl, hclone, rfl, hname, fun orig hres hnew => SetMaterial_resolved vis x b orig hx hres hnew⟩

/-- Witness of C7: the base material `BaseWhite`, which the registry holds, set
twice on the loaded box visual, whose entity still refers to the shared
`BaseWhite`: one clone, the instance `v_MATERIAL_BaseWhite` registered and
carried by the sub-entity, the second call changing nothing. -/
theorem C7_SetMaterial_twice_witness :
    "BaseWhite" ≠ "" ∧
    loadedBox.2.1.getByName "BaseWhite" = some (Material.create "BaseWhite") ∧
    loadedBox.1.GetMaterialName ≠ loadedBox.1.sceneNode.name ++ "_MATERIAL_" ++ "BaseWhite" ∧
    ((loadedBox.1.SetMaterial "BaseWhite" loadedBox.2.1).1.SetMaterial "BaseWhite"
        (loadedBox.1.SetMaterial "BaseWhite" loadedBox.2.1).2
      = loadedBox.1.SetMaterial "BaseWhite" loadedBox.2.1 ∧
     ((loadedBox.1.SetMaterial "BaseWhite" loadedBox.2.1).1.SetMaterial "BaseWhite"
        (loadedBox.1.SetMaterial "BaseWhite" loadedBox.2.1).2).2.cloneCount
      ≤ loadedBox.2.1.cloneCount + 1 ∧
     ((loadedBox.1.SetMaterial "BaseWhite" loadedBox.2.1).1.SetMaterial "BaseWhite"
        (loadedBox.1.SetMaterial "BaseWhite" loadedBox.2.1).2).1.GetMaterialName
      = (loadedBox.1.SetMaterial "BaseWhite" loadedBox.2.1).1.GetMaterialName ∧
     ((loadedBox.1.SetMaterial "BaseWhite" loadedBox.2.1).1.SetMaterial "BaseWhite"
        (loadedBox.1.SetMaterial "BaseWhite" loadedBox.2.1).2).1.GetMaterialName
      = loadedBox.1.sceneNode.name ++ "_MATERIAL_" ++ "BaseWhite" ∧
     (∀ orig, loadedBox.2.1.getByName "BaseWhite" = some orig →
       loadedBox.1.GetMaterialName
         ≠ loadedBox.1.sceneNode.name ++ "_MATERIAL_" ++ "BaseWhite" →
       ((loadedBox.1.SetMaterial "BaseWhite" loadedBox.2.1).1.SetMaterial "BaseWhite"
          (loadedBox.1.SetMaterial "BaseWhite" loadedBox.2.1).2).2.cloneCount
         = (if loadedBox.2.1.resourceExists
                (loadedBox.1.sceneNode.name ++ "_MATERIAL_" ++ "BaseWhite") = true then
              loadedBox.2.1.cloneCount
            else loadedBox.2.1.cloneCount + 1) ∧
       ((loadedBox.1.SetMaterial "BaseWhite" loadedBox.2.1).1.SetMaterial "BaseWhite"
          (loadedBox.1.SetMaterial "BaseWhite" loadedBox.2.1).2).2.resourceExists
         (loadedBox.1.sceneNode.name ++ "_MATERIAL_" ++ "BaseWhite") = true ∧
       ((loadedBox.1.SetMaterial "BaseWhite" loadedBox.2.1).1.SetMaterial "BaseWhite"
          (loadedBox.1.SetMaterial "BaseWhite" loadedBox.2.1).2).1.sceneNode.objects
         = loadedBox.1.sceneNode.objects.map
             (fun o => o.setMaterialName
               (loadedBox.1.sceneNode.name ++ "_MATERIAL_" ++ "BaseWhite")))) ∧
    loadedBox.2.1.cloneCount = 0 ∧
    loadedBox.2.1.resourceExists "v_MATERIAL_BaseWhite" = false ∧
    referencedMaterials loadedBox.1.sceneNode.objects = ["BaseWhite"] ∧
    ((loadedBox.1.SetMaterial "BaseWhite" loadedBox.2.1).1.SetMaterial "BaseWhite"
        (loadedBox.1.SetMaterial "BaseWhite" loadedBox.2.1).2).2.cloneCount = 1 ∧
    ((loadedBox.1.SetMaterial "BaseWhite" loadedBox.2.1).1.SetMaterial "BaseWhite"
        (loadedBox.1.SetMaterial "BaseWhite" loadedBox.2.1).2).2.resourceExists
      "v_MATERIAL_BaseWhite" = true ∧
    referencedMaterials
        ((loadedBox.1.SetMaterial "BaseWhite" loadedBox.2.1).1.SetMaterial "BaseWhite"
          (loadedBox.1.SetMaterial "BaseWhite" loadedBox.2.1).2).1.sceneNode.objects
      = ["v_MATERIAL_BaseWhite"] ∧
    ((loadedBox.1.SetMaterial "BaseWhite" loadedBox.2.1).1.SetMaterial "BaseWhite"
        (loadedBox.1.SetMaterial "BaseWhite" loadedBox.2.1).2).1.GetMaterialName
      = "v_MATERIAL_BaseWhite" :=
  ⟨by decide, by decide, by decide,
   C7_SetMaterial_twice loadedBox.1 "BaseWhite" loadedBox.2.1 (by decide),
   by decide, by decide, by decide, by decide, by decide, by decide, by decide⟩

/-! ## Mesh upload without submeshes (C9) -/

/-- C9: for a mesh with zero submeshes, whatever its name and bounds, `InsertMesh`
returns normally, reports an error on the console, and creates nothing: the mesh
resources, materials and entities of the backend are unchanged. -/
theorem C9_InsertMesh_no_submeshes (mesh : Mesh) (b : Backend)
    (hsub : mesh.submeshes.length = 0) :
    (Visual.InsertMesh (some mesh) b).2 = none ∧
    (Visual.InsertMesh (some mesh) b).1.console
      = b.console ++ ["Visual::InsertMesh no submeshes, this is an invalid mesh"] ∧
    (Visual.InsertMesh (some mesh) b).1.ogreMeshes = b.ogreMeshes ∧
    (Visual.InsertMesh (some mesh) b).1.materials = b.materials ∧
    (Visual.InsertMesh (some mesh) b).1.entities = b.entities ∧
    (Visual.InsertMesh (some mesh) b).1.sceneNodes = b.sceneNodes ∧
    (Visual.InsertMesh (some mesh) b).1.meshStore = b.meshStore := by
  simp [Visual.InsertMesh, hsub, Backend.log]

/-- Witness of C9: a mesh without submeshes whose corners are infinite. -/
theorem C9_InsertMesh_no_submeshes_witness :
    emptyMesh.submeshes.length = 0 ∧
    ((Visual.InsertMesh (some emptyMesh) Backend.empty).2 = none ∧
     (Visual.InsertMesh (some emptyMesh) Backend.empty).1.console
       = Backend.empty.console ++ ["Visual::InsertMesh no submeshes, this is an invalid mesh"] ∧
     (Visual.InsertMesh (some emptyMesh) Backend.empty).1.ogreMeshes = Backend.empty.ogreMeshes ∧
     (Visual.InsertMesh (some emptyMesh) Backend.empty).1.materials = Backend.empty.materials ∧
     (Visual.InsertMesh (some emptyMesh) Backend.empty).1.entities = Backend.empty.entities ∧
     (Visual.InsertMesh (some emptyMesh) Backend.empty).1.sceneNodes
       = Backend.empty.sceneNodes ∧
     (Visual.InsertMesh (some emptyMesh) Backend.empty).1.meshStore = Backend.empty.meshStore) :=
  ⟨rfl, C9_InsertMesh_no_submeshes emptyMesh Backend.empty rfl⟩

/-! ## Pose-only messages (C10) -/

theorem SetMaterial_keeps (vis : Visual) (x : String) (b : Backend) :
    (vis.SetMaterial x b).1.visible = vis.visible ∧ (vis.SetMaterial x b).1.sdf = vis.sdf ∧
    (vis.SetMaterial x b).1.myMaterialName
      = (if x = "" then vis.myMaterialName else vis.sceneNode.name ++ "_MATERIAL_" ++ x) := by
  unfold Visual.SetMaterial
  by_cases hx : x = ""
  · simp [hx]
  · simp only [hx, if_false, Visual.GetMaterialName]
    by_cases happlied : vis.myMaterialName = vis.sceneNode.name ++ "_MATERIAL_" ++ x
    · simp [happlied]
    · simp only [happlied, if_false]
      cases hget : b.getByName x <;> simp

/-- C10 as stated fails: a box of size (2, 3, 4) reports the scale (1, 1, 1) after
`LoadFromMsg` of a message that carries only a pose; and a visual whose descriptor
holds the script `A` while the instance of `B` is applied, both base materials
being registered, reports the instance of `A` afterwards. -/
theorem C10_counterexample :
    ((visualWith (some (some (.box ⟨2, 3, 4⟩)))).GetScale = ⟨2, 3, 4⟩ ∧
     ((visualWith (some (some (.box ⟨2, 3, 4⟩)))).LoadFromMsg
        (VisualMsg.poseOnly ⟨⟨0, 0, 0⟩, ⟨1, 0, 0, 0⟩⟩) Backend.empty).1.GetScale = ⟨1, 1, 1⟩ ∧
     ((visualWith (some (some (.box ⟨2, 3, 4⟩)))).LoadFromMsg
        (VisualMsg.poseOnly ⟨⟨0, 0, 0⟩, ⟨1, 0, 0, 0⟩⟩) Backend.empty).1.GetScale
      ≠ (visualWith (some (some (.box ⟨2, 3, 4⟩)))).GetScale) ∧
    (visualRestyled.2.resourceExists "A" = true ∧
     visualRestyled.2.resourceExists "v_MATERIAL_B" = true ∧
     visualRestyled.1.GetMaterialName = "v_MATERIAL_B" ∧
     (visualRestyled.1.LoadFromMsg
        (VisualMsg.poseOnly ⟨⟨0, 0, 0⟩, ⟨1, 0, 0, 0⟩⟩) visualRestyled.2).1.GetMaterialName
      = "v_MATERIAL_A") := by
  decide

/-- What `LoadFromMsg` and `UpdateFromMsg` do with a message in which only the pose
field is present, field by field. -/
theorem poseOnly_facts (vis : Visual) (p : Pose) (b : Backend) :
    (vis.LoadFromMsg (VisualMsg.poseOnly p) b).2.2 = none ∧
    (vis.LoadFromMsg (VisualMsg.poseOnly p) b).1.GetVisible = vis.GetVisible ∧
    (vis.LoadFromMsg (VisualMsg.poseOnly p) b).1.GetScale = ⟨1, 1, 1⟩ ∧
    (vis.LoadFromMsg (VisualMsg.poseOnly p) b).1.GetMaterialName
      = (match vis.sdf.material with
         | some matElem =>
           if matElem.script = "" then vis.GetMaterialName
           else vis.sceneNode.name ++ "_MATERIAL_" ++ matElem.script
         | none => vis.GetMaterialName) ∧
    (vis.UpdateFromMsg (VisualMsg.poseOnly p) b).1.GetVisible = vis.GetVisible ∧
    (vis.UpdateFromMsg (VisualMsg.poseOnly p) b).1.GetScale = vis.GetScale ∧
    (vis.UpdateFromMsg (VisualMsg.poseOnly p) b).1.GetMaterialName = vis.GetMaterialName := by
  refine ⟨?_, ?_, ?_, ?_, ?_, ?_, ?_⟩
  · simp [Visual.LoadFromMsg, VisualMsg.poseOnly, Element.fromMsg, Visual.Load,
      Visual.GetMeshName]
  · cases hmat : vis.sdf.material with
    | none =>
      simp [Visual.LoadFromMsg, VisualMsg.poseOnly, Element.fromMsg, Visual.Load,
        Visual.GetMeshName, Visual.UpdateFromMsg, Visual.SetWorldPose, Visual.SetCastShadows,
        Visual.SetPose, Visual.SetPosition, Visual.SetRotation, Visual.GetVisible, hmat]
    | some m =>
      by_cases hs : m.script = ""
      · cases hc : m.color <;>
          simp [Visual.LoadFromMsg, VisualMsg.poseOnly, Element.fromMsg, Visual.Load,
            Visual.GetMeshName, Visual.UpdateFromMsg, Visual.SetWorldPose,
            Visual.SetCastShadows, Visual.SetPose, Visual.SetPosition, Visual.SetRotation,
            Visual.GetVisible, Visual.SetColor, hmat, hs, hc]
      · simp [Visual.LoadFromMsg, VisualMsg.poseOnly, Element.fromMsg, Visual.Load,
          Visual.GetMeshName, Visual.UpdateFromMsg, Visual.SetWorldPose,
          Visual.SetCastShadows, Visual.SetPose, Visual.SetPosition, Visual.SetRotation,
          Visual.GetVisible, hmat, hs, (SetMaterial_keeps _ _ _).1]
  · cases hmat : vis.sdf.material with
    | none =>
      simp [Visual.LoadFromMsg, VisualMsg.poseOnly, Element.fromMsg, Visual.Load,
        Visual.GetMeshName, Visual.UpdateFromMsg, Visual.SetWorldPose, Visual.SetCastShadows,
        Visual.SetPose, Visual.SetPosition, Visual.SetRotation, Visual.GetScale, hmat]
    | some m =>
      by_cases hs : m.script = ""
      · cases hc : m.color <;>
          simp [Visual.LoadFromMsg, VisualMsg.poseOnly, Element.fromMsg, Visual.Load,
            Visual.GetMeshName, Visual.UpdateFromMsg, Visual.SetWorldPose,
            Visual.SetCastShadows, Visual.SetPose, Visual.SetPosition, Visual.SetRotation,
            Visual.GetScale, Visual.SetColor, hmat, hs, hc]
      · simp [Visual.LoadFromMsg, VisualMsg.poseOnly, Element.fromMsg, Visual.Load,
          Visual.GetMeshName, Visual.UpdateFromMsg, Visual.SetWorldPose,
          Visual.SetCastShadows, Visual.SetPose, Visual.SetPosition, Visual.SetRotation,
          Visual.GetScale, hmat, hs, (SetMaterial_keeps _ _ _).2.1]
  · cases hmat : vis.sdf.material with
    | none =>
      simp [Visual.LoadFromMsg, VisualMsg.poseOnly, Element.fromMsg, Visual.Load,
        Visual.GetMeshName, Visual.UpdateFromMsg, Visual.SetWorldPose, Visual.SetCastShadows,
        Visual.SetPose, Visual.SetPosition, Visual.SetRotation, Visual.GetMaterialName, hmat]
    | some m =>
      by_cases hs : m.script = ""
      · cases hc : m.color <;>
          simp [Visual.LoadFromMsg, VisualMsg.poseOnly, Element.fromMsg, Visual.Load,
            Visual.GetMeshName, Visual.UpdateFromMsg, Visual.SetWorldPose,
            Visual.SetCastShadows, Visual.SetPose, Visual.SetPosition, Visual.SetRotation,
            Visual.GetMaterialName, Visual.SetColor, hmat, hs, hc]
      · simp [Visual.LoadFromMsg, VisualMsg.poseOnly, Element.fromMsg, Visual.Load,
          Visual.GetMeshName, Visual.UpdateFromMsg, Visual.SetWorldPose,
          Visual.SetCastShadows, Visual.SetPose, Visual.SetPosition, Visual.SetRotation,
          Visual.GetMaterialName, hmat, hs, (SetMaterial_keeps _ _ _).2.2]
  · simp [Visual.UpdateFromMsg, VisualMsg.poseOnly, Visual.SetWorldPose, Visual.GetVisible,
      Visual.MakeStatic]
  · simp [Visual.UpdateFromMsg, VisualMsg.poseOnly, Visual.SetWorldPose, Visual.GetScale,
      Visual.MakeStatic]
  · simp [Visual.UpdateFromMsg, VisualMsg.poseOnly, Visual.SetWorldPose,
      Visual.GetMaterialName, Visual.MakeStatic]

/-- C10 (amended): for every node state and every message in which only the pose
field is present, `LoadFromMsg` returns normally and leaves `GetVisible()` as it
was; it clears the geometry element, so that `GetScale()` is (1, 1, 1) afterwards;
it leaves `GetMaterialName()` as it was when the descriptor holds no non-empty
material script or holds the script whose instance is already applied, and when
the descriptor holds a script that resolves in the registry the name is the
instance name of that script, which `Load` applies again.  `UpdateFromMsg` with
the same message leaves `GetMaterialName()`, `GetScale()` and `GetVisible()` as
they were. -/
theorem C10_pose_only_message (vis : Visual) (p : Pose) (b : Backend) :
    (vis.LoadFromMsg (VisualMsg.poseOnly p) b).2.2 = none ∧
    (vis.LoadFromMsg (VisualMsg.poseOnly p) b).1.GetVisible = vis.GetVisible ∧
    (vis.LoadFromMsg (VisualMsg.poseOnly p) b).1.GetScale = ⟨1, 1, 1⟩ ∧
    ((vis.sdf.material = none ∨ ∃ matElem, vis.sdf.material = some matElem ∧
        matElem.script = "") →
      (vis.LoadFromMsg (VisualMsg.poseOnly p) b).1.GetMaterialName = vis.GetMaterialName) ∧
    (∀ matElem, vis.sdf.material = some matElem → matElem.script ≠ "" →
      vis.GetMaterialName = vis.sceneNode.name ++ "_MATERIAL_" ++ matElem.script →
      (vis.LoadFromMsg (VisualMsg.poseOnly p) b).1.GetMaterialName = vis.GetMaterialName) ∧
    (∀ matElem orig, vis.sdf.material = some matElem → matElem.script ≠ "" →
      b.getByName matElem.script = some orig →
      (vis.LoadFromMsg (VisualMsg.poseOnly p) b).1.GetMaterialName
        = vis.sceneNode.name ++ "_MATERIAL_" ++ matElem.script) ∧
    (vis.UpdateFromMsg (VisualMsg.poseOnly p) b).1.GetVisible = vis.GetVisible ∧
    (vis.UpdateFromMsg (VisualMsg.poseOnly p) b).1.GetScale = vis.GetScale ∧
    (vis.UpdateFromMsg (VisualMsg.poseOnly p) b).1.GetMaterialName = vis.GetMaterialName := by
  obtain ⟨hret, hvis, hscale, hmat, hu1, hu2, hu3⟩ := poseOnly_facts vis p b
  refine ⟨hret, hvis, hscale, ?_, ?_, ?_, hu1, hu2, hu3⟩
  · rintro (hnone | ⟨matElem, hsome, hscript⟩)
    · rw [hmat, hnone]
    · rw [hmat, hsome]
      simp [hscript]
  · intro matElem hsome hscript happlied
    rw [hmat, hsome]
    simp [hscript, happlied]
  · intro matElem orig hsome hscript _
    rw [hmat, hsome]
    simp [hscript]

/-! ## Bounding volume (C8) -/

theorem substr_eq_iff_beginsWith (start str : String) :
    (substr str 0 start.length == start) = beginsWith start str := by
  rcases start with ⟨ps⟩
  rcases str with ⟨cs⟩
  simp only [substr, beginsWith, String.length, List.drop_zero]
  induction ps generalizing cs with
  | nil => simp
  | cons a ps ih =>
    cases cs with
    | nil => simp [List.isPrefixOf, String.ext_iff]
    | cons c cs =>
      have := ih cs
      simp only [List.length_cons, List.take_succ_cons, List.isPrefixOf]
      by_cases hac : a = c
      · subst hac
        simp only [BEq.refl, Bool.true_and]
        rw [← this]
        simp [String.ext_iff]
      · have hne : (a == c) = false := by simpa using hac
        simp only [hne, Bool.false_and]
        simp [String.ext_iff]
        intro h
        exact absurd h.symm hac

theorem mergeAttachment_eq (box : Box) (obj : MovableObject) :
    mergeAttachment box obj
      = if obj.qualifies then box.Merge obj.worldBoundingBox else box := by
  have hrot : ∀ str, (substr str 0 3 == "rot") = beginsWith "rot" str :=
    fun str => substr_eq_iff_beginsWith "rot" str
  have htrans : ∀ str, (substr str 0 5 == "trans") = beginsWith "trans" str :=
    fun str => substr_eq_iff_beginsWith "trans" str
  unfold mergeAttachment MovableObject.qualifies
  cases hv : obj.visible <;> cases ht : (obj.movableType == "gazebo::ogredynamiclines") <;>
    cases hu : obj.userAny <;> simp [hv, ht, hrot, htrans, bne]
  all_goals
    (cases h1 : beginsWith "rot" _ <;> cases h2 : beginsWith "trans" _ <;> simp)

theorem foldl_mergeAttachment (objs : List MovableObject) (box : Box) :
    objs.foldl mergeAttachment box
      = ((objs.filter MovableObject.qualifies).map fun o => o.worldBoundingBox).foldl
          Box.Merge box := by
  induction objs generalizing box with
  | nil => rfl
  | cons o objs ih =>
    simp only [List.foldl_cons, mergeAttachment_eq, ih, List.filter_cons]
    by_cases hq : o.qualifies = true <;> simp [hq]

mutual
theorem GetBoundsHelper_eq : ∀ (t : NodeTree) (box : Box),
    GetBoundsHelper t box = t.attachments.foldl mergeAttachment box
  | .node self children, box => by
    simp only [GetBoundsHelper, NodeTree.attachments, List.foldl_append]
    exact GetBoundsChildren_eq children _
theorem GetBoundsChildren_eq : ∀ (ts : List NodeTree) (box : Box),
    GetBoundsChildren ts box = (attachmentsOfAll ts).foldl mergeAttachment box
  | [], box => by simp [GetBoundsChildren, attachmentsOfAll]
  | t :: ts, box => by
    simp only [GetBoundsChildren, attachmentsOfAll, List.foldl_append]
    rw [GetBoundsHelper_eq t box]
    exact GetBoundsChildren_eq ts _
end

theorem Merge_assoc (a b c : Box) : (a.Merge b).Merge c = a.Merge (b.Merge c) := by
  simp [Box.Merge, min_assoc, max_assoc]

theorem Merge_empty_left (a : Box) : Box.empty.Merge a = a := by
  simp [Box.Merge, Box.empty]

theorem unionBox_cons (bb : Box) (bs : List Box) :
    unionBox (bb :: bs) = bb.Merge (unionBox bs) := by
  simp [unionBox, Box.Merge]

theorem foldl_Merge (bs : List Box) (box : Box) :
    bs.foldl Box.Merge box = box.Merge (unionBox bs) := by
  induction bs generalizing box with
  | nil => simp [unionBox, Box.Merge]
  | cons bb bs ih => rw [List.foldl_cons, ih, Merge_assoc, unionBox_cons]

theorem within_Merge_left (a b : Box) : a.within (a.Merge b) := by
  simp [Box.within, Box.Merge]

theorem within_Merge_right (a b c : Box) (h : a.within c) : a.within (b.Merge c) := by
  obtain ⟨h1, h2, h3, h4, h5, h6⟩ := h
  exact ⟨le_trans (min_le_right _ _) h1, le_trans (min_le_right _ _) h2,
    le_trans (min_le_right _ _) h3, le_trans h4 (le_max_right _ _),
    le_trans h5 (le_max_right _ _), le_trans h6 (le_max_right _ _)⟩

theorem within_unionBox (bs : List Box) : ∀ bb, bb ∈ bs → bb.within (unionBox bs) := by
  induction bs with
  | nil => intro bb h; cases h
  | cons b0 bs ih =>
    intro bb h
    rw [unionBox_cons]
    rcases List.mem_cons.mp h with rfl | h
    · exact within_Merge_left _ _
    · exact within_Merge_right _ _ _ (ih bb h)

theorem mem_attachmentsOfAll (ts : List NodeTree) (t : NodeTree) (o : MovableObject)
    (ht : t ∈ ts) (ho : o ∈ t.attachments) : o ∈ attachmentsOfAll ts := by
  induction ts with
  | nil => cases ht
  | cons t0 ts ih =>
    simp only [attachmentsOfAll, List.mem_append]
    rcases List.mem_cons.mp ht with rfl | ht
    · exact Or.inl ho
    · exact Or.inr (ih ht)

theorem GetBoundingBox_eq (vis : Visual) (children : List NodeTree) :
    vis.GetBoundingBox children
      = unionBox (NodeTree.qualifyingBounds (.node vis.sceneNode children)) := by
  rw [Visual.GetBoundingBox, GetBoundsHelper_eq, foldl_mergeAttachment, foldl_Merge,
    Merge_empty_left]
  rfl

/-- C8: `GetBoundingBox()` of a node is the merge, from the empty sentinel, of the
world bounds of exactly the attachments of the node and of all its descendants
that are visible, not of the dynamic-lines type and not tagged by a text
beginning with `rot` or `trans`: minimum corner the componentwise minimum of
their minima, maximum corner the componentwise maximum of their maxima.  Two
qualifying boxes attached to a node without children yield their union, and a
qualifying attachment of a child (or deeper) lies inside the result. -/
theorem C8_GetBoundingBox_merges_qualifying (vis : Visual) (children : List NodeTree) :
    vis.GetBoundingBox children
      = unionBox (NodeTree.qualifyingBounds (.node vis.sceneNode children)) ∧
    vis.GetBoundingBox children
      = (NodeTree.qualifyingBounds (.node vis.sceneNode children)).foldl Box.Merge Box.empty ∧
    (∀ bb, bb ∈ NodeTree.qualifyingBounds (.node vis.sceneNode children) →
      bb.within (vis.GetBoundingBox children)) ∧
    (∀ o1 o2 : MovableObject, vis.sceneNode.objects = [o1, o2] → children = [] →
      o1.qualifies = true → o2.qualifies = true →
      vis.GetBoundingBox children = o1.worldBoundingBox.Merge o2.worldBoundingBox) ∧
    (∀ (child : NodeTree) (o : MovableObject), child ∈ children → o ∈ child.attachments →
      o.qualifies = true → o.worldBoundingBox.within (vis.GetBoundingBox children)) := by
  have heq := GetBoundingBox_eq vis children
  refine ⟨heq, ?_, ?_, ?_, ?_⟩
  · rw [heq, foldl_Merge, Merge_empty_left]
  · intro bb hbb
    rw [heq]
    exact within_unionBox _ bb hbb
  · intro o1 o2 hobjs hch h1 h2
    rw [heq]
    simp [NodeTree.qualifyingBounds, NodeTree.attachments, attachmentsOfAll, hobjs, hch, h1, h2,
      unionBox, Box.Merge]
  · intro child o hchild ho hq
    rw [heq]
    refine within_unionBox _ _ ?_
    simp only [NodeTree.qualifyingBounds, NodeTree.attachments, List.mem_map, List.mem_filter,
      List.mem_append]
    exact ⟨o, ⟨Or.inr (mem_attachmentsOfAll children child o hchild ho), hq⟩, rfl⟩

/-- Witness of C8: the node `body` with two disjoint boxes and the child `wheel`
with a third box; the result spans all three. -/
theorem C8_GetBoundingBox_merges_qualifying_witness :
    (visualTwoBoxes.GetBoundingBox [childWheel]
      = unionBox (NodeTree.qualifyingBounds (.node visualTwoBoxes.sceneNode [childWheel])) ∧
     visualTwoBoxes.GetBoundingBox [childWheel]
      = (NodeTree.qualifyingBounds (.node visualTwoBoxes.sceneNode [childWheel])).foldl
          Box.Merge Box.empty ∧
     (∀ bb, bb ∈ NodeTree.qualifyingBounds (.node visualTwoBoxes.sceneNode [childWheel]) →
       bb.within (visualTwoBoxes.GetBoundingBox [childWheel])) ∧
     (∀ o1 o2 : MovableObject, visualTwoBoxes.sceneNode.objects = [o1, o2] →
       [childWheel] = [] → o1.qualifies = true → o2.qualifies = true →
       visualTwoBoxes.GetBoundingBox [childWheel]
         = o1.worldBoundingBox.Merge o2.worldBoundingBox) ∧
     (∀ (child : NodeTree) (o : MovableObject), child ∈ [childWheel] →
       o ∈ child.attachments → o.qualifies = true →
       o.worldBoundingBox.within (visualTwoBoxes.GetBoundingBox [childWheel]))) ∧
    visualTwoBoxes.GetBoundingBox [] = boxOf 0 0 0 5 1 1 ∧
    visualTwoBoxes.GetBoundingBox [childWheel] = boxOf 0 (-4) 0 5 1 1 :=
  ⟨C8_GetBoundingBox_merges_qualifying visualTwoBoxes [childWheel], by decide, by decide⟩

/-! ## Per-pass edits (C11, C17) -/

theorem mapPasses_name (f : Pass → Pass) (m : Material) : (m.mapPasses f).name = m.name := rfl

theorem mapPasses_idem (f : Pass → Pass) (hf : ∀ p, f (f p) = f p) (m : Material) :
    (m.mapPasses f).mapPasses f = m.mapPasses f := by
  simp [Material.mapPasses, Function.comp_def, hf]

theorem foldl_editMaterial (f : Pass → Pass) (hf : ∀ p, f (f p) = f p) (names : List String) :
    ∀ b : Backend, names.foldl (Backend.editMaterial f) b
      = { b with materials := b.materials.map fun m =>
            if m.name ∈ names then m.mapPasses f else m } := by
  induction names with
  | nil => intro b; simp
  | cons n rest ih =>
    intro b
    rw [List.foldl_cons, ih]
    simp only [Backend.editMaterial, List.map_map]
    congr 1
    apply List.map_congr_left
    intro m _
    simp only [Function.comp_apply, List.mem_cons]
    by_cases hn : m.name = n
    · by_cases hr : n ∈ rest
      · simp [hn, hr, mapPasses_name, mapPasses_idem f hf]
      · simp [hn, hr, mapPasses_name]
    · by_cases hr : m.name ∈ rest
      · simp [hn, hr]
      · simp [hn, hr]

theorem editAttachedMaterials_eq (f : Pass → Pass) (hf : ∀ p, f (f p) = f p)
    (objects : List MovableObject) :
    ∀ b : Backend, editAttachedMaterials f objects b
      = { b with materials := b.materials.map fun m =>
            if m.name ∈ referencedMaterials objects then m.mapPasses f else m } := by
  induction objects with
  | nil => intro b; simp [editAttachedMaterials, referencedMaterials]
  | cons obj rest ih =>
    intro b
    have hstep : editAttachedMaterials f (obj :: rest) b
        = editAttachedMaterials f rest
            (if obj.isEntity then obj.subEntityMaterials.foldl (Backend.editMaterial f) b
             else b) := by
      simp [editAttachedMaterials, List.foldl_cons]
    rw [hstep, ih]
    by_cases he : obj.isEntity = true
    · simp only [he, if_true, foldl_editMaterial f hf, referencedMaterials, List.map_map]
      congr 1
      apply List.map_congr_left
      intro m _
      simp only [Function.comp_apply, List.mem_append]
      by_cases h1 : m.name ∈ obj.subEntityMaterials
      · by_cases h2 : m.name ∈ referencedMaterials rest
        · simp [h1, h2, mapPasses_name, mapPasses_idem f hf]
        · simp [h1, h2, mapPasses_name]
      · by_cases h2 : m.name ∈ referencedMaterials rest
        · simp [h1, h2]
        · simp [h1, h2]
    · simp [he, referencedMaterials]

theorem applyTransparency_idem (c : ℚ) (p : Pass) :
    Pass.applyTransparency c (Pass.applyTransparency c p) = Pass.applyTransparency c p := by
  unfold Pass.applyTransparency
  by_cases h : (!p.programmable && p.polygonMode == PolygonMode.PM_SOLID) = true <;>
    simp [h]

theorem SetTransparency_eq (vis : Visual) (t : ℚ) (b : Backend) :
    vis.SetTransparency t b
      = ({ vis with transparency := min (max t 0) 1 },
         { b with materials := b.materials.map fun m =>
             if m.name ∈ referencedMaterials vis.sceneNode.objects then
               m.mapPasses (Pass.applyTransparency (min (max t 0) 1))
             else m }) := by
  simp only [Visual.SetTransparency]
  rw [editAttachedMaterials_eq _ (applyTransparency_idem _)]

theorem SetEmissive_eq (vis : Visual) (color : Color) (b : Backend) :
    vis.SetEmissive color b
      = (vis,
         { b with materials := b.materials.map fun m =>
             if m.name ∈ referencedMaterials vis.sceneNode.objects then
               m.mapPasses (fun pass => { pass with selfIllumination := color })
             else m }) := by
  simp only [Visual.SetEmissive]
  rw [editAttachedMaterials_eq (fun pass => { pass with selfIllumination := color })
    (fun _ => rfl)]

/-- Both edits leave alone every material that no sub-entity of an attached mesh
entity refers to; in particular, when all of them refer to the instance of the
node, every other material keeps its passes. -/
theorem edits_only_referenced (vis : Visual) (t : ℚ) (color : Color) (b : Backend)
    (m : Material) (hm : m ∈ b.materials)
    (hnot : m.name ∉ referencedMaterials vis.sceneNode.objects) :
    m ∈ (vis.SetTransparency t b).2.materials ∧ m ∈ (vis.SetEmissive color b).2.materials := by
  rw [SetTransparency_eq, SetEmissive_eq]
  constructor <;>
    exact List.mem_map.mpr ⟨m, hm, by simp [hnot]⟩

/-- C11: the code at the failing input.  The visual `v` is loaded with box
geometry and `SetMaterial` never runs, so the sub-entity of its entity refers to
the shared base material `BaseWhite`; `SetTransparency` and `SetEmissive` then
edit the passes of `BaseWhite` itself. -/
theorem C11_shared_base_material_edited :
    loadedBox.2.2 = none ∧ loadedBox.1.GetMaterialName = "" ∧
    referencedMaterials loadedBox.1.sceneNode.objects = ["BaseWhite"] ∧
    loadedBox.2.1.blendingOf "BaseWhite" = some [[SceneBlendType.SBT_REPLACE]] ∧
    (loadedBox.1.SetTransparency 1 loadedBox.2.1).2.blendingOf "BaseWhite"
      = some [[SceneBlendType.SBT_TRANSPARENT_ALPHA]] ∧
    loadedBox.2.1.emissiveOf "BaseWhite" = some [[⟨0, 0, 0, 1⟩]] ∧
    (loadedBox.1.SetEmissive ⟨1, 0, 0, 1⟩ loadedBox.2.1).2.emissiveOf "BaseWhite"
      = some [[⟨1, 0, 0, 1⟩]] := by
  decide

/-- C17: with c = min(max(t, 0), 1), `SetTransparency(t)` leaves the attachments
of the node as they are and rewrites exactly the materials that the sub-entities
of the attached mesh entities refer to, every pass of every technique of theirs
by the same edit: diffuse alpha becomes 1 - c with red, green and blue kept,
depth-write is enabled if and only if c = 0, scene blending becomes alpha
blending on the passes that are non-programmable and solid and is kept on the
others. -/
theorem C17_SetTransparency_passes (vis : Visual) (t : ℚ) (b : Backend) :
    (vis.SetTransparency t b).1.sceneNode.objects = vis.sceneNode.objects ∧
    (vis.SetTransparency t b).2
      = { b with materials := b.materials.map fun m =>
            if m.name ∈ referencedMaterials vis.sceneNode.objects then
              m.mapPasses (Pass.applyTransparency (min (max t 0) 1))
            else m } ∧
    (∀ pass : Pass,
      (Pass.applyTransparency (min (max t 0) 1) pass).diffuse
        = { pass.diffuse with a := 1 - min (max t 0) 1 } ∧
      ((Pass.applyTransparency (min (max t 0) 1) pass).depthWriteEnabled = true
        ↔ min (max t 0) 1 = 0) ∧
      (pass.programmable = false ∧ pass.polygonMode = PolygonMode.PM_SOLID →
        (Pass.applyTransparency (min (max t 0) 1) pass).sceneBlending
          = SceneBlendType.SBT_TRANSPARENT_ALPHA) ∧
      (¬(pass.programmable = false ∧ pass.polygonMode = PolygonMode.PM_SOLID) →
        (Pass.applyTransparency (min (max t 0) 1) pass).sceneBlending = pass.sceneBlending) ∧
      (Pass.applyTransparency (min (max t 0) 1) pass).programmable = pass.programmable ∧
      (Pass.applyTransparency (min (max t 0) 1) pass).polygonMode = pass.polygonMode ∧
      (Pass.applyTransparency (min (max t 0) 1) pass).selfIllumination
        = pass.selfIllumination) ∧
    (∀ m, m ∈ (vis.SetTransparency t b).2.materials →
      m.name ∈ referencedMaterials vis.sceneNode.objects →
      ∀ technique, technique ∈ m.techniques → ∀ pass, pass ∈ technique.passes →
        pass.diffuse.a = 1 - min (max t 0) 1 ∧
        (pass.depthWriteEnabled = true ↔ min (max t 0) 1 = 0) ∧
        (pass.programmable = false → pass.polygonMode = PolygonMode.PM_SOLID →
          pass.sceneBlending = SceneBlendType.SBT_TRANSPARENT_ALPHA)) := by
  have hc : (0 : ℚ) ≤ min (max t 0) 1 := le_min (le_max_right _ _) (by norm_num)
  have hpass : ∀ pass : Pass,
      (Pass.applyTransparency (min (max t 0) 1) pass).diffuse
        = { pass.diffuse with a := 1 - min (max t 0) 1 } ∧
      ((Pass.applyTransparency (min (max t 0) 1) pass).depthWriteEnabled = true
        ↔ min (max t 0) 1 = 0) ∧
      (pass.programmable = false ∧ pass.polygonMode = PolygonMode.PM_SOLID →
        (Pass.applyTransparency (min (max t 0) 1) pass).sceneBlending
          = SceneBlendType.SBT_TRANSPARENT_ALPHA) ∧
      (¬(pass.programmable = false ∧ pass.polygonMode = PolygonMode.PM_SOLID) →
        (Pass.applyTransparency (min (max t 0) 1) pass).sceneBlending = pass.sceneBlending) ∧
      (Pass.applyTransparency (min (max t 0) 1) pass).programmable = pass.programmable ∧
      (Pass.applyTransparency (min (max t 0) 1) pass).polygonMode = pass.polygonMode ∧
      (Pass.applyTransparency (min (max t 0) 1) pass).selfIllumination
        = pass.selfIllumination := by
    intro pass
    generalize min (max t 0) 1 = c at hc
    unfold Pass.applyTransparency
    by_cases h : (!pass.programmable && pass.polygonMode == PolygonMode.PM_SOLID) = true
    · have h' : pass.programmable = false ∧ pass.polygonMode = PolygonMode.PM_SOLID := by
        simpa using h
      rw [if_pos h]
      refine ⟨rfl, ?_, fun _ => rfl, fun hn => absurd h' hn, rfl, rfl, rfl⟩
      by_cases hpos : c > 0
      · simp [hpos, ne_of_gt hpos]
      · simp [hpos, le_antisymm (not_lt.mp hpos) hc]
    · have h' : ¬(pass.programmable = false ∧ pass.polygonMode = PolygonMode.PM_SOLID) := by
        simpa using h
      rw [if_neg h]
      refine ⟨rfl, ?_, fun hy => absurd hy h', fun _ => rfl, rfl, rfl, rfl⟩
      by_cases hpos : c > 0
      · simp [hpos, ne_of_gt hpos]
      · simp [hpos, le_antisymm (not_lt.mp hpos) hc]
  refine ⟨rfl, by rw [SetTransparency_eq], hpass, ?_⟩
  intro m hm href technique htech pass hp
  rw [SetTransparency_eq] at hm
  obtain ⟨m0, _, hm0⟩ := List.mem_map.mp hm
  have hname : m0.name = m.name := by
    rw [← hm0]
    by_cases h0 : m0.name ∈ referencedMaterials vis.sceneNode.objects <;>
      simp [h0, mapPasses_name]
  have h0 : m0.name ∈ referencedMaterials vis.sceneNode.objects := by rw [hname]; exact href
  simp only [h0, if_true] at hm0
  rw [← hm0] at htech
  simp only [Material.mapPasses, List.mem_map] at htech
  obtain ⟨t0, _, ht0⟩ := htech
  rw [← ht0] at hp
  simp only [List.mem_map] at hp
  obtain ⟨p0, _, hp0⟩ := hp
  obtain ⟨hd, hw, hb, _, hprog, hpoly, _⟩ := hpass p0
  rw [← hp0]
  refine ⟨by rw [hd], hw, ?_⟩
  intro h1 h2
  rw [hprog] at h1
  rw [hpoly] at h2
  exact hb ⟨h1, h2⟩

/-- C12: the code at the failing input.  With a null parent the constructor of
lines 50-72 reaches `pnode->getCreator()` with `pnode` null: no node is
constructed. -/
theorem C12_null_parent_dereferenced (fuel : Nat) (name : String) (b : Backend) :
    Visual.fromVisual fuel name none b = .error Fault.nullDeref := by
  rfl

theorem SetMaterial_unresolved (vis : Visual) (x : String) (b : Backend)
    (hx : x ≠ "") (hkey : vis.GetMaterialName ≠ vis.sceneNode.name ++ "_MATERIAL_" ++ x)
    (hnone : b.getByName x = none) :
    (vis.SetMaterial x b).1.GetMaterialName = vis.sceneNode.name ++ "_MATERIAL_" ++ x ∧
    (vis.SetMaterial x b).1.sceneNode = vis.sceneNode ∧
    (vis.SetMaterial x b).2.materials = b.materials ∧
    (vis.SetMaterial x b).2.cloneCount = b.cloneCount := by
  have hkey' : vis.myMaterialName ≠ vis.sceneNode.name ++ "_MATERIAL_" ++ x := hkey
  simp [Visual.SetMaterial, hx, hkey', hnone, Visual.GetMaterialName, Backend.log]

/-- C16: the code at the failing input.  `SetMaterial("Missing")` on a visual
without material, in a registry that has no material `Missing`, clones nothing
and leaves the attachments alone, yet `GetMaterialName()` changes from the empty
name to the key of an instance that does not exist. -/
theorem C16_unresolved_material_renames :
    Backend.empty.getByName "Missing" = none ∧
    (visualWith none).GetMaterialName = "" ∧
    ((visualWith none).SetMaterial "Missing" Backend.empty).1.GetMaterialName
      = "v_MATERIAL_Missing" ∧
    ((visualWith none).SetMaterial "Missing" Backend.empty).2.resourceExists
      "v_MATERIAL_Missing" = false ∧
    ((visualWith none).SetMaterial "Missing" Backend.empty).2.cloneCount = 0 := by
  decide

/-! ## Vertex layout (C18) -/

theorem vertexDeclaration_eq (sm : SubMesh) :
    vertexDeclaration sm = (sm.expectedDeclaration, 4 * sm.stride) := by
  unfold vertexDeclaration SubMesh.expectedDeclaration SubMesh.stride
  by_cases hn : 0 < sm.normals.length <;> by_cases ht : 0 < sm.texCoords.length <;>
    simp [hn, ht, getTypeSize]

theorem expectedVertexFloats_length (sm : SubMesh) (j : Nat) :
    (sm.expectedVertexFloats j).length = sm.stride := by
  unfold SubMesh.expectedVertexFloats SubMesh.stride
  by_cases hn : 0 < sm.normals.length <;> by_cases ht : 0 < sm.texCoords.length <;>
    simp [hn, ht]

theorem vertexFloats_eq (sm : SubMesh) (hwf : sm.wellFormed = true) (j : Nat)
    (hj : j < sm.vertices.length) :
    vertexFloats sm j = .ok (sm.expectedVertexFloats j) := by
  simp only [SubMesh.wellFormed, decide_eq_true_eq] at hwf
  obtain ⟨hnorm, htex⟩ := hwf
  have hv : sm.vertices[j]? = some sm.vertices[j] := List.getElem?_eq_getElem hj
  unfold vertexFloats SubMesh.expectedVertexFloats
  by_cases hn : 0 < sm.normals.length
  · have hnl : j < sm.normals.length := by omega
    have hnv : sm.normals[j]? = some sm.normals[j] := List.getElem?_eq_getElem hnl
    by_cases ht : 0 < sm.texCoords.length
    · have htl : j < sm.texCoords.length := by omega
      have htv : sm.texCoords[j]? = some sm.texCoords[j] := List.getElem?_eq_getElem htl
      simp [hn, ht, SubMesh.GetVertex, SubMesh.GetNormal, SubMesh.GetTexCoord, hv, hnv, htv]
    · simp [hn, ht, SubMesh.GetVertex, SubMesh.GetNormal, hv, hnv]
  · by_cases ht : 0 < sm.texCoords.length
    · have htl : j < sm.texCoords.length := by omega
      have htv : sm.texCoords[j]? = some sm.texCoords[j] := List.getElem?_eq_getElem htl
      simp [hn, ht, SubMesh.GetVertex, SubMesh.GetTexCoord, hv, htv]
    · simp [hn, ht, SubMesh.GetVertex, hv]

theorem writeVertices_eq (sm : SubMesh) (hwf : sm.wellFormed = true) :
    ∀ (count j : Nat), j + count ≤ sm.vertices.length →
      writeVertices sm count j = .ok (sm.expectedFloatsFrom count j) := by
  intro count
  induction count with
  | zero => intro j _; rfl
  | succ count ih =>
    intro j hj
    simp only [writeVertices, SubMesh.expectedFloatsFrom,
      vertexFloats_eq sm hwf j (by omega), ih (j + 1) (by omega)]

theorem expectedFloatsFrom_length (sm : SubMesh) :
    ∀ (count j : Nat), (sm.expectedFloatsFrom count j).length = count * sm.stride := by
  intro count
  induction count with
  | zero => intro j; simp [SubMesh.expectedFloatsFrom]
  | succ count ih =>
    intro j
    simp only [SubMesh.expectedFloatsFrom, List.length_append, expectedVertexFloats_length, ih]
    ring

theorem expectedFloatsFrom_segment (sm : SubMesh) :
    ∀ (count j k : Nat), k < count →
      ((sm.expectedFloatsFrom count j).drop (k * sm.stride)).take sm.stride
        = sm.expectedVertexFloats (j + k) := by
  intro count
  induction count with
  | zero => intro j k hk; omega
  | succ count ih =>
    intro j k hk
    cases k with
    | zero =>
      simp only [SubMesh.expectedFloatsFrom, Nat.zero_mul, List.drop_zero, Nat.add_zero]
      rw [List.take_append_of_le_length (by rw [expectedVertexFloats_length])]
      rw [List.take_of_length_le (by rw [expectedVertexFloats_length])]
    | succ k =>
      have hsplit : (k + 1) * sm.stride = (sm.expectedVertexFloats j).length + k * sm.stride := by
        rw [expectedVertexFloats_length]; ring
      simp only [SubMesh.expectedFloatsFrom]
      rw [hsplit, List.drop_append, ih (j + 1) k (by omega)]
      congr 1
      omega

theorem updateMaterial_ogreMeshes (b : Backend) (name : String) :
    (b.updateMaterial name).ogreMeshes = b.ogreMeshes := by
  unfold Backend.updateMaterial
  by_cases h : b.resourceExists name = true <;> simp [h]

theorem insertSubMesh_wf (mesh : Mesh) (sm : SubMesh) (b : Backend)
    (hwf : sm.wellFormed = true) :
    ∃ osm b1, insertSubMesh mesh sm b = .ok (osm, b1) ∧ b1.ogreMeshes = b.ogreMeshes ∧
      sm.laidOutAs osm := by
  have hw := writeVertices_eq sm hwf sm.vertices.length 0 (by omega)
  have hlay : ∀ name : Option String, sm.laidOutAs
      { useSharedVertices := false, vertexDeclaration := (vertexDeclaration sm).1,
        vertexCount := sm.vertices.length,
        vertexBufferBytes := (vertexDeclaration sm).2 * sm.vertices.length,
        vertexBuffer := sm.expectedFloatsFrom sm.vertices.length 0,
        indexCount := sm.indices.length, indexBuffer := writeIndices sm,
        materialName := name } := by
    intro name
    refine ⟨by rw [vertexDeclaration_eq], rfl, expectedFloatsFrom_length sm _ _, ?_, ?_⟩
    · simp only [vertexDeclaration_eq, expectedFloatsFrom_length]
      ring
    · intro j hj
      have := expectedFloatsFrom_segment sm sm.vertices.length 0 j hj
      simpa using this
  unfold insertSubMesh
  simp only [hw]
  cases hmat : mesh.materials.get? sm.materialIndex with
  | none => exact ⟨_, _, rfl, rfl, hlay none⟩
  | some material => exact ⟨_, _, rfl, updateMaterial_ogreMeshes b material, hlay (some material)⟩

theorem insertSubMeshes_wf (mesh : Mesh) :
    ∀ (sms : List SubMesh) (b : Backend), sms.all SubMesh.wellFormed = true →
      ∃ osms b1, insertSubMeshes mesh sms b = (osms, b1, none) ∧
        b1.ogreMeshes = b.ogreMeshes ∧ List.Forall₂ SubMesh.laidOutAs sms osms := by
  intro sms
  induction sms with
  | nil => intro b _; exact ⟨[], b, rfl, rfl, List.Forall₂.nil⟩
  | cons sm rest ih =>
    intro b hall
    simp only [List.all_cons, Bool.and_eq_true] at hall
    obtain ⟨osm, b1, hone, hm1, hlay⟩ := insertSubMesh_wf mesh sm b hall.1
    obtain ⟨osms, b2, hrest, hm2, hlays⟩ := ih b1 hall.2
    refine ⟨osm :: osms, b2, ?_, by rw [hm2, hm1], List.Forall₂.cons hlay hlays⟩
    simp [insertSubMeshes, hone, hrest]

theorem map_replace_last (l : List OgreMesh) (m0 m : OgreMesh) (name : String)
    (hfresh : ∀ x, x ∈ l → x.name ≠ name) (h0 : m0.name = name) (hm : m.name = name) :
    (l ++ [m0]).map (fun x => if x.name = m.name then m else x) = l ++ [m] := by
  rw [List.map_append]
  congr 1
  · conv_rhs => rw [← List.map_id l]
    apply List.map_congr_left
    intro x hx
    simp [hm, hfresh x hx]
  · simp [hm, h0]

theorem find_last (l : List OgreMesh) (m : OgreMesh) (name : String)
    (hfresh : ∀ x, x ∈ l → x.name ≠ name) (hm : m.name = name) :
    (l ++ [m]).find? (fun x => x.name == name) = some m := by
  induction l with
  | nil => simp [hm]
  | cons x l ih =>
    have hx : x.name ≠ name := hfresh x (List.mem_cons_self _ _)
    have hx' : (x.name == name) = false := by simpa using hx
    rw [List.cons_append, List.find?_cons, hx']
    exact ih (fun y hy => hfresh y (List.mem_cons_of_mem _ hy))

theorem InsertMesh_fresh (mesh : Mesh) (b : Backend)
    (hfresh : b.getOgreMesh mesh.name = none) (hwf : mesh.wellFormed = true)
    (hsub : mesh.submeshes.length ≠ 0) :
    ∃ osms, List.Forall₂ SubMesh.laidOutAs mesh.submeshes osms ∧
      (mesh.max.IsFinite = true → mesh.min.IsFinite = true →
        (Visual.InsertMesh (some mesh) b).2 = none ∧
        (Visual.InsertMesh (some mesh) b).1.getOgreMesh mesh.name
          = some (OgreMesh.mk mesh.name osms (some ⟨mesh.min, mesh.max⟩) true)) ∧
      (mesh.max.IsFinite = false ∨ mesh.min.IsFinite = false →
        (∃ msg, (Visual.InsertMesh (some mesh) b).2 = some (Fault.gzthrow msg)) ∧
        (Visual.InsertMesh (some mesh) b).1.getOgreMesh mesh.name
          = some (OgreMesh.mk mesh.name osms none false)) := by
  have hno : ∀ x, x ∈ b.ogreMeshes → x.name ≠ mesh.name := by
    intro x hx
    have := List.find?_eq_none.mp hfresh x hx
    simpa using this
  have hany : b.ogreMeshes.any (fun m => m.name == mesh.name) = false := by
    rw [List.any_eq_false]
    intro x hx
    simpa using hno x hx
  obtain ⟨osms, b1, hins, hmeshes, hlay⟩ := insertSubMeshes_wf mesh mesh.submeshes
    { b with ogreMeshes := b.ogreMeshes ++
        [(OgreMesh.mk mesh.name [] none false)] } hwf
  have hb1 : b1.ogreMeshes = b.ogreMeshes ++
      [(OgreMesh.mk mesh.name [] none false)] := hmeshes
  have hstep1 : (b1.setOgreMesh (OgreMesh.mk mesh.name osms none false)).ogreMeshes
      = b.ogreMeshes ++ [(OgreMesh.mk mesh.name osms none false)] := by
    simp only [Backend.setOgreMesh, hb1]
    exact map_replace_last b.ogreMeshes (OgreMesh.mk mesh.name [] none false)
      (OgreMesh.mk mesh.name osms none false) mesh.name hno rfl rfl
  have hstep2 : ((b1.setOgreMesh (OgreMesh.mk mesh.name osms none false)).setOgreMesh
      (OgreMesh.mk mesh.name osms (some ⟨mesh.min, mesh.max⟩) true)).ogreMeshes
      = b.ogreMeshes ++ [(OgreMesh.mk mesh.name osms (some ⟨mesh.min, mesh.max⟩) true)] := by
    simp only [Backend.setOgreMesh] at hstep1 ⊢
    rw [hstep1]
    exact map_replace_last b.ogreMeshes (OgreMesh.mk mesh.name osms none false)
      (OgreMesh.mk mesh.name osms (some ⟨mesh.min, mesh.max⟩) true) mesh.name hno rfl rfl
  refine ⟨osms, hlay, ?_, ?_⟩
  · intro hmax hmin
    simp only [Visual.InsertMesh, hsub, if_false, hany, Bool.false_eq_true, hins, hmax, hmin,
      Bool.not_true, Backend.getOgreMesh, hstep2]
    exact ⟨trivial, find_last _ _ _ hno rfl⟩
  · intro hbad
    by_cases hmax : mesh.max.IsFinite = true
    · have hmin : mesh.min.IsFinite = false := by
        rcases hbad with h | h
        · rw [hmax] at h; cases h
        · exact h
      simp only [Visual.InsertMesh, hsub, if_false, hany, Bool.false_eq_true, hins, hmax, hmin,
        Bool.not_true, Bool.not_false, if_true, Backend.getOgreMesh, hstep1]
      exact ⟨⟨_, rfl⟩, find_last _ _ _ hno rfl⟩
    · have hmax' : mesh.max.IsFinite = false := by simpa using hmax
      simp only [Visual.InsertMesh, hsub, if_false, hany, Bool.false_eq_true, hins, hmax',
        Bool.not_false, if_true, Backend.getOgreMesh, hstep1]
      exact ⟨⟨_, rfl⟩, find_last _ _ _ hno rfl⟩

/-- C18: for a submesh whose normal and texture-coordinate arrays are each empty or
as long as the vertex array, the round of `InsertMesh` for it declares the
position at byte offset 0, the normal (if present) at 12 and the texture
coordinate (if present) at 12 without normals and 24 with them; with the stride
s = 3 + 3 [normals] + 2 [texture coordinates] it writes vertexCount * s floats,
the size of the allocated vertex buffer, and the floats of vertex j are those at
positions j * s to j * s + s - 1, in the order x, y, z, nx, ny, nz, u, v.  The
sub-resources of the mesh resource that `InsertMesh` registers are laid out so. -/
theorem C18_vertex_layout (mesh : Mesh) (sm : SubMesh) (b : Backend)
    (hwf : sm.wellFormed = true) :
    (∃ osm b1, insertSubMesh mesh sm b = .ok (osm, b1) ∧
      osm.vertexDeclaration = sm.expectedDeclaration ∧
      osm.vertexCount = sm.vertices.length ∧
      osm.vertexBuffer.length = sm.vertices.length * sm.stride ∧
      osm.vertexBufferBytes = 4 * osm.vertexBuffer.length ∧
      (∀ j, j < sm.vertices.length →
        (osm.vertexBuffer.drop (j * sm.stride)).take sm.stride = sm.expectedVertexFloats j)) ∧
    (∀ (whole : Mesh) (b0 : Backend), b0.getOgreMesh whole.name = none →
      whole.wellFormed = true → whole.submeshes.length ≠ 0 →
      ∃ resource, (Visual.InsertMesh (some whole) b0).1.getOgreMesh whole.name = some resource ∧
        List.Forall₂ SubMesh.laidOutAs whole.submeshes resource.subMeshes) := by
  constructor
  · obtain ⟨osm, b1, hins, _, hlay⟩ := insertSubMesh_wf mesh sm b hwf
    exact ⟨osm, b1, hins, hlay⟩
  · intro whole b0 hfresh hwhole hsub
    obtain ⟨osms, hlay, hfin, hinf⟩ := InsertMesh_fresh whole b0 hfresh hwhole hsub
    by_cases hmax : whole.max.IsFinite = true
    · by_cases hmin : whole.min.IsFinite = true
      · exact ⟨_, (hfin hmax hmin).2, hlay⟩
      · exact ⟨_, (hinf (Or.inr (by simpa using hmin))).2, hlay⟩
    · exact ⟨_, (hinf (Or.inl (by simpa using hmax))).2, hlay⟩

/-- Witness of C18: a triangle with normals and texture coordinates; the stride is
8 floats and the buffer holds 24 floats in 96 bytes. -/
theorem C18_vertex_layout_witness :
    texturedTriangle.wellFormed = true ∧
    ((∃ osm b1, insertSubMesh unitBoxMesh texturedTriangle Backend.empty = .ok (osm, b1) ∧
      osm.vertexDeclaration = texturedTriangle.expectedDeclaration ∧
      osm.vertexCount = texturedTriangle.vertices.length ∧
      osm.vertexBuffer.length = texturedTriangle.vertices.length * texturedTriangle.stride ∧
      osm.vertexBufferBytes = 4 * osm.vertexBuffer.length ∧
      (∀ j, j < texturedTriangle.vertices.length →
        (osm.vertexBuffer.drop (j * texturedTriangle.stride)).take texturedTriangle.stride
          = texturedTriangle.expectedVertexFloats j)) ∧
     (∀ (whole : Mesh) (b0 : Backend), b0.getOgreMesh whole.name = none →
       whole.wellFormed = true → whole.submeshes.length ≠ 0 →
       ∃ resource,
         (Visual.InsertMesh (some whole) b0).1.getOgreMesh whole.name = some resource ∧
         List.Forall₂ SubMesh.laidOutAs whole.submeshes resource.subMeshes)) ∧
    texturedTriangle.stride = 8 ∧
    texturedTriangle.expectedDeclaration.map (fun e => e.offset) = [0, 12, 24] ∧
    unitBoxMesh.submeshes.map (fun s => s.expectedDeclaration.map fun e => e.offset) = [[0]] :=
  ⟨by decide, C18_vertex_layout unitBoxMesh texturedTriangle Backend.empty (by decide),
   by decide, by decide, by decide⟩

/-! ## Bounds of an uploaded mesh (C13) -/

/-- C13 as stated fails: a mesh with one submesh and finite corners whose submesh
has three vertices and one normal makes `InsertMesh` raise in a backend without
mesh resources: the read of the second normal is out of range.  The resource
keeps the unfinished sub-resource, with the nine floats written before the
fault (vertex 0 with its normal, the position of vertex 1), and is not marked
loaded. -/
theorem C13_counterexample :
    Backend.empty.getOgreMesh raggedMesh.name = none ∧
    raggedMesh.submeshes.length = 1 ∧
    raggedMesh.max.IsFinite = true ∧ raggedMesh.min.IsFinite = true ∧
    (Visual.InsertMesh (some raggedMesh) Backend.empty).2
      = some (Fault.gzthrow "Index too large") ∧
    ((Visual.InsertMesh (some raggedMesh) Backend.empty).1.getOgreMesh "ragged").map
      (fun m => (m.subMeshes.map (fun sm => sm.vertexBuffer.length), m.loaded))
      = some ([9], false) := by
  decide

/-- C13 (amended): for a mesh whose submeshes have a normal array and a
texture-coordinate array that are each empty or as long as the vertex array, and
whose name is not yet a mesh resource (so that the backend raises no error),
`InsertMesh` raises to its caller if and only if the mesh has a submesh and its
maximum or minimum corner is not finite; the mesh resource is then not marked
loaded.  With a submesh and finite corners the call returns normally, the
resource has the bounds (min, max) and is marked loaded. -/
theorem C13_InsertMesh_bounds (mesh : Mesh) (b : Backend)
    (hfresh : b.getOgreMesh mesh.name = none) (hwf : mesh.wellFormed = true) :
    ((Visual.InsertMesh (some mesh) b).2 ≠ none ↔
      (mesh.submeshes.length ≠ 0 ∧
        (mesh.max.IsFinite = false ∨ mesh.min.IsFinite = false))) ∧
    ((Visual.InsertMesh (some mesh) b).2 ≠ none →
      ((Visual.InsertMesh (some mesh) b).1.getOgreMesh mesh.name).map (fun m => m.loaded)
        = some false) ∧
    (mesh.submeshes.length ≠ 0 → mesh.max.IsFinite = true → mesh.min.IsFinite = true →
      (Visual.InsertMesh (some mesh) b).2 = none ∧
      ((Visual.InsertMesh (some mesh) b).1.getOgreMesh mesh.name).map (fun m => m.bounds)
        = some (some ⟨mesh.min, mesh.max⟩) ∧
      ((Visual.InsertMesh (some mesh) b).1.getOgreMesh mesh.name).map (fun m => m.loaded)
        = some true) := by
  by_cases hsub : mesh.submeshes.length = 0
  · have hret : (Visual.InsertMesh (some mesh) b).2 = none := by
      simp [Visual.InsertMesh, hsub]
    refine ⟨?_, ?_, ?_⟩
    · rw [hret]
      simp [hsub]
    · intro h
      exact absurd hret h
    · intro h
      exact absurd hsub h
  · obtain ⟨osms, _, hfin, hinf⟩ := InsertMesh_fresh mesh b hfresh hwf hsub
    have hiff : (Visual.InsertMesh (some mesh) b).2 ≠ none ↔
        (mesh.submeshes.length ≠ 0 ∧
          (mesh.max.IsFinite = false ∨ mesh.min.IsFinite = false)) := by
      constructor
      · intro hraise
        refine ⟨hsub, ?_⟩
        by_contra hfinite
        push_neg at hfinite
        exact hraise (hfin (by simpa using hfinite.1) (by simpa using hfinite.2)).1
      · rintro ⟨_, hbad⟩
        obtain ⟨⟨msg, hmsg⟩, _⟩ := hinf hbad
        rw [hmsg]
        simp
    refine ⟨hiff, ?_, ?_⟩
    · intro hraise
      rw [(hinf (hiff.mp hraise).2).2]
      rfl
    · intro _ hmax hmin
      obtain ⟨hret, hres⟩ := hfin hmax hmin
      refine ⟨hret, ?_, ?_⟩ <;> rw [hres] <;> rfl

/-- Witness of C13 (amended): the unit box uploaded into an empty backend, and the same
mesh with an infinite maximum corner, which raises and stays unloaded. -/
theorem C13_InsertMesh_bounds_witness :
    Backend.empty.getOgreMesh unitBoxMesh.name = none ∧ unitBoxMesh.wellFormed = true ∧
    (((Visual.InsertMesh (some unitBoxMesh) Backend.empty).2 ≠ none ↔
      (unitBoxMesh.submeshes.length ≠ 0 ∧
        (unitBoxMesh.max.IsFinite = false ∨ unitBoxMesh.min.IsFinite = false))) ∧
     ((Visual.InsertMesh (some unitBoxMesh) Backend.empty).2 ≠ none →
       ((Visual.InsertMesh (some unitBoxMesh) Backend.empty).1.getOgreMesh
          unitBoxMesh.name).map (fun m => m.loaded) = some false) ∧
     (unitBoxMesh.submeshes.length ≠ 0 → unitBoxMesh.max.IsFinite = true →
       unitBoxMesh.min.IsFinite = true →
       (Visual.InsertMesh (some unitBoxMesh) Backend.empty).2 = none ∧
       ((Visual.InsertMesh (some unitBoxMesh) Backend.empty).1.getOgreMesh
          unitBoxMesh.name).map (fun m => m.bounds)
         = some (some ⟨unitBoxMesh.min, unitBoxMesh.max⟩) ∧
       ((Visual.InsertMesh (some unitBoxMesh) Backend.empty).1.getOgreMesh
          unitBoxMesh.name).map (fun m => m.loaded) = some true)) ∧
    (Visual.InsertMesh (some unitBoxMesh) Backend.empty).2 = none ∧
    (Visual.InsertMesh (some unboundedMesh) Backend.empty).2
      = some (Fault.gzthrow "Max bounding box is not finite") ∧
    ((Visual.InsertMesh (some unboundedMesh) Backend.empty).1.getOgreMesh "unbounded").map
      (fun m => m.loaded) = some false :=
  ⟨by decide, by decide, C13_InsertMesh_bounds unitBoxMesh Backend.empty (by decide) (by decide),
   by decide, by decide, by decide⟩

/-! ## World pose (C14) -/

theorem GetWorldPose_after_SetWorldPose_rot (vis : Visual) (p : Pose) :
    (vis.SetWorldPose p).GetWorldPose.rot
      = vis.sceneNode.parentDerivedOrientation.Inverse.mul p.rot := by
  rfl

/-- C14: the code at the failing input.  Below a parent turned by half a turn about
x, `SetWorldPose` of the pose at (4, 5, 6) with identity orientation makes the
derived orientation of the node the identity, and `GetWorldPose()` returns the
position (4, 5, 6) but the local orientation (0, -1, 0, 0). -/
theorem C14_GetWorldPose_returns_local_orientation :
    (visualUnderTurnedParent.SetWorldPose ⟨⟨4, 5, 6⟩, ⟨1, 0, 0, 0⟩⟩).GetWorldPose.pos
      = ⟨4, 5, 6⟩ ∧
    (visualUnderTurnedParent.SetWorldPose ⟨⟨4, 5, 6⟩, ⟨1, 0, 0, 0⟩⟩).sceneNode.derivedOrientation
      = ⟨1, 0, 0, 0⟩ ∧
    (visualUnderTurnedParent.SetWorldPose ⟨⟨4, 5, 6⟩, ⟨1, 0, 0, 0⟩⟩).GetWorldPose.rot
      = ⟨0, -1, 0, 0⟩ ∧
    (visualUnderTurnedParent.SetWorldPose ⟨⟨4, 5, 6⟩, ⟨1, 0, 0, 0⟩⟩).GetWorldPose
      ≠ ⟨⟨4, 5, 6⟩, ⟨1, 0, 0, 0⟩⟩ := by
  have hrot : (visualUnderTurnedParent.SetWorldPose ⟨⟨4, 5, 6⟩, ⟨1, 0, 0, 0⟩⟩).GetWorldPose.rot
      = ⟨0, -1, 0, 0⟩ := by
    simp only [Visual.GetWorldPose, Visual.SetWorldPose, SceneNode.setDerivedOrientation,
      SceneNode.setDerivedPosition, visualUnderTurnedParent, Quaternion.Inverse,
      Quaternion.mul, rootSceneNode, visualWith]
    norm_num
  refine ⟨?_, ?_, hrot, ?_⟩
  · simp only [Visual.GetWorldPose, Visual.SetWorldPose, SceneNode.setDerivedOrientation,
      SceneNode.setDerivedPosition, SceneNode.derivedPosition, visualUnderTurnedParent,
      Quaternion.Inverse, Quaternion.rotate, Vector3.cross, rootSceneNode, visualWith]
    norm_num
  · simp only [Visual.SetWorldPose, SceneNode.setDerivedOrientation,
      SceneNode.setDerivedPosition, SceneNode.derivedOrientation, visualUnderTurnedParent,
      Quaternion.Inverse, Quaternion.mul, rootSceneNode, visualWith]
    norm_num
  · intro h
    have h2 := congrArg (fun q : Pose => q.rot.w) h
    simp only [hrot] at h2
    norm_num at h2

/-! ## Descriptor scale and node scale (C19) -/

/-- C19 as stated fails: on a sphere `SetScale((1, 2, 3))` gives the node the
scale (1, 2, 3) while `GetScale()` reads (1, 1, 1); on a plane `SetScale((2, 2, 2))`
gives the node the scale (2, 2, 2) while `GetScale()` reads (1, 1, 1). -/
theorem C19_counterexample :
    (((visualWith (some (some (.sphere 1)))).SetScale ⟨1, 2, 3⟩).sceneNode.scale = ⟨1, 2, 3⟩ ∧
     ((visualWith (some (some (.sphere 1)))).SetScale ⟨1, 2, 3⟩).GetScale = ⟨1, 1, 1⟩) ∧
    (((visualWith (some (some (.plane ⟨0, 0, 1⟩)))).SetScale ⟨2, 2, 2⟩).sceneNode.scale
       = ⟨2, 2, 2⟩ ∧
     ((visualWith (some (some (.plane ⟨0, 0, 1⟩)))).SetScale ⟨2, 2, 2⟩).GetScale
       = ⟨1, 1, 1⟩) := by
  decide

/-- C19 (amended): after `SetScale(v)` the scale of the backend node is v.
`GetScale()` reads the same vector back from the descriptor when the geometry is
a box or a mesh, and when it is a sphere or a cylinder and v is uniform
(x = y = z); for a plane and for no geometry the descriptor keeps no scale and
`GetScale()` is (1, 1, 1). -/
theorem C19_scale_agreement (vis : Visual) (v : Vector3 ℚ) :
    (vis.SetScale v).sceneNode.scale = v ∧
    (((∃ size, vis.sdf.geometry = some (some (.box size))) ∨
      (∃ filename scale, vis.sdf.geometry = some (some (.mesh filename scale)))) →
      (vis.SetScale v).GetScale = (vis.SetScale v).sceneNode.scale) ∧
    (((∃ r, vis.sdf.geometry = some (some (.sphere r))) ∨
      (∃ r l, vis.sdf.geometry = some (some (.cylinder r l)))) →
      v.y = v.x → v.z = v.x →
      (vis.SetScale v).GetScale = (vis.SetScale v).sceneNode.scale) ∧
    (((∃ normal, vis.sdf.geometry = some (some (.plane normal))) ∨
      vis.sdf.geometry = some none ∨ vis.sdf.geometry = none) →
      (vis.SetScale v).GetScale = ⟨1, 1, 1⟩) := by
  refine ⟨rfl, ?_, ?_, ?_⟩
  · rintro (⟨size, h⟩ | ⟨filename, scale, h⟩) <;>
      simp [Visual.SetScale, Visual.GetScale, Element.GetOrCreateGeometry, h]
  · rintro (⟨r, h⟩ | ⟨r, l, h⟩) hy hz
    · have hs : (vis.SetScale v).GetScale = ⟨v.x, v.x, v.x⟩ := by
        simp [Visual.SetScale, Visual.GetScale, Element.GetOrCreateGeometry, h]
      rw [hs]
      cases v
      simp_all [Visual.SetScale]
    · have hs : (vis.SetScale v).GetScale = ⟨v.x, v.x, v.y⟩ := by
        simp [Visual.SetScale, Visual.GetScale, Element.GetOrCreateGeometry, h]
      rw [hs]
      cases v
      simp_all [Visual.SetScale]
  · rintro (⟨normal, h⟩ | h | h) <;>
      simp [Visual.SetScale, Visual.GetScale, Element.GetOrCreateGeometry, h]

/-- Witness of C19 (amended): a box scaled to (2, 3, 4) and a sphere scaled to
(5, 5, 5). -/
theorem C19_scale_agreement_witness :
    ((visualWith (some (some (.box ⟨1, 1, 1⟩)))).SetScale ⟨2, 3, 4⟩).GetScale
      = ((visualWith (some (some (.box ⟨1, 1, 1⟩)))).SetScale ⟨2, 3, 4⟩).sceneNode.scale ∧
    ((visualWith (some (some (.sphere 1)))).SetScale ⟨5, 5, 5⟩).GetScale
      = ((visualWith (some (some (.sphere 1)))).SetScale ⟨5, 5, 5⟩).sceneNode.scale :=
  ⟨(C19_scale_agreement (visualWith (some (some (.box ⟨1, 1, 1⟩)))) ⟨2, 3, 4⟩).2.1
     (Or.inl ⟨⟨1, 1, 1⟩, rfl⟩),
   (C19_scale_agreement (visualWith (some (some (.sphere 1)))) ⟨5, 5, 5⟩).2.2.1
     (Or.inl ⟨1, rfl⟩) rfl rfl⟩

/-! ## Attachments of visuals named rot... or trans... (C20) -/

theorem AttachObject_ok (vis vis1 : Visual) (obj : MovableObject)
    (hatt : vis.AttachObject obj = (vis1, none)) :
    ∃ tagged, vis1 = { vis with sceneNode :=
        { vis.sceneNode with objects := vis.sceneNode.objects ++ [tagged] } } ∧
      tagged.userAny = UserAny.str vis.name ∧
      tagged.worldBoundingBox = obj.worldBoundingBox ∧ tagged.visible = obj.visible ∧
      tagged.movableType = obj.movableType := by
  by_cases hany : (vis.sceneNode.objects.any fun o => o.name == obj.name) = true
  · by_cases hplane : vis.IsPlane = true <;>
      simp [Visual.AttachObject, SceneNode.attachObject, hany, hplane] at hatt
  · by_cases hplane : vis.IsPlane = true
    · refine ⟨{ obj with renderQueueGroup := RENDER_QUEUE_WORLD_GEOMETRY_1 - 2,
                         userAny := UserAny.str vis.name }, ?_, rfl, rfl, rfl, rfl⟩
      simp only [Visual.AttachObject, SceneNode.attachObject, hany, hplane, if_true,
        Bool.false_eq_true, if_false, Prod.mk.injEq, and_true] at hatt
      rw [← hatt]
      rfl
    · refine ⟨{ obj with userAny := UserAny.str vis.name }, ?_, rfl, rfl, rfl, rfl⟩
      simp only [Visual.AttachObject, SceneNode.attachObject, hany, hplane,
        Bool.false_eq_true, if_false, Prod.mk.injEq, and_true] at hatt
      rw [← hatt]
      rfl

theorem tagged_not_qualifies (obj : MovableObject) (tag : String)
    (htag : obj.userAny = UserAny.str tag)
    (hname : beginsWith "rot" tag = true ∨ beginsWith "trans" tag = true) :
    obj.qualifies = false := by
  unfold MovableObject.qualifies
  rcases hname with h | h <;> simp [htag, h]

mutual
theorem attachAt_qualifying : ∀ (t : NodeTree) (path : List Nat) (obj : MovableObject),
    obj.qualifies = false →
    (t.attachAt path obj).attachments.filter MovableObject.qualifies
      = t.attachments.filter MovableObject.qualifies
  | .node self children, [], obj, h => by
    simp [NodeTree.attachAt, NodeTree.attachments, List.filter_append, h]
  | .node self children, i :: path, obj, h => by
    simp only [NodeTree.attachAt, NodeTree.attachments, List.filter_append]
    rw [attachInChild_qualifying children i path obj h]
theorem attachInChild_qualifying : ∀ (ts : List NodeTree) (i : Nat) (path : List Nat)
    (obj : MovableObject), obj.qualifies = false →
    (attachmentsOfAll (attachInChild ts i path obj)).filter MovableObject.qualifies
      = (attachmentsOfAll ts).filter MovableObject.qualifies
  | [], _, _, _, _ => by simp [attachInChild]
  | t :: ts, 0, path, obj, h => by
    simp only [attachInChild, attachmentsOfAll, List.filter_append]
    rw [attachAt_qualifying t path obj h]
  | t :: ts, i + 1, path, obj, h => by
    simp only [attachInChild, attachmentsOfAll, List.filter_append]
    rw [attachInChild_qualifying ts i path obj h]
end

theorem GetBoundsHelper_qualifying (t : NodeTree) (box : Box) :
    GetBoundsHelper t box
      = ((t.attachments.filter MovableObject.qualifies).map fun o => o.worldBoundingBox).foldl
          Box.Merge box := by
  rw [GetBoundsHelper_eq, foldl_mergeAttachment]

/-- C20: `AttachObject` tags the object it attaches with the name of the visual,
and the attachment loop of `GetBoundsHelper` leaves the box as it is for an object
whose tag begins with `rot` or `trans`.  Hence, for a visual whose name begins
with `rot` or `trans`, an object attached through `AttachObject` changes neither
`GetBoundingBox()` of the visual nor the box computed for any tree of nodes in
which it hangs (any ancestor), whatever its bounds and visibility. -/
theorem C20_gizmo_named_visual_attachments_skipped (vis vis1 : Visual) (obj : MovableObject)
    (hname : beginsWith "rot" vis.name = true ∨ beginsWith "trans" vis.name = true)
    (hatt : vis.AttachObject obj = (vis1, none)) :
    ∃ tagged,
      vis1.sceneNode.objects = vis.sceneNode.objects ++ [tagged] ∧
      tagged.userAny = UserAny.str vis.name ∧
      tagged.worldBoundingBox = obj.worldBoundingBox ∧ tagged.visible = obj.visible ∧
      (∀ box, mergeAttachment box tagged = box) ∧
      (∀ children, vis1.GetBoundingBox children = vis.GetBoundingBox children) ∧
      (∀ (t : NodeTree) (path : List Nat) (box : Box),
        GetBoundsHelper (t.attachAt path tagged) box = GetBoundsHelper t box) := by
  obtain ⟨tagged, hvis, htag, hbox, hvisible, _⟩ := AttachObject_ok vis vis1 obj hatt
  have hq : tagged.qualifies = false := tagged_not_qualifies tagged vis.name htag hname
  have htree : ∀ (t : NodeTree) (path : List Nat) (box : Box),
      GetBoundsHelper (t.attachAt path tagged) box = GetBoundsHelper t box := by
    intro t path box
    rw [GetBoundsHelper_qualifying, GetBoundsHelper_qualifying, attachAt_qualifying t path _ hq]
  refine ⟨tagged, by rw [hvis], htag, hbox, hvisible, ?_, ?_, htree⟩
  · intro box
    rw [mergeAttachment_eq, hq]
    simp
  · intro children
    have := htree (.node vis.sceneNode children) [] Box.empty
    rw [hvis]
    simpa [Visual.GetBoundingBox, NodeTree.attachAt] using this

/-- Witness of C20: a large visible entity attached to the visual `rotor`; the
bounding box of `rotor` stays the empty sentinel. -/
theorem C20_gizmo_named_visual_attachments_skipped_witness :
    (beginsWith "rot" visualRotor.name = true ∨ beginsWith "trans" visualRotor.name = true) ∧
    visualRotor.AttachObject largeEntity = ((visualRotor.AttachObject largeEntity).1, none) ∧
    (∃ tagged,
      (visualRotor.AttachObject largeEntity).1.sceneNode.objects
        = visualRotor.sceneNode.objects ++ [tagged] ∧
      tagged.userAny = UserAny.str visualRotor.name ∧
      tagged.worldBoundingBox = largeEntity.worldBoundingBox ∧
      tagged.visible = largeEntity.visible ∧
      (∀ box, mergeAttachment box tagged = box) ∧
      (∀ children, (visualRotor.AttachObject largeEntity).1.GetBoundingBox children
        = visualRotor.GetBoundingBox children) ∧
      (∀ (t : NodeTree) (path : List Nat) (box : Box),
        GetBoundsHelper (t.attachAt path tagged) box = GetBoundsHelper t box)) ∧
    (visualRotor.AttachObject largeEntity).1.GetNumAttached = 1 ∧
    (visualRotor.AttachObject largeEntity).1.GetBoundingBox [] = Box.empty :=
  ⟨Or.inl (by decide), by decide,
   C20_gizmo_named_visual_attachments_skipped visualRotor
     (visualRotor.AttachObject largeEntity).1 largeEntity (Or.inl (by decide)) (by decide),
   by decide, by decide⟩

/-! ## The hierarchy under AttachVisual (C15) -/

theorem AttachVisual_links (p c : Visual) (b : Backend) (hlinked : b.linked) :
    (p.AttachVisual (some c) b).2.2 = none ∧
    (∀ n, (p.AttachVisual (some c) b).2.1.parentOf n
      = if n = c.sceneNode.name then some p.sceneNode.name else b.parentOf n) ∧
    (∀ n q, n ∈ (p.AttachVisual (some c) b).2.1.childrenOf q ↔
      (n = c.sceneNode.name ∧ q = p.sceneNode.name) ∨
      (n ≠ c.sceneNode.name ∧ n ∈ b.childrenOf q)) ∧
    (∀ q, ((p.AttachVisual (some c) b).2.1.childrenOf q).Nodup) := by
  obtain ⟨hlink, hnodup⟩ := hlinked
  cases hpar : b.parentOf c.sceneNode.name with
  | none =>
    have hnot : ∀ q, c.sceneNode.name ∉ b.childrenOf q := by
      intro q hq
      have := (hlink _ q).mp hq
      rw [hpar] at this
      exact Option.noConfusion this
    simp only [Visual.AttachVisual, hpar, Backend.addChild]
    refine ⟨trivial, fun n => trivial, ?_, ?_⟩
    · intro n q
      by_cases hq : q = p.sceneNode.name
      · subst hq
        by_cases hn : n = c.sceneNode.name
        · subst hn
          simp [hnot]
        · simp [hnot, hn]
      · by_cases hn : n = c.sceneNode.name
        · subst hn
          simp [hq, hnot]
        · simp [hq, hn]
    · intro q
      by_cases hq : q = p.sceneNode.name
      · subst hq
        simp only [if_true, hnot, if_false]
        exact List.Nodup.append (hnodup _) (List.nodup_singleton _)
          (by
            simp only [List.disjoint_singleton]
            exact hnot _)
      · simp only [hq, if_false]
        exact hnodup q
  | some q0 =>
    have hmem : c.sceneNode.name ∈ b.childrenOf q0 := (hlink _ q0).mpr hpar
    have honly : ∀ q, c.sceneNode.name ∈ b.childrenOf q → q = q0 := by
      intro q hq
      have := (hlink _ q).mp hq
      rw [hpar] at this
      exact (Option.some.inj this).symm
    have hrem : (b.removeChild q0 c.sceneNode.name).parentOf c.sceneNode.name = none := by
      simp [Backend.removeChild, hmem]
    have hremPar : ∀ n, n ≠ c.sceneNode.name →
        (b.removeChild q0 c.sceneNode.name).parentOf n = b.parentOf n := by
      intro n hn
      simp [Backend.removeChild, hmem, hn]
    have hremMem : ∀ n q, n ∈ (b.removeChild q0 c.sceneNode.name).childrenOf q ↔
        (n ≠ c.sceneNode.name ∧ n ∈ b.childrenOf q) := by
      intro n q
      simp only [Backend.removeChild, hmem, if_true]
      by_cases hq : q = q0
      · subst hq
        simp only [if_true]
        rw [(hnodup q).mem_erase_iff]
      · simp only [hq, if_false]
        constructor
        · intro h
          refine ⟨?_, h⟩
          intro hn
          subst hn
          exact hq (honly q h)
        · exact fun h => h.2
    have hremNodup : ∀ q, ((b.removeChild q0 c.sceneNode.name).childrenOf q).Nodup := by
      intro q
      simp only [Backend.removeChild, hmem, if_true]
      by_cases hq : q = q0
      · subst hq
        simp only [if_true]
        exact (hnodup q).erase _
      · simp only [hq, if_false]
        exact hnodup q
    have hnot : ∀ q, c.sceneNode.name ∉ (b.removeChild q0 c.sceneNode.name).childrenOf q := by
      intro q hq
      exact ((hremMem _ q).mp hq).1 rfl
    simp only [Visual.AttachVisual, hpar, Backend.addChild, hrem]
    refine ⟨trivial, ?_, ?_, ?_⟩
    · intro n
      by_cases hn : n = c.sceneNode.name
      · simp [hn]
      · simp [hn, hremPar n hn]
    · intro n q
      by_cases hq : q = p.sceneNode.name
      · subst hq
        by_cases hn : n = c.sceneNode.name
        · subst hn
          simp [hnot]
        · simp [hnot, hn, hremMem]
      · by_cases hn : n = c.sceneNode.name
        · subst hn
          simp [hq, hnot]
        · simp [hq, hn, hremMem]
    · intro q
      by_cases hq : q = p.sceneNode.name
      · subst hq
        simp only [if_true, hnot, if_false]
        exact List.Nodup.append (hremNodup _) (List.nodup_singleton _)
          (by
            simp only [List.disjoint_singleton]
            exact hnot _)
      · simp only [hq, if_false]
        exact hremNodup q

theorem ancestorAt_add (b : Backend) :
    ∀ (j k : Nat) (n : String),
      b.ancestorAt (j + k) n = (b.ancestorAt j n).bind (b.ancestorAt k) := by
  intro j
  induction j with
  | zero => intro k n; simp [Backend.ancestorAt]
  | succ j ih =>
    intro k n
    have hjk : j + 1 + k = (j + k) + 1 := by omega
    rw [hjk]
    simp only [Backend.ancestorAt]
    cases b.parentOf n with
    | none => rfl
    | some q => exact ih k q

theorem ancestorAt_congr (b b1 : Backend) (cn : String)
    (hsame : ∀ n, n ≠ cn → b1.parentOf n = b.parentOf n) :
    ∀ (k : Nat) (n : String), (∀ j, j < k → b1.ancestorAt j n ≠ some cn) →
      b1.ancestorAt k n = b.ancestorAt k n := by
  intro k
  induction k with
  | zero => intro n _; rfl
  | succ k ih =>
    intro n havoid
    have hn : n ≠ cn := by
      intro h
      exact havoid 0 (Nat.succ_pos k) (by simp [Backend.ancestorAt, h])
    simp only [Backend.ancestorAt, hsame n hn]
    cases hq : b.parentOf n with
    | none => rfl
    | some q =>
      refine ih q ?_
      intro j hj
      have := havoid (j + 1) (by omega)
      simpa [Backend.ancestorAt, hsame n hn, hq] using this

theorem acyclic_after_relink (b b1 : Backend) (cn pn : String)
    (hacyclic : b.acyclic) (hne : cn ≠ pn) (hnotanc : ¬ b.isAncestor cn pn)
    (hc : b1.parentOf cn = some pn)
    (hsame : ∀ n, n ≠ cn → b1.parentOf n = b.parentOf n) : b1.acyclic := by
  classical
  intro n hcycle
  obtain ⟨k, hk⟩ := hcycle
  by_cases havoid : ∀ j, j < k + 1 → b1.ancestorAt j n ≠ some cn
  · have := ancestorAt_congr b b1 cn hsame (k + 1) n havoid
    rw [hk] at this
    exact hacyclic n ⟨k, this.symm⟩
  · push_neg at havoid
    obtain ⟨j, _, hj⟩ := havoid
    have hcc : b1.ancestorAt (k + 1) cn = some cn := by
      have h1 := ancestorAt_add b1 j (k + 1) n
      have h2 := ancestorAt_add b1 (k + 1) j n
      rw [hj] at h1
      rw [hk] at h2
      simp only [Option.some_bind] at h1 h2
      rw [← h1, Nat.add_comm, h2, hj]
    have hpc : b1.ancestorAt k pn = some cn := by
      simpa [Backend.ancestorAt, hc] using hcc
    have hex : ∃ m, b1.ancestorAt m pn = some cn := ⟨k, hpc⟩
    have hspec := Nat.find_spec hex
    have heq := ancestorAt_congr b b1 cn hsame (Nat.find hex) pn
      (fun i hi => Nat.find_min hex hi)
    rw [hspec] at heq
    cases hm : Nat.find hex with
    | zero =>
      rw [hm] at heq
      simp only [Backend.ancestorAt] at heq
      exact hne (Option.some.inj heq)
    | succ m =>
      rw [hm] at heq
      exact hnotanc ⟨m, heq.symm⟩

theorem backendP_forest : backendP.forest := by
  refine ⟨⟨?_, ?_⟩, ?_, ?_⟩
  · intro n q
    simp only [backendP]
    by_cases hq : q = "Ogre/SceneRoot" <;> by_cases hn : n = "p" <;> simp [hq, hn]
    all_goals exact fun h => hq h.symm
  · intro q
    simp only [backendP]
    by_cases hq : q = "Ogre/SceneRoot" <;> simp [hq]
  · intro n q1 q2
    simp only [backendP]
    by_cases h1 : q1 = "Ogre/SceneRoot" <;> by_cases h2 : q2 = "Ogre/SceneRoot" <;>
      simp [h1, h2]
  · rintro n ⟨k, hk⟩
    by_cases hn : n = "p"
    · subst hn
      cases k with
      | zero => simp [Backend.ancestorAt, backendP] at hk
      | succ k => simp [Backend.ancestorAt, backendP] at hk
    · simp [Backend.ancestorAt, backendP, hn] at hk

theorem backendQP_forest : backendQP.forest := by
  refine ⟨⟨?_, ?_⟩, ?_, ?_⟩
  · intro n q
    simp only [backendQP]
    by_cases hq : q = "Ogre/SceneRoot"
    · subst hq
      by_cases hn : n = "q"
      · subst hn; simp
      · by_cases hn2 : n = "p"
        · subst hn2; simp
        · simp [hn, hn2]
    · by_cases hq2 : q = "q"
      · subst hq2
        by_cases hn : n = "p"
        · subst hn; simp
        · by_cases hn2 : n = "q"
          · subst hn2; simp
          · simp [hn, hn2]
      · by_cases hn : n = "p"
        · subst hn; simp [hq, hq2, Ne.symm hq2]
        · by_cases hn2 : n = "q"
          · subst hn2; simp [hq, hq2, Ne.symm hq]
          · simp [hq, hq2, hn, hn2]
  · intro q
    simp only [backendQP]
    by_cases hq : q = "Ogre/SceneRoot" <;> by_cases hq2 : q = "q" <;> simp [hq, hq2]
  · intro n q1 q2
    simp only [backendQP]
    by_cases h1 : q1 = "Ogre/SceneRoot" <;> by_cases h2 : q2 = "Ogre/SceneRoot" <;>
      by_cases h3 : q1 = "q" <;> by_cases h4 : q2 = "q" <;> simp_all
  · rintro n ⟨k, hk⟩
    by_cases hn : n = "p"
    · subst hn
      cases k with
      | zero => simp [Backend.ancestorAt, backendQP] at hk
      | succ k =>
        cases k with
        | zero => simp [Backend.ancestorAt, backendQP] at hk
        | succ k => simp [Backend.ancestorAt, backendQP] at hk
    · by_cases hn2 : n = "q"
      · subst hn2
        cases k with
        | zero => simp [Backend.ancestorAt, backendQP] at hk
        | succ k => simp [Backend.ancestorAt, backendQP] at hk
      · simp [Backend.ancestorAt, backendQP, hn, hn2] at hk

/-- C15 as stated fails: `p.AttachVisual(p)` on the forest with the single node `p`
makes `p` its own parent, and `p.AttachVisual(q)` on the forest with `p` below
`q` makes `q` a child of its own child. -/
theorem C15_counterexample :
    (backendP.forest ∧ (visualP.AttachVisual (some visualP) backendP).2.2 = none ∧
      ¬ (visualP.AttachVisual (some visualP) backendP).2.1.acyclic) ∧
    (backendQP.forest ∧ (visualP.AttachVisual (some visualQ) backendQP).2.2 = none ∧
      ¬ (visualP.AttachVisual (some visualQ) backendQP).2.1.acyclic) := by
  refine ⟨⟨backendP_forest, by decide, ?_⟩, ⟨backendQP_forest, by decide, ?_⟩⟩
  · intro h
    exact h "p" ⟨0, by decide⟩
  · intro h
    exact h "p" ⟨1, by decide⟩

/-- C15 (amended): for every forest and every pair of nodes p and c such that c is
neither p nor an ancestor of p, `p.AttachVisual(c)` returns normally and the
hierarchy is a forest again: links stay consistent, each node has at most one
parent, and the parent relation is acyclic. -/
theorem C15_forest_preserved (p c : Visual) (b : Backend) (hforest : b.forest)
    (hne : c.sceneNode.name ≠ p.sceneNode.name)
    (hnotanc : ¬ b.isAncestor c.sceneNode.name p.sceneNode.name) :
    (p.AttachVisual (some c) b).2.2 = none ∧ (p.AttachVisual (some c) b).2.1.forest := by
  obtain ⟨hlinked, _, hacyclic⟩ := hforest
  obtain ⟨hok, hpar, hmem, hnodup⟩ := AttachVisual_links p c b hlinked
  have hlinked1 : (p.AttachVisual (some c) b).2.1.linked := by
    refine ⟨?_, hnodup⟩
    intro n q
    rw [hmem, hpar]
    by_cases hn : n = c.sceneNode.name
    · simp [hn, eq_comm]
    · simp [hn, hlinked.1 n q]
  refine ⟨hok, hlinked1, ?_, ?_⟩
  · intro n q1 q2 h1 h2
    have e1 := (hlinked1.1 n q1).mp h1
    have e2 := (hlinked1.1 n q2).mp h2
    rw [e1] at e2
    exact Option.some.inj e2
  · exact acyclic_after_relink b _ c.sceneNode.name p.sceneNode.name hacyclic hne hnotanc
      (by rw [hpar]; simp) (fun n hn => by rw [hpar]; simp [hn])

/-- Witness of C15 (amended): `q.AttachVisual(p)` on the forest with `p` below `q`
and `q` below the root. -/
theorem C15_forest_preserved_witness :
    backendQP.forest ∧ visualP.sceneNode.name ≠ visualQ.sceneNode.name ∧
    ¬ backendQP.isAncestor visualP.sceneNode.name visualQ.sceneNode.name ∧
    (visualQ.AttachVisual (some visualP) backendQP).2.2 = none ∧
    (visualQ.AttachVisual (some visualP) backendQP).2.1.forest :=
  ⟨backendQP_forest, by decide,
   by
    rintro ⟨k, hk⟩
    cases k with
    | zero => simp [Backend.ancestorAt, backendQP, visualP, visualQ, visualWith] at hk
    | succ k => simp [Backend.ancestorAt, backendQP, visualP, visualQ, visualWith] at hk,
   (C15_forest_preserved visualQ visualP backendQP backendQP_forest (by decide)
     (by
      rintro ⟨k, hk⟩
      cases k with
      | zero => simp [Backend.ancestorAt, backendQP, visualP, visualQ, visualWith] at hk
      | succ k => simp [Backend.ancestorAt, backendQP, visualP, visualQ, visualWith] at hk)).1,
   (C15_forest_preserved visualQ visualP backendQP backendQP_forest (by decide)
     (by
      rintro ⟨k, hk⟩
      cases k with
      | zero => simp [Backend.ancestorAt, backendQP, visualP, visualQ, visualWith] at hk
      | succ k => simp [Backend.ancestorAt, backendQP, visualP, visualQ, visualWith] at hk)).2⟩

end gazebo
